import Mathlib

/-!
# SamplerFeedbackStreaming: tile update manager and file streamer

A shallow embedding of `TileUpdateManager/TileUpdateManager.cpp` and
`TileUpdateManager/FileStreamer.cpp`.

Conventions of the embedding

* C++ objects are records; a pointer is the natural number naming the object.
* The integer members of the manager (`m_frameFenceValue`, `m_renderFrameIndex`,
  `m_numSwapBuffers`) are declared in headers outside the translated files; the
  specification describes them as counters and they are natural numbers here.
  The explicit `(UINT)` casts of vector sizes in `EndFrame` are reductions
  modulo `2^32`.
* The Direct3D 12 runtime is an external collaborator.  A command list is the
  sequence of calls recorded on it since its last `Reset`, together with its
  closed flag; calls on the command queue, the thread machinery and the data
  uploader are appended to a call log kept in the manager state.
* `ASSERT` is fatal: a failed assertion ends the call with `Failure.assertion`
  and no state is produced.
* The compile-time switches `RESOLVE_TO_TEXTURE` and `COPY_RESIDENCY_MAPS` are
  defined outside the translated files and are parameters (`BuildConfig`).
* The CPU timing statistic computed at the end of `BeginFrame` is floating
  point and is left out of the state.
* The trace document of the file streamer is the pair of arrays under
  `resources` and `submits`; an array element is `none` where the JSON value is
  null, and assigning past the end of an array pads it with nulls.
* Single-precision arithmetic is a parameter (`FloatOps`): what is proved of the
  colour table and the palettes holds for every `pow` and every conversion to
  `UINT`.
* The in-class initial values of the file streamer's members, `m_lutSize`, the
  enumerators of `VisualizationMode` and the container type of
  `m_tracingResources` are declared in a header outside the translated files
  and are parameters; `m_copyFenceValue` is a natural number like the counters
  of the manager.
* The `int` counter of the trace-name loop is a natural number; it never
  exceeds the number of existing files plus one.
* Of the file system the manager state records the paths that do not resolve
  (`m_missingFiles`); `OpenFile` on such a path ends the call with
  `Failure.fileNotFound`.
-/

namespace Streaming

/-! ## Machine integers -/

/-- Number of values of a 32-bit `UINT`. -/
def UINT_RANGE : Nat := 2 ^ 32

/-! ## Failures -/

/-- Ways in which a call can end without producing a state. -/
inductive Failure where
  /-- An `ASSERT` did not hold. -/
  | assertion
  /-- Division by zero or an index past the end of a `std::vector`. -/
  | undefinedBehavior
  /-- A failed `HRESULT` thrown by `ThrowIfFailed`. -/
  | hresult
  /-- The failure `FileNotFound` of `OpenFile` on a path that does not resolve. -/
  | fileNotFound
  deriving DecidableEq, Repr

/-- The `ASSERT` macro: fatal when the condition is false. -/
def ASSERT (cond : Bool) : Except Failure Unit :=
  if cond then .ok () else .error .assertion

/-! ## File streamer (`FileStreamer.cpp`) -/

/-- An `ID3D12Fence`: the highest value the consumer has completed. -/
structure ID3D12Fence where
  m_completedValue : Nat
  deriving DecidableEq, Repr

/-- Accessor `ID3D12Fence::GetCompletedValue`. -/
def ID3D12Fence.GetCompletedValue (f : ID3D12Fence) : Nat := f.m_completedValue

/-- An update list; only `m_copyFenceValue` is read by the file streamer's
completion query, the requests it carries are kept as an uninterpreted
payload. -/
structure UpdateList where
  m_copyFenceValue : Nat
  m_coords : List Nat := []
  deriving DecidableEq, Repr

/-- A `D3D12_RESOURCE_DESC`, as far as the trace reads it. -/
structure D3D12_RESOURCE_DESC where
  Format : Nat
  Width : Nat
  Height : Nat
  MipLevels : Nat
  deriving DecidableEq, Repr

/-- A `D3D12_TILED_RESOURCE_COORDINATE`. -/
structure D3D12_TILED_RESOURCE_COORDINATE where
  X : Nat
  Y : Nat
  Z : Nat
  Subresource : Nat
  deriving DecidableEq, Repr

/-- The destination `ID3D12Resource` of an upload request: its address and what
its `GetDesc` returns. -/
structure DestinationResource where
  m_ptr : Nat
  m_desc : D3D12_RESOURCE_DESC
  deriving DecidableEq, Repr

/-- One request object of the trace document: the keys `rsrc`, `coord`, `file`,
`off`, `size` and, when present, `comp`. -/
structure TraceRequestObject where
  rsrc : Nat
  coord : Nat × Nat × Nat
  file : String
  off : Nat
  size : Nat
  comp : Option Nat
  deriving DecidableEq, Repr

/-- One resource object of the trace document: the keys `rsrc`, `fmt` and `dim`. -/
structure TraceResourceObject where
  rsrc : Nat
  fmt : Nat
  dim : Nat × Nat × Nat
  deriving DecidableEq, Repr

/-- The root of the trace document `m_trace`: the arrays under `resources` and
under `submits`.  An array element is `none` where the JSON value is null. -/
structure TraceFile where
  resources : List (Option TraceResourceObject) := []
  submits : List (Option (List (Option TraceRequestObject))) := []
  deriving DecidableEq, Repr

/-- Reading element `i` of a JSON array: null when the array is shorter. -/
def jsonAt {α : Type} (l : List (Option α)) (i : Nat) : Option α :=
  (l.get? i).join

/-- Assigning through `operator[]` at index `i` of a JSON array: an array
shorter than `i + 1` is first extended with nulls. -/
def jsonAssign {α : Type} (l : List (Option α)) (i : Nat) (v : α) : List (Option α) :=
  (l ++ List.replicate (i + 1 - l.length) none).set i (some v)

/-- The members of `Streaming::FileStreamer`.  The in-class initial values are
declared outside the translated files; the defaults here are an unset capture
flag, an empty document and map, zero indices, and `m_firstSubmit` set, the one
value with which the test in `TraceSubmit` ("ignore first submit") can fire. -/
structure FileStreamer where
  m_copyFence : ID3D12Fence
  m_copyFenceValue : Nat := 0
  m_visualizationMode : Nat := 0
  m_captureTrace : Bool := false
  m_firstSubmit : Bool := true
  m_trace : TraceFile := {}
  m_traceSubmitIndex : Nat := 0
  m_traceRequestIndex : Nat := 0
  m_tracingResources : List (Nat × D3D12_RESOURCE_DESC) := []
  deriving DecidableEq, Repr

/-- The method `FileStreamer::GetCompleted` (a `const` method). -/
def FileStreamer.GetCompleted (self : FileStreamer) (in_updateList : UpdateList) : Bool :=
  decide (in_updateList.m_copyFenceValue ≤ self.m_copyFence.GetCompletedValue)

/-! ### Trace capture -/

/-- The arguments of one `TraceRequest` call. -/
structure UploadRequest where
  in_pDstResource : DestinationResource
  in_dstCoord : D3D12_TILED_RESOURCE_COORDINATE
  in_srcFilename : String
  in_srcOffset : Nat
  in_srcNumBytes : Nat
  in_compressionFormat : Nat
  deriving DecidableEq, Repr

/-- The request object `TraceRequest` leaves at its slot of the document;
`previous` is what the slot held.  The file name is converted with a length that
counts the terminating null, which therefore ends the stored string; `comp` is
assigned only for a non-zero compression format. -/
def traceRequestObject (q : UploadRequest) (previous : Option TraceRequestObject) :
    TraceRequestObject :=
  { rsrc := q.in_pDstResource.m_ptr
    coord := (q.in_dstCoord.X, q.in_dstCoord.Y, q.in_dstCoord.Subresource)
    file := q.in_srcFilename.push (Char.ofNat 0)
    off := q.in_srcOffset
    size := q.in_srcNumBytes
    comp := if q.in_compressionFormat != 0 then some q.in_compressionFormat
            else previous.bind (fun o => o.comp) }

/-- The method `FileStreamer::TraceRequest`. -/
def FileStreamer.TraceRequest (self : FileStreamer) (q : UploadRequest) : FileStreamer :=
  let submit := (jsonAt self.m_trace.submits self.m_traceSubmitIndex).getD []
  let r := traceRequestObject q (jsonAt submit self.m_traceRequestIndex)
  let submits := jsonAssign self.m_trace.submits self.m_traceSubmitIndex
    (jsonAssign submit self.m_traceRequestIndex r)
  let s1 := { self with
    m_trace := { self.m_trace with submits := submits }
    m_traceRequestIndex := self.m_traceRequestIndex + 1 }
  if (s1.m_tracingResources.lookup q.in_pDstResource.m_ptr).isNone then
    { s1 with m_tracingResources :=
        s1.m_tracingResources ++ [(q.in_pDstResource.m_ptr, q.in_pDstResource.m_desc)] }
  else s1

/-- The method `FileStreamer::TraceSubmit`. -/
def FileStreamer.TraceSubmit (self : FileStreamer) : Except Failure FileStreamer :=
  if self.m_firstSubmit then
    .ok { self with m_firstSubmit := false }
  else do
    ASSERT (0 != self.m_traceRequestIndex)
    pure { self with
      m_traceRequestIndex := 0
      m_traceSubmitIndex := self.m_traceSubmitIndex + 1 }

/-- One submission of a capture session: its `TraceRequest` calls in order, then
one `TraceSubmit`. -/
def FileStreamer.traceSubmission (self : FileStreamer) (requests : List UploadRequest) :
    Except Failure FileStreamer :=
  (requests.foldl FileStreamer.TraceRequest self).TraceSubmit

/-- A capture session: its submissions in order, stopping at the first failure. -/
def FileStreamer.traceSession :
    List (List UploadRequest) → FileStreamer → Except Failure FileStreamer
  | [], self => .ok self
  | requests :: rest, self =>
    match self.traceSubmission requests with
    | .ok s1 => FileStreamer.traceSession rest s1
    | .error e => .error e

/-- How `TraceSubmit` groups the submissions of a session on a streamer whose
`m_firstSubmit` is still set: the first submit does not close the array, so the
second submission continues the first. -/
def groupedWithFirstSubmitIgnored : List (List UploadRequest) → List (List UploadRequest)
  | a :: b :: rest => (a ++ b) :: rest
  | other => other

/-- The array of request objects a group of requests leaves under `submits`. -/
def requestObjects (requests : List UploadRequest) : Option (List (Option TraceRequestObject)) :=
  some (requests.map (fun q => some (traceRequestObject q none)))

/-- The resource object the destructor writes for an entry of
`m_tracingResources`; the `(UINT32)` casts are reductions modulo `2^32`. -/
def traceResourceObject (d : Nat × D3D12_RESOURCE_DESC) : TraceResourceObject :=
  { rsrc := d.1
    fmt := d.2.Format % UINT_RANGE
    dim := (d.2.Width % UINT_RANGE, d.2.Height % UINT_RANGE, d.2.MipLevels % UINT_RANGE) }

/-- The first loop of the destructor: the entries of `m_tracingResources`, in
iteration order, are written to `resources[0]`, `resources[1]`, and so on. -/
def writeTraceResources (entries : List (Nat × D3D12_RESOURCE_DESC)) (root : TraceFile) :
    TraceFile :=
  (entries.foldl
    (fun (acc : TraceFile × Nat) d =>
      ({ acc.1 with resources := jsonAssign acc.1.resources acc.2 (traceResourceObject d) },
        acc.2 + 1))
    (root, 0)).1

/-- The decimal digit `d`. -/
def decimalDigit (d : Nat) : Char := Char.ofNat (48 + d)

/-- The decimal digits of `n`, most significant first; `fuel` bounds the number
of digits. -/
def decimalDigits : Nat → Nat → List Char
  | 0, _ => []
  | fuel + 1, n =>
    if n < 10 then [decimalDigit n]
    else decimalDigits fuel (n / 10) ++ [decimalDigit (n % 10)]

/-- The function `std::to_wstring` on a non-negative integer. -/
def to_wstring (n : Nat) : String := String.mk (decimalDigits (n + 1) n)

/-- The number a list of decimal digits denotes. -/
def decimalValue (digits : List Char) : Nat :=
  digits.foldl (fun acc c => acc * 10 + (c.toNat - 48)) 0

/-- The file name tried for `index` by the destructor. -/
def traceFileName (index : Nat) : String :=
  "uploadTraceFile_" ++ to_wstring index ++ ".json"

/-- The `while (1)` loop of the destructor, entered with the value `index` of the
counter: the counter is incremented and the loop leaves with it at the first name
that does not exist.  `fuel` bounds the number of iterations.  The counter is an
`int` that stays far below its range and is a natural number here. -/
def findUniqueTraceFile (fileExists : String → Bool) : Nat → Nat → Option Nat
  | 0, _ => none
  | fuel + 1, index =>
    if !fileExists (traceFileName (index + 1)) then some (index + 1)
    else findUniqueTraceFile fileExists fuel (index + 1)

/-- The destructor `FileStreamer::~FileStreamer`, run where the files `existing`
exist: the list of files written, each with its name and document.  The
container type of `m_tracingResources` is declared outside the translated
files; `iterate` is the order in which it is traversed.  The name loop is given
one iteration more than there are existing files. -/
def FileStreamer.destructor
    (iterate : List (Nat × D3D12_RESOURCE_DESC) → List (Nat × D3D12_RESOURCE_DESC))
    (existing : List String) (self : FileStreamer) : List (String × TraceFile) :=
  if self.m_captureTrace then
    let root := writeTraceResources (iterate self.m_tracingResources) self.m_trace
    match findUniqueTraceFile (fun f => existing.contains f) (existing.length + 1) 0 with
    | some index => [(traceFileName index, root)]
    | none => []
  else []

/-! ### Capture examples -/

/-- A destination resource of the examples. -/
def sampleDestinationA : DestinationResource :=
  { m_ptr := 4096, m_desc := { Format := 98, Width := 16384, Height := 16384, MipLevels := 15 } }

/-- A second destination resource of the examples. -/
def sampleDestinationB : DestinationResource :=
  { m_ptr := 8192, m_desc := { Format := 71, Width := 4096, Height := 2048, MipLevels := 13 } }

/-- The request for tile `x` of `d` in the examples. -/
def sampleRequest (d : DestinationResource) (x : Nat) : UploadRequest :=
  { in_pDstResource := d
    in_dstCoord := { X := x, Y := 0, Z := 0, Subresource := 0 }
    in_srcFilename := "a.xet"
    in_srcOffset := 65536 * x
    in_srcNumBytes := 65536
    in_compressionFormat := 0 }

/-- A session of two submissions of three requests each. -/
def sampleTraceSession : List (List UploadRequest) :=
  [[sampleRequest sampleDestinationA 0, sampleRequest sampleDestinationB 1,
    sampleRequest sampleDestinationA 2],
   [sampleRequest sampleDestinationA 3, sampleRequest sampleDestinationB 4,
    sampleRequest sampleDestinationB 5]]

/-- A streamer that captures and has traced nothing yet. -/
def freshCaptureStreamer : FileStreamer :=
  { m_copyFence := { m_completedValue := 0 }, m_captureTrace := true }

/-- A capturing streamer whose first submit has been consumed already. -/
def startedCaptureStreamer : FileStreamer :=
  { freshCaptureStreamer with m_firstSubmit := false }

/-! ### Construction and the visualization palettes -/

/-- The range of a `UINT64`. -/
def UINT64_RANGE : Nat := 2 ^ 64

/-- The constant `D3D12_TILED_RESOURCE_TILE_SIZE_IN_BYTES` of `d3d12.h`. -/
def D3D12_TILED_RESOURCE_TILE_SIZE_IN_BYTES : Nat := 65536

/-- The value `DXGI_FORMAT_BC1_TYPELESS` of `dxgiformat.h`. -/
def DXGI_FORMAT_BC1_TYPELESS : Nat := 70

/-- The value `DXGI_FORMAT_BC1_UNORM` of `dxgiformat.h`. -/
def DXGI_FORMAT_BC1_UNORM : Nat := 71

/-- The value `DXGI_FORMAT_BC1_UNORM_SRGB` of `dxgiformat.h`. -/
def DXGI_FORMAT_BC1_UNORM_SRGB : Nat := 72

/-- Single-precision arithmetic as far as the file streamer uses it, over any
carrier `α` of the `float` values: `pow15 x` is `pow(x, 1.5f)` and
`scaleToUINT k x` is the conversion `UINT(k * x)`. -/
structure FloatOps (α : Type) where
  pow15 : α → α
  scaleToUINT : Nat → α → Nat

/-- The static data of the file streamer: the flag `firstTimeInit` of the
constructor, the colour table `m_lut` and the palettes `m_BC7` and `m_BC1`, each
palette row being the 64-bit words of one tile. -/
structure FileStreamerStatics (α : Type) where
  firstTimeInit : Bool
  m_lut : List (α × α × α)
  m_BC7 : List (List Nat)
  m_BC1 : List (List Nat)
  deriving DecidableEq, Repr

/-- A left shift of a `UINT64`. -/
def shl64 (x k : Nat) : Nat := (x <<< k) % UINT64_RANGE

/-- The expression `x | (x << 7) | (x << 14) | (x << 21)` on `UINT64`. -/
def fourEndpoints (x : Nat) : Nat :=
  x ||| shl64 x 7 ||| shl64 x 14 ||| shl64 x 21

/-- The two words `block[0]` and `block[1]` that the body of the outer loop of
`InitializeBC7` computes from the quantised channels. -/
def bc7Block (r g b : Nat) : Nat × Nat :=
  let block0 := 0x08
  let r4 := fourEndpoints r
  let g4 := fourEndpoints g
  let b4 := fourEndpoints b
  let block0 := block0 ||| shl64 r4 10
  let block0 := block0 ||| shl64 g4 38
  let block1 := g4 >>> 26
  let block1 := block1 ||| shl64 b4 2
  (block0, block1)

/-- The inner loop of `InitializeBC7`: `numBlocks` times the two words are stored
and the destination advances by two words. -/
def bc7Tile (r g b : Nat) : List Nat :=
  (List.replicate (D3D12_TILED_RESOURCE_TILE_SIZE_IN_BYTES / 16)
    [(bc7Block r g b).1, (bc7Block r g b).2]).flatten

/-- The quantisation `std::min(UINT(0x7f * c), (UINT)0x7f)`. -/
def quantise7 {α : Type} (ops : FloatOps α) (c : α) : Nat :=
  min (ops.scaleToUINT 0x7f c % UINT_RANGE) 0x7f

/-- The function `FileStreamer::InitializeBC7`: the new contents of `m_BC7`.  The
bound `m_lutSize` of the loop is declared outside the translated files; reading
`m_lut` past its end is undefined. -/
def InitializeBC7 {α : Type} (ops : FloatOps α) (m_lutSize : Nat) (m_lut : List (α × α × α)) :
    Except Failure (List (List Nat)) :=
  if m_lutSize ≤ m_lut.length then
    .ok ((m_lut.take m_lutSize).map (fun color =>
      bc7Tile (quantise7 ops color.1) (quantise7 ops color.2.1) (quantise7 ops color.2.2)))
  else .error .undefinedBehavior

/-- The store `pDst[0] = (UINT16)((b << 11) | (g << 5) | r)` through a `UINT16`
pointer to the `UINT64` block: its low 16 bits are replaced. -/
def bc1Block (block r g b : Nat) : Nat :=
  block / 2 ^ 16 * 2 ^ 16 +
    (((b <<< 11) % UINT_RANGE ||| (g <<< 5) % UINT_RANGE ||| r) % 2 ^ 16)

/-- The function `FileStreamer::InitializeBC1`: the new contents of `m_BC1`.  The
variable `block` is declared before the loop and lives across its iterations. -/
def InitializeBC1 {α : Type} (ops : FloatOps α) (m_lutSize : Nat) (m_lut : List (α × α × α)) :
    Except Failure (List (List Nat)) :=
  if m_lutSize ≤ m_lut.length then
    .ok ((m_lut.take m_lutSize).foldl
      (fun (acc : Nat × List (List Nat)) color =>
        let block := bc1Block acc.1
          (ops.scaleToUINT 0x1f color.1 % UINT_RANGE)
          (ops.scaleToUINT 0x3f color.2.1 % UINT_RANGE)
          (ops.scaleToUINT 0x1f color.2.2 % UINT_RANGE)
        (block, acc.2 ++ [List.replicate (D3D12_TILED_RESOURCE_TILE_SIZE_IN_BYTES / 8) block]))
      (0, [])).2
  else .error .undefinedBehavior

/-- The contrast step of the constructor on one entry of `m_lut`. -/
def addContrast {α : Type} (ops : FloatOps α) (color : α × α × α) : α × α × α :=
  (ops.pow15 color.1, ops.pow15 color.2.1, ops.pow15 color.2.2)

/-- The constructor `FileStreamer::FileStreamer`.  The member `m_copyFenceValue`
holds `v0` when the body is entered (its initial value is declared outside the
translated files); the fence is created with that value and the member is then
incremented.  The result is the new streamer and the static data. -/
def FileStreamer.construct {α : Type} (ops : FloatOps α) (m_lutSize v0 : Nat)
    (statics : FileStreamerStatics α) : Except Failure (FileStreamer × FileStreamerStatics α) :=
  let self : FileStreamer :=
    { m_copyFence := { m_completedValue := v0 }, m_copyFenceValue := v0 + 1 }
  if statics.firstTimeInit then do
    let lut := statics.m_lut.map (addContrast ops)
    let bc7 ← InitializeBC7 ops m_lutSize lut
    let bc1 ← InitializeBC1 ops m_lutSize lut
    pure (self, { firstTimeInit := false, m_lut := lut, m_BC7 := bc7, m_BC1 := bc1 })
  else pure (self, statics)

/-- Constructing `n` streamers one after the other: the static data they leave. -/
def constructMany {α : Type} (ops : FloatOps α) (m_lutSize v0 : Nat) :
    Nat → FileStreamerStatics α → Except Failure (FileStreamerStatics α)
  | 0, statics => .ok statics
  | n + 1, statics =>
    match FileStreamer.construct ops m_lutSize v0 statics with
    | .ok (_, statics1) => constructMany ops m_lutSize v0 n statics1
    | .error e => .error e

/-- The static table a pointer returned by `GetVisualizationData` points into. -/
inductive PaletteTable where
  | m_BC1
  | m_BC7
  deriving DecidableEq, Repr

/-- The method `FileStreamer::GetVisualizationData`.  `randomColorIndex` is the
value of the function's static counter at the call; the result is the table and
row returned, the streamer after the call and the counter after the call.  The
enumerator `DATA_VIZ_TILE` is declared outside the translated files. -/
def FileStreamer.GetVisualizationData (DATA_VIZ_TILE : Nat) (self : FileStreamer)
    (randomColorIndex : Nat) (in_coord : D3D12_TILED_RESOURCE_COORDINATE) (in_format : Nat) :
    (PaletteTable × Nat) × FileStreamer × Nat :=
  let colorIndex := in_coord.Subresource
  let (colorIndex, randomColorIndex) :=
    if DATA_VIZ_TILE == self.m_visualizationMode then
      (randomColorIndex &&& 0x0f, (randomColorIndex + 1) % UINT_RANGE)
    else (colorIndex, randomColorIndex)
  let colorIndex := min colorIndex 15
  let pSrc :=
    if in_format == DXGI_FORMAT_BC1_TYPELESS || in_format == DXGI_FORMAT_BC1_UNORM ||
        in_format == DXGI_FORMAT_BC1_UNORM_SRGB then
      (PaletteTable.m_BC1, colorIndex)
    else (PaletteTable.m_BC7, colorIndex)
  (pSrc, self, randomColorIndex)

/-- The rows returned by consecutive `GetVisualizationData` calls with the given
arguments, the static counter being `randomColorIndex` before the first. -/
def FileStreamer.visualizationRows (DATA_VIZ_TILE : Nat) (self : FileStreamer) :
    Nat → List (D3D12_TILED_RESOURCE_COORDINATE × Nat) → List Nat
  | _, [] => []
  | randomColorIndex, (in_coord, in_format) :: rest =>
    let r := self.GetVisualizationData DATA_VIZ_TILE randomColorIndex in_coord in_format
    r.1.2 :: FileStreamer.visualizationRows DATA_VIZ_TILE r.2.1 r.2.2 rest

/-- Stand-in arithmetic for the examples: a value `x` stands for `x / 1000`, and
the stand-in for `pow(x, 1.5f)` is the square. -/
def sampleFloatOps : FloatOps Nat :=
  { pow15 := fun x => x * x / 1000, scaleToUINT := fun k x => k * x / 1000 }

/-- The static data before the first construction, in the stand-in arithmetic. -/
def sampleStatics : FileStreamerStatics Nat :=
  { firstTimeInit := true
    m_lut :=
      [(1000, 1000, 1000), (1000, 250, 250), (250, 1000, 250), (250, 250, 1000),
       (1000, 250, 1000), (1000, 1000, 250), (250, 1000, 1000), (900, 500, 200),
       (590, 480, 800), (530, 250, 110), (800, 480, 530), (640, 800, 480),
       (480, 750, 800), (500, 250, 750), (990, 680, 420), (400, 500, 600)]
    m_BC7 := List.replicate 16 (List.replicate 8192 0)
    m_BC1 := List.replicate 16 (List.replicate 8192 0) }

/-! ## Direct3D 12 objects recorded by the manager -/

/-- The compile-time switches of `TileUpdateManager.cpp`. -/
structure BuildConfig where
  RESOLVE_TO_TEXTURE : Bool
  COPY_RESIDENCY_MAPS : Bool
  deriving DecidableEq, Repr

/-- The `ID3D12Resource` objects the manager passes to barriers: the three
resources owned by a streaming resource (named by the owner's pointer) and the
manager's two residency maps. -/
inductive ID3D12Resource where
  | tiledResource (owner : Nat)
  | feedbackResource (owner : Nat)
  | resolvedResource (owner : Nat)
  | residencyMap
  | residencyMapLocal
  deriving DecidableEq, Repr

/-- The resource states named in `TileUpdateManager.cpp`. -/
inductive D3D12_RESOURCE_STATES where
  | COMMON
  | UNORDERED_ACCESS
  | RESOLVE_SOURCE
  | RESOLVE_DEST
  | COPY_SOURCE
  | COPY_DEST
  | PIXEL_SHADER_RESOURCE
  deriving DecidableEq, Repr

/-- A `D3D12_RESOURCE_BARRIER` as built by `CD3DX12_RESOURCE_BARRIER`. -/
inductive D3D12_RESOURCE_BARRIER where
  | Transition (pResource : ID3D12Resource) (stateBefore stateAfter : D3D12_RESOURCE_STATES)
  | Aliasing (pResourceBefore : Option ID3D12Resource) (pResourceAfter : ID3D12Resource)
  deriving DecidableEq, Repr

/-- A call recorded on a command list.  `ClearFeedback`, `ResolveFeedback` and
`ReadbackFeedback` are the methods of a streaming resource, and `BeginTimer`,
`EndTimer` and `ResolveTimer` those of the GPU timer, that are handed the command
list; they are defined outside the translated files and, as section 4.2 of the
specification has it, only record GPU-side commands. -/
inductive Command where
  | SetDescriptorHeaps (pHeap : Nat)
  | ClearFeedback (pStreamingResource : Nat) (gpuDescriptor : Nat)
  | ResourceBarrier (NumBarriers : Nat) (pBarriers : List D3D12_RESOURCE_BARRIER)
  | CopyResource (pDst pSrc : ID3D12Resource)
  | BeginTimer (index : Nat)
  | EndTimer (index : Nat)
  | ResolveTimer (index : Nat)
  | ResolveFeedback (pStreamingResource : Nat)
  | ReadbackFeedback (pStreamingResource : Nat)
  deriving DecidableEq, Repr

/-- Whether a barrier is a transition from state `before` to state `after`. -/
def D3D12_RESOURCE_BARRIER.isTransition (before after : D3D12_RESOURCE_STATES) :
    D3D12_RESOURCE_BARRIER → Bool
  | .Transition _ b a => b == before && a == after
  | .Aliasing _ _ => false

/-- Whether a recorded call is a `ResourceBarrier`. -/
def Command.isResourceBarrier : Command → Bool
  | .ResourceBarrier _ _ => true
  | _ => false

/-- Whether a recorded call is a `ResourceBarrier` that carries a packed-mip
transition, from COMMON to PIXEL_SHADER_RESOURCE. -/
def Command.isPackedMipBarrier : Command → Bool
  | .ResourceBarrier _ pBarriers =>
    pBarriers.any (D3D12_RESOURCE_BARRIER.isTransition .COMMON .PIXEL_SHADER_RESOURCE)
  | _ => false

/-- Whether a recorded call is a `ResolveFeedback`. -/
def Command.isResolveFeedback : Command → Bool
  | .ResolveFeedback _ => true
  | _ => false

/-- The index type of `m_commandLists`. -/
inductive CommandListName where
  | Before
  | After
  deriving DecidableEq, Repr

/-- One entry of `m_commandLists`: the command list (the calls recorded since
its last `Reset` and whether it is closed) and its ring of allocators, each
allocator being the number of times it has been reset. -/
structure CommandList where
  m_commands : List Command
  m_closed : Bool
  m_allocators : List Nat
  m_boundAllocator : Option Nat := none
  deriving DecidableEq, Repr

/-- The vector `m_commandLists`, indexed by `CommandListName`. -/
structure CommandListArray where
  Before : CommandList
  After : CommandList
  deriving DecidableEq, Repr

/-- The value returned by `EndFrame`: the two command lists, by name. -/
structure CommandLists where
  m_beforeDrawCommands : CommandListName
  m_afterDrawCommands : CommandListName
  deriving DecidableEq, Repr

/-! ## Data uploader and streaming resources -/

/-- The enumeration `DataUploader::StreamerType`. -/
inductive StreamerType where
  | Reference
  | DirectStorage
  deriving DecidableEq, Repr

/-- A file streamer object owned by the data uploader: its address and which
implementation it is. -/
structure StreamerObject where
  m_ptr : Nat
  m_type : StreamerType
  deriving DecidableEq, Repr

/-- A `Streaming::FileHandle`: the streamer that opened it and the file name it
was opened for. -/
structure FileHandle where
  m_streamer : Nat
  m_filename : String
  deriving DecidableEq, Repr

/-- The members of `Streaming::DataUploader` the manager's public interface
acts on. -/
structure DataUploader where
  m_pFileStreamer : StreamerObject
  m_visualizationMode : Nat
  deriving DecidableEq, Repr

/-- A `Streaming::StreamingResourceBase`: its address, the constructor
arguments, the packed-mip status polled by `EndFrame`, and the number of
`ClearAllocations` calls it has received. -/
structure StreamingResourceBase where
  m_ptr : Nat
  m_filename : String
  m_pFileHandle : FileHandle
  m_pHeap : Nat
  m_packedMipsNeedTransition : Bool := false
  m_numClearAllocations : Nat := 0
  deriving DecidableEq, Repr

/-- Modelled from the spec: the accessor `StreamingResourceBase::GetTiledResource`
is defined outside the translated files; it names the sparse texture of the
resource. -/
def StreamingResourceBase.GetTiledResource (r : StreamingResourceBase) : ID3D12Resource :=
  .tiledResource r.m_ptr

/-- Modelled from the spec: the accessor `StreamingResourceBase::GetOpaqueFeedback`
is defined outside the translated files; it names the feedback buffer of the
resource. -/
def StreamingResourceBase.GetOpaqueFeedback (r : StreamingResourceBase) : ID3D12Resource :=
  .feedbackResource r.m_ptr

/-- Modelled from the spec: the accessor
`StreamingResourceBase::GetResolvedFeedback` is defined outside the translated
files; it names the resolve destination of the resource. -/
def StreamingResourceBase.GetResolvedFeedback (r : StreamingResourceBase) : ID3D12Resource :=
  .resolvedResource r.m_ptr

/-- Modelled from the spec: `StreamingResourceBase::GetPackedMipsNeedTransition`
is defined outside the translated files; it reports whether the packed mips of
the resource still await their transition. -/
def StreamingResourceBase.GetPackedMipsNeedTransition (r : StreamingResourceBase) : Bool :=
  r.m_packedMipsNeedTransition

/-- An element of `m_feedbackReadbacks`. -/
structure FeedbackReadback where
  m_pStreamingResource : Nat
  m_gpuDescriptor : Nat
  deriving DecidableEq, Repr

/-- Calls the manager makes on objects other than its command lists, in the
order they are made. -/
inductive Event where
  | StopThreads
  | StartThreads
  | ProcessFeedbackFlagSet
  | AllocateResidencyMap (minmipmapDescriptorHandle : Nat)
  | Signal (fenceValue : Nat)
  | OpenFile (filename : String) (streamer : Nat)
  | NewStreamingResource (ptr : Nat)
  | SetStreamer (streamerType : StreamerType) (newStreamer : Nat)
  | SetFileHandle (pStreamingResource : Nat) (streamer : Nat)
  | DeleteStreamer (streamer : Nat)
  | ClearAllocations (pStreamingResource : Nat)
  | SetVisualizationMode (mode : Nat)
  deriving DecidableEq, Repr

/-- Whether a logged call is an `AllocateResidencyMap`. -/
def Event.isAllocateResidencyMap : Event → Bool
  | .AllocateResidencyMap _ => true
  | _ => false

/-- Whether a logged call is a `SetStreamer`. -/
def Event.isSetStreamer : Event → Bool
  | .SetStreamer _ _ => true
  | _ => false

/-- The state of a `Streaming::TileUpdateManagerBase`, with the allocation
counter of the C++ heap (`m_nextPtr`), the call log (`m_events`) and, of the
file system, the paths that do not resolve (`m_missingFiles`). -/
structure TileUpdateManagerBase where
  m_withinFrame : Bool
  m_threadsRunning : Bool
  m_numSwapBuffers : Nat
  m_renderFrameIndex : Nat
  m_frameFenceValue : Nat
  m_numStreamingResourcesChanged : Bool
  m_havePackedMipsToLoad : Bool
  m_packedMipTransition : Bool
  m_addAliasingBarriers : Bool
  m_streamingResources : List StreamingResourceBase
  m_feedbackReadbacks : List FeedbackReadback
  m_barrierUavToResolveSrc : List D3D12_RESOURCE_BARRIER
  m_barrierResolveSrcToUav : List D3D12_RESOURCE_BARRIER
  m_packedMipTransitionBarriers : List D3D12_RESOURCE_BARRIER
  m_aliasingBarriers : List D3D12_RESOURCE_BARRIER
  m_commandLists : CommandListArray
  m_dataUploader : DataUploader
  m_nextPtr : Nat
  m_events : List Event
  m_missingFiles : List String := []
  deriving DecidableEq, Repr

/-! ## Helpers of the manager defined outside the translated files -/

namespace TileUpdateManagerBase

/-- Modelled from the spec: the accessor `GetWithinFrame` is defined outside the
translated files; it reads the within-frame flag. -/
def GetWithinFrame (self : TileUpdateManagerBase) : Bool := self.m_withinFrame

/-- Modelled from the spec: the accessor `GetCommandList` is defined outside the
translated files; it selects the entry of `m_commandLists` with the given name. -/
def GetCommandList (self : TileUpdateManagerBase) : CommandListName → CommandList
  | .Before => self.m_commandLists.Before
  | .After => self.m_commandLists.After

/-- Record one call on the command list named `name`. -/
def record (name : CommandListName) (c : Command) (self : TileUpdateManagerBase) :
    TileUpdateManagerBase :=
  match name with
  | .Before =>
    { self with m_commandLists :=
        { self.m_commandLists with Before :=
            { self.m_commandLists.Before with
                m_commands := self.m_commandLists.Before.m_commands ++ [c] } } }
  | .After =>
    { self with m_commandLists :=
        { self.m_commandLists with After :=
            { self.m_commandLists.After with
                m_commands := self.m_commandLists.After.m_commands ++ [c] } } }

/-- The call `ID3D12GraphicsCommandList::Close` on the command list named
`name`; its result is not inspected by the manager. -/
def close (name : CommandListName) (self : TileUpdateManagerBase) : TileUpdateManagerBase :=
  match name with
  | .Before =>
    { self with m_commandLists :=
        { self.m_commandLists with Before := { self.m_commandLists.Before with m_closed := true } } }
  | .After =>
    { self with m_commandLists :=
        { self.m_commandLists with After := { self.m_commandLists.After with m_closed := true } } }

/-- Append one call to the call log. -/
def log (e : Event) (self : TileUpdateManagerBase) : TileUpdateManagerBase :=
  { self with m_events := self.m_events ++ [e] }

/-- Modelled from the spec: `Finish` is defined outside the translated files.
Section 5 describes it as the join that fully drains the background threads
before any mutation of the streaming-resource set, and section 7 makes mutating
resources mid-frame a fatal assertion.  `CreateStreamingResource` and
`UseDirectStorage` reach their mutation only through `Finish` and carry no
check of their own, so the frame check is the first statement here;
`SetVisualizationMode` makes the same check itself before it calls `Finish`. -/
def Finish (self : TileUpdateManagerBase) : Except Failure TileUpdateManagerBase := do
  ASSERT (!self.GetWithinFrame)
  pure (log .StopThreads { self with m_threadsRunning := false })

/-- Modelled from the spec: `StartThreads` is defined outside the translated
files; section 4.1 has `BeginFrame` start the background threads if they are not
already running. -/
def StartThreads (self : TileUpdateManagerBase) : TileUpdateManagerBase :=
  if self.m_threadsRunning then self
  else log .StartThreads { self with m_threadsRunning := true }

/-- Modelled from the spec: `AllocateResidencyMap` is defined outside the
translated files; the call is recorded. -/
def AllocateResidencyMap (in_minmipmapDescriptorHandle : Nat) (self : TileUpdateManagerBase) :
    TileUpdateManagerBase :=
  log (.AllocateResidencyMap in_minmipmapDescriptorHandle) self

/-- Modelled from the spec: `DataUploader::OpenFile` is defined outside the
translated files; section 4.1 has the handle opened through the active file
streamer, and sections 4.3 and 7 have the call fail with `FileNotFound` when the
path does not resolve.  The paths that do not resolve are those of
`m_missingFiles`. -/
def OpenFile (in_filename : String) (self : TileUpdateManagerBase) :
    Except Failure (FileHandle × TileUpdateManagerBase) :=
  if self.m_missingFiles.contains in_filename then .error .fileNotFound
  else
    .ok ({ m_streamer := self.m_dataUploader.m_pFileStreamer.m_ptr, m_filename := in_filename },
      log (.OpenFile in_filename self.m_dataUploader.m_pFileStreamer.m_ptr) self)

/-- Modelled from the spec: `DataUploader::SetStreamer` is defined outside the
translated files; it installs a newly allocated streamer of the requested type
as the active one and hands the previous streamer back to the caller. -/
def SetStreamer (in_streamerType : StreamerType) (self : TileUpdateManagerBase) :
    StreamerObject × TileUpdateManagerBase :=
  (self.m_dataUploader.m_pFileStreamer,
    log (.SetStreamer in_streamerType self.m_nextPtr)
      { self with
          m_dataUploader :=
            { self.m_dataUploader with
                m_pFileStreamer := { m_ptr := self.m_nextPtr, m_type := in_streamerType } }
          m_nextPtr := self.m_nextPtr + 1 })

/-- Modelled from the spec: `StreamingResourceBase::SetFileHandle` is defined
outside the translated files; section 4.1 has an existing resource rebound to
the streamer that is active in the data uploader. -/
def SetFileHandle (in_pDataUploader : DataUploader) (r : StreamingResourceBase)
    (events : List Event) : StreamingResourceBase × List Event :=
  ({ r with m_pFileHandle :=
        { m_streamer := in_pDataUploader.m_pFileStreamer.m_ptr, m_filename := r.m_filename } },
    events ++ [.SetFileHandle r.m_ptr in_pDataUploader.m_pFileStreamer.m_ptr])

/-- Modelled from the spec: `StreamingResourceBase::ClearAllocations` is
defined outside the translated files; the call is counted on the resource and
recorded. -/
def ClearAllocations (r : StreamingResourceBase) (events : List Event) :
    StreamingResourceBase × List Event :=
  ({ r with m_numClearAllocations := r.m_numClearAllocations + 1 },
    events ++ [.ClearAllocations r.m_ptr])

/-- A range-based `for` over `m_streamingResources` whose body calls a method
on each resource, in vector order. -/
def forEachResource (body : StreamingResourceBase → List Event → StreamingResourceBase × List Event) :
    List StreamingResourceBase → List Event → List StreamingResourceBase × List Event
  | [], events => ([], events)
  | r :: rest, events =>
    let step := body r events
    let tail := forEachResource body rest step.2
    (step.1 :: tail.1, tail.2)

/-- Modelled from the spec: the constructor of `StreamingResourceBase` is
defined outside the translated files; the new object is bound to the file name,
file handle and heap it is given. -/
def newStreamingResource (in_filename : String) (in_pFileHandle : FileHandle) (in_pHeap : Nat)
    (self : TileUpdateManagerBase) : StreamingResourceBase × TileUpdateManagerBase :=
  ({ m_ptr := self.m_nextPtr, m_filename := in_filename, m_pFileHandle := in_pFileHandle,
     m_pHeap := in_pHeap },
    log (.NewStreamingResource self.m_nextPtr) { self with m_nextPtr := self.m_nextPtr + 1 })

/-! ## The public interface (`TileUpdateManager.cpp`) -/

/-- The method `CreateStreamingResource`. -/
def CreateStreamingResource (in_filename : String) (in_pHeap : Nat)
    (self : TileUpdateManagerBase) :
    Except Failure (StreamingResourceBase × TileUpdateManagerBase) := do
  let s1 ← Finish self
  let opened ← OpenFile in_filename s1
  let created := newStreamingResource in_filename opened.1 in_pHeap opened.2
  let pRsrc := created.1
  let s2 := created.2
  let s3 := { s2 with m_streamingResources := s2.m_streamingResources ++ [pRsrc] }
  let s4 := { s3 with m_numStreamingResourcesChanged := true }
  let s5 := { s4 with m_havePackedMipsToLoad := true }
  pure (pRsrc, s5)

/-- The method `UseDirectStorage`. -/
def UseDirectStorage (in_useDS : Bool) (self : TileUpdateManagerBase) :
    Except Failure TileUpdateManagerBase := do
  let s1 ← Finish self
  let streamerType := if in_useDS then StreamerType.DirectStorage else StreamerType.Reference
  let swapped := SetStreamer streamerType s1
  let pOldStreamer := swapped.1
  let s2 := swapped.2
  let rebound := forEachResource (SetFileHandle s2.m_dataUploader) s2.m_streamingResources s2.m_events
  let s3 := { s2 with m_streamingResources := rebound.1, m_events := rebound.2 }
  pure (log (.DeleteStreamer pOldStreamer.m_ptr) s3)

/-- The barriers one `QueueFeedback` call appends to `m_barrierUavToResolveSrc`. -/
def barriersBeforeResolve (cfg : BuildConfig) (r : StreamingResourceBase) :
    List D3D12_RESOURCE_BARRIER :=
  [.Transition r.GetOpaqueFeedback .UNORDERED_ACCESS .RESOLVE_SOURCE] ++
    (if cfg.RESOLVE_TO_TEXTURE then
      [.Transition r.GetResolvedFeedback .COPY_SOURCE .RESOLVE_DEST]
    else [])

/-- The barriers one `QueueFeedback` call appends to `m_barrierResolveSrcToUav`. -/
def barriersAfterResolve (cfg : BuildConfig) (r : StreamingResourceBase) :
    List D3D12_RESOURCE_BARRIER :=
  [.Transition r.GetOpaqueFeedback .RESOLVE_SOURCE .UNORDERED_ACCESS] ++
    (if cfg.RESOLVE_TO_TEXTURE then
      [.Transition r.GetResolvedFeedback .RESOLVE_DEST .COPY_SOURCE]
    else [])

/-- The method `QueueFeedback`; `in_pResource` is the resource pointed to. -/
def QueueFeedback (cfg : BuildConfig) (in_pResource : StreamingResourceBase)
    (in_gpuDescriptor : Nat) (self : TileUpdateManagerBase) : TileUpdateManagerBase :=
  let s1 := { self with m_feedbackReadbacks := self.m_feedbackReadbacks ++
      [{ m_pStreamingResource := in_pResource.m_ptr, m_gpuDescriptor := in_gpuDescriptor }] }
  let s2 := record .Before (.ClearFeedback in_pResource.m_ptr in_gpuDescriptor) s1
  let s3 := { s2 with m_barrierUavToResolveSrc :=
      s2.m_barrierUavToResolveSrc ++ barriersBeforeResolve cfg in_pResource }
  { s3 with m_barrierResolveSrcToUav :=
      s3.m_barrierResolveSrcToUav ++ barriersAfterResolve cfg in_pResource }

/-- The method `SetVisualizationMode`. -/
def SetVisualizationMode (in_mode : Nat) (self : TileUpdateManagerBase) :
    Except Failure TileUpdateManagerBase := do
  ASSERT (!self.GetWithinFrame)
  let s1 ← Finish self
  let cleared := forEachResource ClearAllocations s1.m_streamingResources s1.m_events
  let s2 := { s1 with m_streamingResources := cleared.1, m_events := cleared.2 }
  pure (log (.SetVisualizationMode in_mode)
    { s2 with m_dataUploader := { s2.m_dataUploader with m_visualizationMode := in_mode } })

/-- One iteration of the loop over `m_commandLists` in `BeginFrame`: reset the
allocator of ring slot `index`, then reset the command list onto it.  The
vector access is undefined past the end; `ID3D12GraphicsCommandList::Reset`
returns `E_FAIL` on a command list that is not closed, which `ThrowIfFailed`
throws. -/
def resetForFrame (index : Nat) (cl : CommandList) : Except Failure CommandList :=
  match cl.m_allocators.get? index with
  | none => .error .undefinedBehavior
  | some resets =>
    if cl.m_closed then
      .ok { m_commands := [], m_closed := false,
            m_allocators := cl.m_allocators.set index (resets + 1),
            m_boundAllocator := some index }
    else .error .hresult

/-- The head of `BeginFrame`, from setting `m_withinFrame` to the increment of
the frame fence value. -/
def signalFrame (in_minmipmapDescriptorHandle : Nat) (self : TileUpdateManagerBase) :
    TileUpdateManagerBase :=
  let s1 := { self with m_withinFrame := true }
  let s2 := StartThreads s1
  let s3 := log .ProcessFeedbackFlagSet s2
  let s4 :=
    if s3.m_numStreamingResourcesChanged then
      AllocateResidencyMap in_minmipmapDescriptorHandle
        { s3 with m_numStreamingResourcesChanged := false }
    else s3
  let s5 := log (.Signal s4.m_frameFenceValue) s4
  { s5 with m_frameFenceValue := s5.m_frameFenceValue + 1 }

/-- The method `BeginFrame`. -/
def BeginFrame (in_pDescriptorHeap : Nat) (in_minmipmapDescriptorHandle : Nat)
    (self : TileUpdateManagerBase) : Except Failure TileUpdateManagerBase := do
  ASSERT (!self.GetWithinFrame)
  let s1 := signalFrame in_minmipmapDescriptorHandle self
  if s1.m_numSwapBuffers = 0 then throw Failure.undefinedBehavior
  let s2 := { s1 with m_renderFrameIndex := (s1.m_renderFrameIndex + 1) % s1.m_numSwapBuffers }
  let before ← resetForFrame s2.m_renderFrameIndex s2.m_commandLists.Before
  let after ← resetForFrame s2.m_renderFrameIndex s2.m_commandLists.After
  let s3 := { s2 with m_commandLists := { Before := before, After := after } }
  pure (record .Before (.SetDescriptorHeaps in_pDescriptorHeap) s3)

/-- The packed-mip block at the head of `EndFrame`. -/
def collectPackedMipTransitions (self : TileUpdateManagerBase) : TileUpdateManagerBase :=
  if self.m_packedMipTransition then
    { self with
        m_packedMipTransition := false
        m_packedMipTransitionBarriers := self.m_packedMipTransitionBarriers ++
          (self.m_streamingResources.filter (fun o => o.GetPackedMipsNeedTransition)).map
            (fun o => .Transition o.GetTiledResource .COMMON .PIXEL_SHADER_RESOURCE) }
  else self

/-- The aliasing-barrier statement of the before-draw block of `EndFrame`. -/
def recordAliasingBarriers (self : TileUpdateManagerBase) : TileUpdateManagerBase :=
  if self.m_addAliasingBarriers && self.m_streamingResources.length != 0 then
    let barriers := self.m_streamingResources.map
      (fun pResource => D3D12_RESOURCE_BARRIER.Aliasing none pResource.GetTiledResource)
    record .Before (.ResourceBarrier (barriers.length % UINT_RANGE) barriers)
      { self with m_aliasingBarriers := barriers }
  else self

/-- The packed-mip statement of the before-draw block of `EndFrame`. -/
def recordPackedMipTransitions (self : TileUpdateManagerBase) : TileUpdateManagerBase :=
  if self.m_packedMipTransitionBarriers.length != 0 then
    { record .Before
        (.ResourceBarrier (self.m_packedMipTransitionBarriers.length % UINT_RANGE)
          self.m_packedMipTransitionBarriers) self with
      m_packedMipTransitionBarriers := [] }
  else self

/-- The `COPY_RESIDENCY_MAPS` statements of the before-draw block of `EndFrame`. -/
def copyResidencyMaps (cfg : BuildConfig) (self : TileUpdateManagerBase) :
    TileUpdateManagerBase :=
  if cfg.COPY_RESIDENCY_MAPS then
    let s1 := record .Before
      (.ResourceBarrier 1 [.Transition .residencyMapLocal .PIXEL_SHADER_RESOURCE .COPY_DEST]) self
    let s2 := record .Before (.CopyResource .residencyMapLocal .residencyMap) s1
    record .Before
      (.ResourceBarrier 1 [.Transition .residencyMapLocal .COPY_DEST .PIXEL_SHADER_RESOURCE]) s2
  else self

/-- The before-draw block of `EndFrame`. -/
def finishBeforeDraw (cfg : BuildConfig) (self : TileUpdateManagerBase) : TileUpdateManagerBase :=
  close .Before (copyResidencyMaps cfg (recordPackedMipTransitions (recordAliasingBarriers self)))

/-- The body of the `if (m_feedbackReadbacks.size())` statement of the
after-draw block of `EndFrame`. -/
def resolveQueuedFeedback (cfg : BuildConfig) (self : TileUpdateManagerBase) :
    TileUpdateManagerBase :=
  let t1 := record .After (.BeginTimer self.m_renderFrameIndex) self
  let t2 := record .After
    (.ResourceBarrier (t1.m_barrierUavToResolveSrc.length % UINT_RANGE)
      t1.m_barrierUavToResolveSrc) t1
  let t3 := { t2 with m_barrierUavToResolveSrc := [] }
  let t4 := t3.m_feedbackReadbacks.foldl
    (fun acc t => record .After (.ResolveFeedback t.m_pStreamingResource) acc) t3
  let t5 := record .After
    (.ResourceBarrier (t4.m_barrierResolveSrcToUav.length % UINT_RANGE)
      t4.m_barrierResolveSrcToUav) t4
  let t6 := { t5 with m_barrierResolveSrcToUav := [] }
  let t7 := record .After (.EndTimer t6.m_renderFrameIndex) t6
  let t8 :=
    if cfg.RESOLVE_TO_TEXTURE then
      t7.m_feedbackReadbacks.foldl
        (fun acc t => record .After (.ReadbackFeedback t.m_pStreamingResource) acc) t7
    else t7
  let t9 := { t8 with m_feedbackReadbacks := [] }
  record .After (.ResolveTimer t9.m_renderFrameIndex) t9

/-- The after-draw block of `EndFrame`. -/
def finishAfterDraw (cfg : BuildConfig) (self : TileUpdateManagerBase) : TileUpdateManagerBase :=
  close .After
    (if self.m_feedbackReadbacks.length != 0 then resolveQueuedFeedback cfg self else self)

/-- The method `EndFrame`. -/
def EndFrame (cfg : BuildConfig) (self : TileUpdateManagerBase) :
    Except Failure (CommandLists × TileUpdateManagerBase) := do
  ASSERT self.GetWithinFrame
  let s1 := collectPackedMipTransitions self
  let s2 := finishBeforeDraw cfg s1
  let s3 := finishAfterDraw cfg s2
  let outputCommandLists : CommandLists :=
    { m_beforeDrawCommands := .Before, m_afterDrawCommands := .After }
  pure (outputCommandLists, { s3 with m_withinFrame := false })

/-! ## Sequences of frame calls -/

/-- A call of the frame lifecycle, with its arguments. -/
inductive FrameCall where
  | BeginFrame (in_pDescriptorHeap : Nat) (in_minmipmapDescriptorHandle : Nat)
  | EndFrame
  deriving DecidableEq, Repr

/-- Whether a frame call is a `BeginFrame`. -/
def FrameCall.isBegin : FrameCall → Bool
  | .BeginFrame _ _ => true
  | .EndFrame => false

/-- Run a sequence of `BeginFrame` and `EndFrame` calls, stopping at the first
failure. -/
def runFrameCalls (cfg : BuildConfig) :
    List FrameCall → TileUpdateManagerBase → Except Failure TileUpdateManagerBase
  | [], s => .ok s
  | .BeginFrame h d :: rest, s =>
    match BeginFrame h d s with
    | .ok s1 => runFrameCalls cfg rest s1
    | .error e => .error e
  | .EndFrame :: rest, s =>
    match EndFrame cfg s with
    | .ok r => runFrameCalls cfg rest r.2
    | .error e => .error e

/-- The calls strictly alternate between `BeginFrame` and `EndFrame`; the first
one is a `BeginFrame` when `expectBegin` is true and an `EndFrame` otherwise. -/
def alternates : Bool → List FrameCall → Bool
  | _, [] => true
  | expectBegin, c :: rest => (c.isBegin == expectBegin) && alternates (!expectBegin) rest

/-- A run of `QueueFeedback` calls, one per element of `queued` (the resource
pointed to and the descriptor), in order. -/
def queueAll (cfg : BuildConfig) (queued : List (StreamingResourceBase × Nat))
    (self : TileUpdateManagerBase) : TileUpdateManagerBase :=
  queued.foldl (fun acc q => QueueFeedback cfg q.1 q.2 acc) self

/-- Modelled from the spec: the constructor of the manager is outside the
translated files.  A freshly constructed manager is outside any frame and its
per-frame vectors (queued feedback and the three barrier batches) are empty. -/
def isFreshlyConstructed (self : TileUpdateManagerBase) : Bool :=
  !self.m_withinFrame && self.m_feedbackReadbacks.isEmpty &&
    self.m_barrierUavToResolveSrc.isEmpty && self.m_barrierResolveSrcToUav.isEmpty &&
    self.m_packedMipTransitionBarriers.isEmpty

/-- The states a manager reaches from a freshly constructed one by successful
`BeginFrame` calls, `QueueFeedback` calls and successful `EndFrame` calls. -/
inductive Reachable (cfg : BuildConfig) : TileUpdateManagerBase → Prop where
  | fresh (s : TileUpdateManagerBase) : isFreshlyConstructed s = true → Reachable cfg s
  | beginFrame (h d : Nat) (s s' : TileUpdateManagerBase) :
      Reachable cfg s → BeginFrame h d s = .ok s' → Reachable cfg s'
  | queueFeedback (r : StreamingResourceBase) (g : Nat) (s : TileUpdateManagerBase) :
      Reachable cfg s → Reachable cfg (QueueFeedback cfg r g s)
  | endFrame (s s' : TileUpdateManagerBase) (out : CommandLists) :
      Reachable cfg s → EndFrame cfg s = .ok (out, s') → Reachable cfg s'

/-! ## Sample states -/

/-- A command list as the frame loop expects it at the first `BeginFrame`:
closed, nothing recorded, two allocators never reset. -/
def idleCommandList : CommandList :=
  { m_commands := [], m_closed := true, m_allocators := [0, 0] }

/-- A manager outside any frame, for a swap chain of two buffers, with no
streaming resource and the reference streamer at address 0. -/
def idleManager : TileUpdateManagerBase :=
  { m_withinFrame := false
    m_threadsRunning := false
    m_numSwapBuffers := 2
    m_renderFrameIndex := 0
    m_frameFenceValue := 0
    m_numStreamingResourcesChanged := false
    m_havePackedMipsToLoad := false
    m_packedMipTransition := false
    m_addAliasingBarriers := false
    m_streamingResources := []
    m_feedbackReadbacks := []
    m_barrierUavToResolveSrc := []
    m_barrierResolveSrcToUav := []
    m_packedMipTransitionBarriers := []
    m_aliasingBarriers := []
    m_commandLists := { Before := idleCommandList, After := idleCommandList }
    m_dataUploader := { m_pFileStreamer := { m_ptr := 0, m_type := .Reference },
                        m_visualizationMode := 0 }
    m_nextPtr := 1
    m_events := [] }

/-- The build with both compile-time switches off. -/
def plainBuild : BuildConfig := { RESOLVE_TO_TEXTURE := false, COPY_RESIDENCY_MAPS := false }

/-- The state of `idleManager` after one `BeginFrame` and the matching
`EndFrame`. -/
def idleManagerAfterOneFrame : TileUpdateManagerBase :=
  match runFrameCalls plainBuild [.BeginFrame 0 0, .EndFrame] idleManager with
  | .ok s => s
  | .error _ => idleManager

/-- The state of `idleManager` after `BeginFrame`. -/
def idleManagerInFrame : TileUpdateManagerBase :=
  match BeginFrame 0 0 idleManager with
  | .ok s => s
  | .error _ => idleManager

/-- A streaming resource at address 20, opened on the streamer at address 0. -/
def sampleResourceA : StreamingResourceBase :=
  { m_ptr := 20, m_filename := "a.xet", m_pFileHandle := { m_streamer := 0, m_filename := "a.xet" },
    m_pHeap := 7 }

/-- A streaming resource at address 21, opened on the streamer at address 0. -/
def sampleResourceB : StreamingResourceBase :=
  { m_ptr := 21, m_filename := "b.xet", m_pFileHandle := { m_streamer := 0, m_filename := "b.xet" },
    m_pHeap := 7 }

/-- A manager outside any frame that manages `sampleResourceA` and
`sampleResourceB`. -/
def managerWithResources : TileUpdateManagerBase :=
  { idleManager with
      m_streamingResources := [sampleResourceA, sampleResourceB]
      m_nextPtr := 22 }

/-- The manager `managerWithResources` where the path `c.xet` does not resolve. -/
def managerWithMissingFile : TileUpdateManagerBase :=
  { managerWithResources with m_missingFiles := ["c.xet"] }

/-- The state of `managerWithResources` after `BeginFrame`. -/
def managerWithResourcesInFrame : TileUpdateManagerBase :=
  match BeginFrame 0 0 managerWithResources with
  | .ok s => s
  | .error _ => managerWithResources

/-- A resource at address 30 whose packed mips await their transition. -/
def sampleResourceNeedy : StreamingResourceBase :=
  { m_ptr := 30, m_filename := "n.xet", m_pFileHandle := { m_streamer := 0, m_filename := "n.xet" },
    m_pHeap := 7, m_packedMipsNeedTransition := true }

/-- A manager within a frame that manages `sampleResourceA`, `sampleResourceNeedy`
and `sampleResourceB`, with the packed-mip transition flag set. -/
def managerWithPackedMips : TileUpdateManagerBase :=
  { idleManagerInFrame with
      m_streamingResources := [sampleResourceA, sampleResourceNeedy, sampleResourceB]
      m_packedMipTransition := true }

/-- The state `EndFrame` leaves from `managerWithPackedMips`. -/
def managerWithPackedMipsAfterFrame : TileUpdateManagerBase :=
  match EndFrame plainBuild managerWithPackedMips with
  | .ok r => r.2
  | .error _ => managerWithPackedMips

/-- The state of `idleManagerInFrame` after feedback is queued for
`sampleResourceA` and `sampleResourceB`. -/
def idleManagerQueued : TileUpdateManagerBase :=
  queueAll plainBuild [(sampleResourceA, 10), (sampleResourceB, 11)] idleManagerInFrame

/-- The state of `idleManager` after feedback is queued for `sampleResourceA`
outside any frame. -/
def idleManagerQueuedEarly : TileUpdateManagerBase :=
  QueueFeedback plainBuild sampleResourceA 9 idleManager

/-- The state of `idleManagerQueuedEarly` after `BeginFrame`. -/
def idleManagerQueuedEarlyInFrame : TileUpdateManagerBase :=
  match BeginFrame 0 0 idleManagerQueuedEarly with
  | .ok s => s
  | .error _ => idleManagerQueuedEarly

/-- The state `EndFrame` leaves from `idleManagerQueued`. -/
def idleManagerResolved : TileUpdateManagerBase :=
  match EndFrame plainBuild idleManagerQueued with
  | .ok r => r.2
  | .error _ => idleManagerQueued

/-! ## Intermediate states of the public calls -/

/-- The managed set and the call log after each iteration of a
`forEachResource` loop: `done` holds the resources already processed, in
order, and the second list those still to be visited. -/
def forEachResourceStates
    (body : StreamingResourceBase → List Event → StreamingResourceBase × List Event) :
    List StreamingResourceBase → List StreamingResourceBase → List Event →
      List (List StreamingResourceBase × List Event)
  | _, [], _ => []
  | done, r :: rest, events =>
    let step := body r events
    (done ++ step.1 :: rest, step.2) ::
      forEachResourceStates body (done ++ [step.1]) rest step.2

/-- The states `CreateStreamingResource` passes through, one per statement,
from the state at entry; a call stopped by `Finish` or by `OpenFile` has no
further state. -/
def statesOfCreateStreamingResource (in_filename : String) (in_pHeap : Nat)
    (self : TileUpdateManagerBase) : List TileUpdateManagerBase :=
  match Finish self with
  | .error _ => [self]
  | .ok s1 =>
    match OpenFile in_filename s1 with
    | .error _ => [self, s1]
    | .ok opened =>
      let created := newStreamingResource in_filename opened.1 in_pHeap opened.2
      let s2 := created.2
      let s3 := { s2 with m_streamingResources := s2.m_streamingResources ++ [created.1] }
      let s4 := { s3 with m_numStreamingResourcesChanged := true }
      let s5 := { s4 with m_havePackedMipsToLoad := true }
      [self, s1, opened.2, s2, s3, s4, s5]

/-- The states `UseDirectStorage` passes through: entry, after `Finish`, after
`SetStreamer`, after each `SetFileHandle` of the loop, after the `delete`. -/
def statesOfUseDirectStorage (in_useDS : Bool) (self : TileUpdateManagerBase) :
    List TileUpdateManagerBase :=
  match Finish self with
  | .error _ => [self]
  | .ok s1 =>
    let streamerType := if in_useDS then StreamerType.DirectStorage else StreamerType.Reference
    let s2 := (SetStreamer streamerType s1).2
    let pOldStreamer := (SetStreamer streamerType s1).1
    let rebound := forEachResource (SetFileHandle s2.m_dataUploader) s2.m_streamingResources
      s2.m_events
    let s3 := { s2 with m_streamingResources := rebound.1, m_events := rebound.2 }
    self :: s1 :: s2 ::
      ((forEachResourceStates (SetFileHandle s2.m_dataUploader) [] s2.m_streamingResources
          s2.m_events).map
          (fun p => { s2 with m_streamingResources := p.1, m_events := p.2 }) ++
        [log (.DeleteStreamer pOldStreamer.m_ptr) s3])

/-- The states `SetVisualizationMode` passes through: entry, after `Finish`,
after each `ClearAllocations` of the loop, after the uploader is given the
mode. -/
def statesOfSetVisualizationMode (in_mode : Nat) (self : TileUpdateManagerBase) :
    List TileUpdateManagerBase :=
  match ASSERT (!self.GetWithinFrame) with
  | .error _ => [self]
  | .ok _ =>
    match Finish self with
    | .error _ => [self]
    | .ok s1 =>
      let cleared := forEachResource ClearAllocations s1.m_streamingResources s1.m_events
      let s2 := { s1 with m_streamingResources := cleared.1, m_events := cleared.2 }
      self :: s1 ::
        ((forEachResourceStates ClearAllocations [] s1.m_streamingResources s1.m_events).map
            (fun p => { s1 with m_streamingResources := p.1, m_events := p.2 }) ++
          [log (.SetVisualizationMode in_mode)
            { s2 with
                m_dataUploader := { s2.m_dataUploader with m_visualizationMode := in_mode } }])

/-- A call of the public interface, with its arguments. -/
inductive PublicCall where
  | CreateStreamingResource (in_filename : String) (in_pHeap : Nat)
  | UseDirectStorage (in_useDS : Bool)
  | SetVisualizationMode (in_mode : Nat)
  | BeginFrame (in_pDescriptorHeap : Nat) (in_minmipmapDescriptorHandle : Nat)
  | QueueFeedback (in_pResource : StreamingResourceBase) (in_gpuDescriptor : Nat)
  | EndFrame
  deriving DecidableEq, Repr

/-- The state a public call leaves, or its failure. -/
def resultOfCall (cfg : BuildConfig) (c : PublicCall) (s : TileUpdateManagerBase) :
    Except Failure TileUpdateManagerBase :=
  match c with
  | .CreateStreamingResource name heap => (CreateStreamingResource name heap s).map (fun r => r.2)
  | .UseDirectStorage b => UseDirectStorage b s
  | .SetVisualizationMode m => SetVisualizationMode m s
  | .BeginFrame h d => BeginFrame h d s
  | .QueueFeedback r g => .ok (QueueFeedback cfg r g s)
  | .EndFrame => (EndFrame cfg s).map (fun r => r.2)

/-- The states a public call passes through, from the state at entry.  The three
calls that touch the managed set are followed statement by statement; the frame
calls, which never assign `m_streamingResources`, by their two end states. -/
def statesOfCall (cfg : BuildConfig) (c : PublicCall) (s : TileUpdateManagerBase) :
    List TileUpdateManagerBase :=
  match c with
  | .CreateStreamingResource name heap => statesOfCreateStreamingResource name heap s
  | .UseDirectStorage b => statesOfUseDirectStorage b s
  | .SetVisualizationMode m => statesOfSetVisualizationMode m s
  | other =>
    match resultOfCall cfg other s with
    | .ok s' => [s, s']
    | .error _ => [s]

/-- The states a sequence of public calls passes through, call after call, up to
the first failure. -/
def trajectory (cfg : BuildConfig) :
    List PublicCall → TileUpdateManagerBase → List TileUpdateManagerBase
  | [], s => [s]
  | c :: rest, s =>
    match resultOfCall cfg c s with
    | .ok s' => statesOfCall cfg c s ++ trajectory cfg rest s'
    | .error _ => statesOfCall cfg c s

/-- Run a sequence of public calls, stopping at the first failure. -/
def runCalls (cfg : BuildConfig) :
    List PublicCall → TileUpdateManagerBase → Except Failure TileUpdateManagerBase
  | [], s => .ok s
  | c :: rest, s =>
    match resultOfCall cfg c s with
    | .ok s' => runCalls cfg rest s'
    | .error e => .error e

/-- Whether a `CreateStreamingResource` call occurs in `calls` after the last
`BeginFrame` of `calls`; `pending` is the answer for the calls made before. -/
def createdSinceLastBeginFrame (pending : Bool) : List PublicCall → Bool
  | [] => pending
  | .CreateStreamingResource _ _ :: rest => createdSinceLastBeginFrame true rest
  | .BeginFrame _ _ :: rest => createdSinceLastBeginFrame false rest
  | _ :: rest => createdSinceLastBeginFrame pending rest

/-- The transitions the packed-mip block of `EndFrame` collects: one from COMMON
to PIXEL_SHADER_RESOURCE for each managed resource whose
`GetPackedMipsNeedTransition` is true, in managed-set order. -/
def packedMipTransitionsNeeded (self : TileUpdateManagerBase) : List D3D12_RESOURCE_BARRIER :=
  (self.m_streamingResources.filter (fun o => o.GetPackedMipsNeedTransition)).map
    (fun o => .Transition o.GetTiledResource .COMMON .PIXEL_SHADER_RESOURCE)

/-- The aliasing-barrier call of the before-draw block of `EndFrame`, when it is
made. -/
def aliasingCommands (self : TileUpdateManagerBase) : List Command :=
  if self.m_addAliasingBarriers && self.m_streamingResources.length != 0 then
    [.ResourceBarrier (self.m_streamingResources.length % UINT_RANGE)
      (self.m_streamingResources.map
        (fun pResource => D3D12_RESOURCE_BARRIER.Aliasing none pResource.GetTiledResource))]
  else []

/-- The three `COPY_RESIDENCY_MAPS` calls of the before-draw block of `EndFrame`,
when they are compiled in. -/
def residencyCommands (cfg : BuildConfig) : List Command :=
  if cfg.COPY_RESIDENCY_MAPS then
    [.ResourceBarrier 1 [.Transition .residencyMapLocal .PIXEL_SHADER_RESOURCE .COPY_DEST],
      .CopyResource .residencyMapLocal .residencyMap,
      .ResourceBarrier 1 [.Transition .residencyMapLocal .COPY_DEST .PIXEL_SHADER_RESOURCE]]
  else []

/-- The state of `idleManager` after `CreateStreamingResource` for the file
`c.xet` on heap 7. -/
def managerAfterCreate : TileUpdateManagerBase :=
  match runCalls plainBuild [.CreateStreamingResource "c.xet" 7] idleManager with
  | .ok s => s
  | .error _ => idleManager

/-- The state of `managerAfterCreate` after `BeginFrame`. -/
def managerAfterCreateInFrame : TileUpdateManagerBase :=
  match BeginFrame 0 5 managerAfterCreate with
  | .ok s => s
  | .error _ => managerAfterCreate

/-- Between two consecutive states either the managed set (the resources, their
file handles and their allocation counts) is the same, or the background threads
are stopped in both. -/
def mutationExcludesThreads (a b : TileUpdateManagerBase) : Bool :=
  (a.m_streamingResources == b.m_streamingResources) ||
    (!a.m_threadsRunning && !b.m_threadsRunning)

end TileUpdateManagerBase

end Streaming

/-! # Theorems -/

namespace Streaming
open TileUpdateManagerBase

/-! ## Field lemmas -/

section signalFrameFields
variable (d : Nat) (s : TileUpdateManagerBase)

theorem signalFrame_withinFrame : (signalFrame d s).m_withinFrame = true := by
  unfold signalFrame StartThreads AllocateResidencyMap log
  dsimp only
  split <;> split <;> rfl

theorem signalFrame_numSwapBuffers : (signalFrame d s).m_numSwapBuffers = s.m_numSwapBuffers := by
  unfold signalFrame StartThreads AllocateResidencyMap log
  dsimp only
  split <;> split <;> rfl

theorem signalFrame_renderFrameIndex :
    (signalFrame d s).m_renderFrameIndex = s.m_renderFrameIndex := by
  unfold signalFrame StartThreads AllocateResidencyMap log
  dsimp only
  split <;> split <;> rfl

theorem signalFrame_frameFenceValue :
    (signalFrame d s).m_frameFenceValue = s.m_frameFenceValue + 1 := by
  unfold signalFrame StartThreads AllocateResidencyMap log
  dsimp only
  split <;> split <;> rfl

theorem signalFrame_commandLists : (signalFrame d s).m_commandLists = s.m_commandLists := by
  unfold signalFrame StartThreads AllocateResidencyMap log
  dsimp only
  split <;> split <;> rfl

theorem signalFrame_feedbackReadbacks :
    (signalFrame d s).m_feedbackReadbacks = s.m_feedbackReadbacks := by
  unfold signalFrame StartThreads AllocateResidencyMap log
  dsimp only
  split <;> split <;> rfl

theorem signalFrame_barrierUavToResolveSrc :
    (signalFrame d s).m_barrierUavToResolveSrc = s.m_barrierUavToResolveSrc := by
  unfold signalFrame StartThreads AllocateResidencyMap log
  dsimp only
  split <;> split <;> rfl

theorem signalFrame_barrierResolveSrcToUav :
    (signalFrame d s).m_barrierResolveSrcToUav = s.m_barrierResolveSrcToUav := by
  unfold signalFrame StartThreads AllocateResidencyMap log
  dsimp only
  split <;> split <;> rfl

theorem signalFrame_packedMipTransitionBarriers :
    (signalFrame d s).m_packedMipTransitionBarriers = s.m_packedMipTransitionBarriers := by
  unfold signalFrame StartThreads AllocateResidencyMap log
  dsimp only
  split <;> split <;> rfl

theorem signalFrame_streamingResources :
    (signalFrame d s).m_streamingResources = s.m_streamingResources := by
  unfold signalFrame StartThreads AllocateResidencyMap log
  dsimp only
  split <;> split <;> rfl

theorem signalFrame_events :
    (signalFrame d s).m_events =
      s.m_events ++ (if s.m_threadsRunning then [] else [Event.StartThreads]) ++
        [Event.ProcessFeedbackFlagSet] ++
        (if s.m_numStreamingResourcesChanged then [Event.AllocateResidencyMap d] else []) ++
        [Event.Signal s.m_frameFenceValue] := by
  unfold signalFrame StartThreads AllocateResidencyMap log
  cases h1 : s.m_threadsRunning <;> cases h2 : s.m_numStreamingResourcesChanged <;>
    simp [h1, h2]

end signalFrameFields

/-- The ring slot `BeginFrame` moves to. -/
theorem BeginFrame_eq_ok_iff (h d : Nat) (s s' : TileUpdateManagerBase) :
    BeginFrame h d s = .ok s' ↔
      s.m_withinFrame = false ∧ s.m_numSwapBuffers ≠ 0 ∧
      ∃ b a,
        resetForFrame ((s.m_renderFrameIndex + 1) % s.m_numSwapBuffers)
          s.m_commandLists.Before = .ok b ∧
        resetForFrame ((s.m_renderFrameIndex + 1) % s.m_numSwapBuffers)
          s.m_commandLists.After = .ok a ∧
        s' = record .Before (.SetDescriptorHeaps h)
          { signalFrame d s with
              m_renderFrameIndex :=
                (s.m_renderFrameIndex + 1) % s.m_numSwapBuffers
              m_commandLists := { Before := b, After := a } } := by
  unfold BeginFrame
  cases hw : s.m_withinFrame
  · simp only [ASSERT, GetWithinFrame, hw, bind, Except.bind, Bool.not_false, if_true,
      signalFrame_numSwapBuffers, signalFrame_renderFrameIndex, signalFrame_commandLists]
    by_cases hD : s.m_numSwapBuffers = 0
    · simp [hD, throw, throwThe, MonadExcept.throw]
    · simp only [hD, if_false]
      cases hb : resetForFrame _ s.m_commandLists.Before with
      | error e => simp [pure, Except.pure]
      | ok b =>
        cases ha : resetForFrame _ s.m_commandLists.After with
        | error e => simp [pure, Except.pure]
        | ok a =>
          simp only [pure, Except.pure, Except.ok.injEq, ne_eq, hD, not_false_eq_true, true_and,
            exists_and_left, exists_eq_left']
          exact eq_comm
  · simp [ASSERT, GetWithinFrame, hw, bind, Except.bind]

theorem foldl_record_After (f : FeedbackReadback → Command) (l : List FeedbackReadback)
    (s : TileUpdateManagerBase) :
    l.foldl (fun acc t => record .After (f t) acc) s =
      { s with m_commandLists :=
          { s.m_commandLists with After :=
              { s.m_commandLists.After with
                  m_commands := s.m_commandLists.After.m_commands ++ l.map f } } } := by
  induction l generalizing s with
  | nil => simp
  | cons t rest ih =>
    rw [List.foldl_cons, ih]
    simp [record, List.append_assoc]

theorem EndFrame_eq (cfg : BuildConfig) (s : TileUpdateManagerBase) :
    EndFrame cfg s =
      if s.m_withinFrame then
        .ok ({ m_beforeDrawCommands := .Before, m_afterDrawCommands := .After },
          { finishAfterDraw cfg (finishBeforeDraw cfg (collectPackedMipTransitions s)) with
              m_withinFrame := false })
      else .error .assertion := by
  unfold EndFrame
  cases hw : s.m_withinFrame <;>
    simp [ASSERT, GetWithinFrame, hw, bind, Except.bind, pure, Except.pure]

/-- The state `resolveQueuedFeedback` produces, field by field. -/
theorem resolveQueuedFeedback_eq (cfg : BuildConfig) (s : TileUpdateManagerBase) :
    resolveQueuedFeedback cfg s =
      { s with
          m_feedbackReadbacks := []
          m_barrierUavToResolveSrc := []
          m_barrierResolveSrcToUav := []
          m_commandLists :=
            { s.m_commandLists with After :=
                { s.m_commandLists.After with
                    m_commands := s.m_commandLists.After.m_commands ++
                      ([.BeginTimer s.m_renderFrameIndex,
                        .ResourceBarrier (s.m_barrierUavToResolveSrc.length % UINT_RANGE)
                          s.m_barrierUavToResolveSrc] ++
                       s.m_feedbackReadbacks.map (fun t => .ResolveFeedback t.m_pStreamingResource) ++
                       [.ResourceBarrier (s.m_barrierResolveSrcToUav.length % UINT_RANGE)
                          s.m_barrierResolveSrcToUav,
                        .EndTimer s.m_renderFrameIndex] ++
                       (if cfg.RESOLVE_TO_TEXTURE then
                          s.m_feedbackReadbacks.map
                            (fun t => .ReadbackFeedback t.m_pStreamingResource)
                        else []) ++
                       [.ResolveTimer s.m_renderFrameIndex]) } } } := by
  unfold resolveQueuedFeedback
  simp only [foldl_record_After]
  cases hr : cfg.RESOLVE_TO_TEXTURE <;>
    simp [record, hr, List.append_assoc]

section collectFields
variable (s : TileUpdateManagerBase)

theorem collect_feedbackReadbacks :
    (collectPackedMipTransitions s).m_feedbackReadbacks = s.m_feedbackReadbacks := by
  unfold collectPackedMipTransitions; split <;> rfl

theorem collect_barrierUavToResolveSrc :
    (collectPackedMipTransitions s).m_barrierUavToResolveSrc = s.m_barrierUavToResolveSrc := by
  unfold collectPackedMipTransitions; split <;> rfl

theorem collect_barrierResolveSrcToUav :
    (collectPackedMipTransitions s).m_barrierResolveSrcToUav = s.m_barrierResolveSrcToUav := by
  unfold collectPackedMipTransitions; split <;> rfl

theorem collect_commandLists :
    (collectPackedMipTransitions s).m_commandLists = s.m_commandLists := by
  unfold collectPackedMipTransitions; split <;> rfl

theorem collect_renderFrameIndex :
    (collectPackedMipTransitions s).m_renderFrameIndex = s.m_renderFrameIndex := by
  unfold collectPackedMipTransitions; split <;> rfl

end collectFields

section beforeDrawFields
variable (cfg : BuildConfig) (s : TileUpdateManagerBase)

theorem finishBeforeDraw_feedbackReadbacks :
    (finishBeforeDraw cfg s).m_feedbackReadbacks = s.m_feedbackReadbacks := by
  simp only [finishBeforeDraw, copyResidencyMaps, recordPackedMipTransitions,
    recordAliasingBarriers, record, close]
  split_ifs <;> rfl

theorem finishBeforeDraw_barrierUavToResolveSrc :
    (finishBeforeDraw cfg s).m_barrierUavToResolveSrc = s.m_barrierUavToResolveSrc := by
  simp only [finishBeforeDraw, copyResidencyMaps, recordPackedMipTransitions,
    recordAliasingBarriers, record, close]
  split_ifs <;> rfl

theorem finishBeforeDraw_barrierResolveSrcToUav :
    (finishBeforeDraw cfg s).m_barrierResolveSrcToUav = s.m_barrierResolveSrcToUav := by
  simp only [finishBeforeDraw, copyResidencyMaps, recordPackedMipTransitions,
    recordAliasingBarriers, record, close]
  split_ifs <;> rfl

theorem finishBeforeDraw_renderFrameIndex :
    (finishBeforeDraw cfg s).m_renderFrameIndex = s.m_renderFrameIndex := by
  simp only [finishBeforeDraw, copyResidencyMaps, recordPackedMipTransitions,
    recordAliasingBarriers, record, close]
  split_ifs <;> rfl

theorem finishBeforeDraw_After :
    (finishBeforeDraw cfg s).m_commandLists.After = s.m_commandLists.After := by
  simp only [finishBeforeDraw, copyResidencyMaps, recordPackedMipTransitions,
    recordAliasingBarriers, record, close]
  split_ifs <;> rfl

theorem finishBeforeDraw_Before_closed :
    (finishBeforeDraw cfg s).m_commandLists.Before.m_closed = true := by
  simp only [finishBeforeDraw, close]

theorem finishBeforeDraw_packedMipTransitionBarriers :
    (finishBeforeDraw cfg s).m_packedMipTransitionBarriers = [] := by
  simp only [finishBeforeDraw, copyResidencyMaps, recordPackedMipTransitions,
    recordAliasingBarriers, record, close]
  split_ifs <;> simp_all

end beforeDrawFields

/-! ## File streamer completion -/

/-- C1: for every update list `u` and every completed value `c` of the copy
fence, `GetCompleted(u)` is true exactly when `u.m_copyFenceValue ≤ c`; the
result is the same for any other streamer whose fence reads `c` and any other
update list stamped with the same value, so nothing else is read, and the
method being a function of its receiver, no state is changed. -/
theorem GetCompleted_iff_le (self : FileStreamer) (u : UpdateList) (c : Nat)
    (hc : self.m_copyFence.GetCompletedValue = c) :
    (self.GetCompleted u = true ↔ u.m_copyFenceValue ≤ c) ∧
      ∀ (other : FileStreamer) (u' : UpdateList),
        other.m_copyFence.GetCompletedValue = c →
        u'.m_copyFenceValue = u.m_copyFenceValue →
        other.GetCompleted u' = self.GetCompleted u := by
  subst hc
  refine ⟨by simp [FileStreamer.GetCompleted], ?_⟩
  intro other u' ho hu
  simp [FileStreamer.GetCompleted, ho, hu]

/-- Witness for C1: a streamer whose fence reads 5 and an update list stamped 3. -/
theorem GetCompleted_iff_le_witness :
    (({ m_copyFence := { m_completedValue := 5 }, m_copyFenceValue := 9 } : FileStreamer).GetCompleted
        { m_copyFenceValue := 3 } = true ↔ 3 ≤ 5) ∧
      ∀ (other : FileStreamer) (u' : UpdateList),
        other.m_copyFence.GetCompletedValue = 5 →
        u'.m_copyFenceValue = 3 →
        other.GetCompleted u' =
          ({ m_copyFence := { m_completedValue := 5 }, m_copyFenceValue := 9 } :
            FileStreamer).GetCompleted { m_copyFenceValue := 3 } :=
  GetCompleted_iff_le { m_copyFence := { m_completedValue := 5 }, m_copyFenceValue := 9 }
    { m_copyFenceValue := 3 } 5 rfl

/-- C2: fence monotonicity.  For the same streamer and update list, if
`GetCompleted` is true when the copy fence reads `c1` and the fence later reads
`c2 ≥ c1`, then `GetCompleted` is true again. -/
theorem GetCompleted_monotone (self : FileStreamer) (u : UpdateList) (c1 c2 : Nat)
    (hle : c1 ≤ c2)
    (h1 : ({ self with m_copyFence := { m_completedValue := c1 } } : FileStreamer).GetCompleted u
      = true) :
    ({ self with m_copyFence := { m_completedValue := c2 } } : FileStreamer).GetCompleted u
      = true := by
  simp only [FileStreamer.GetCompleted, ID3D12Fence.GetCompletedValue, decide_eq_true_eq] at h1 ⊢
  exact le_trans h1 hle

/-- Witness for C2: an update list stamped 4, the fence reading 4 and then 7. -/
theorem GetCompleted_monotone_witness :
    4 ≤ 7 ∧
    ({ m_copyFence := { m_completedValue := 4 } } : FileStreamer).GetCompleted
        { m_copyFenceValue := 4 } = true ∧
    ({ m_copyFence := { m_completedValue := 7 } } : FileStreamer).GetCompleted
        { m_copyFenceValue := 4 } = true :=
  ⟨by decide, by decide,
    GetCompleted_monotone { m_copyFence := { m_completedValue := 0 } } { m_copyFenceValue := 4 }
      4 7 (by decide) (by decide)⟩

/-! ## Frame lifecycle -/

theorem resetForFrame_ne_assertion (i : Nat) (cl : CommandList) :
    resetForFrame i cl ≠ .error .assertion := by
  unfold resetForFrame
  split
  · simp
  · split <;> simp

theorem BeginFrame_assertion_iff (h d : Nat) (t : TileUpdateManagerBase) :
    BeginFrame h d t = .error .assertion ↔ t.m_withinFrame = true := by
  constructor
  · intro hf
    cases hw : t.m_withinFrame
    · exfalso
      unfold BeginFrame at hf
      simp only [ASSERT, GetWithinFrame, hw, bind, Except.bind, Bool.not_false, if_true,
        signalFrame_numSwapBuffers, signalFrame_renderFrameIndex, signalFrame_commandLists] at hf
      by_cases hD : t.m_numSwapBuffers = 0
      · simp [hD, throw, throwThe, MonadExcept.throw] at hf
      · simp only [hD, if_false] at hf
        cases hb : resetForFrame
            ((t.m_renderFrameIndex + 1) % t.m_numSwapBuffers)
            t.m_commandLists.Before with
        | error e =>
          rw [hb] at hf
          simp only [pure, Except.pure, Except.error.injEq] at hf
          exact resetForFrame_ne_assertion _ _ (hf ▸ hb)
        | ok b =>
          rw [hb] at hf
          cases ha : resetForFrame
              ((t.m_renderFrameIndex + 1) % t.m_numSwapBuffers)
              t.m_commandLists.After with
          | error e =>
            rw [ha] at hf
            simp only [pure, Except.pure, Except.error.injEq] at hf
            exact resetForFrame_ne_assertion _ _ (hf ▸ ha)
          | ok a =>
            rw [ha] at hf
            simp [pure, Except.pure] at hf
    · rfl
  · intro hw
    simp [BeginFrame, ASSERT, GetWithinFrame, hw, bind, Except.bind]

theorem EndFrame_assertion_iff (cfg : BuildConfig) (t : TileUpdateManagerBase) :
    EndFrame cfg t = .error .assertion ↔ t.m_withinFrame = false := by
  rw [EndFrame_eq]
  cases t.m_withinFrame <;> simp

theorem EndFrame_ok_within (cfg : BuildConfig) (t : TileUpdateManagerBase)
    (r : CommandLists × TileUpdateManagerBase) (hr : EndFrame cfg t = .ok r) :
    t.m_withinFrame = true ∧ r.2.m_withinFrame = false := by
  rw [EndFrame_eq] at hr
  cases hw : t.m_withinFrame
  · simp [hw] at hr
  · simp only [hw, if_true, Except.ok.injEq] at hr
    subst hr
    exact ⟨rfl, rfl⟩

theorem BeginFrame_ok_within (h d : Nat) (t t' : TileUpdateManagerBase)
    (hr : BeginFrame h d t = .ok t') :
    t.m_withinFrame = false ∧ t'.m_withinFrame = true := by
  rw [BeginFrame_eq_ok_iff] at hr
  obtain ⟨hw, _, b, a, _, _, rfl⟩ := hr
  exact ⟨hw, by simp [record, signalFrame_withinFrame]⟩

theorem runFrameCalls_alternates (cfg : BuildConfig) (calls : List FrameCall) :
    ∀ (s s' : TileUpdateManagerBase), runFrameCalls cfg calls s = .ok s' →
      alternates (!s.m_withinFrame) calls = true := by
  induction calls with
  | nil => intro s s' _; rfl
  | cons c rest ih =>
    intro s s' hrun
    cases c with
    | BeginFrame h d =>
      simp only [runFrameCalls] at hrun
      cases hb : BeginFrame h d s with
      | error e => simp [hb] at hrun
      | ok s1 =>
        simp only [hb] at hrun
        obtain ⟨hw, hw1⟩ := BeginFrame_ok_within h d s s1 hb
        have := ih s1 s' hrun
        simp [alternates, FrameCall.isBegin, hw, hw1] at this ⊢
        exact this
    | EndFrame =>
      simp only [runFrameCalls] at hrun
      cases hb : EndFrame cfg s with
      | error e => simp [hb] at hrun
      | ok r =>
        simp only [hb] at hrun
        obtain ⟨hw, hw1⟩ := EndFrame_ok_within cfg s r hb
        have := ih r.2 s' hrun
        simp [alternates, FrameCall.isBegin, hw, hw1] at this ⊢
        exact this

/-- C3: frame-lifecycle exclusion.  In every manager state `t`, `BeginFrame`
ends in a failed assertion exactly when `t` is within a frame, and `EndFrame`
ends in a failed assertion exactly when `t` is not within a frame.
Consequently every sequence of `BeginFrame` and `EndFrame` calls that runs
without failure strictly alternates, its first call being the one the starting
state admits; on a manager that starts outside any frame, as a constructed one
does, it starts with `BeginFrame`. -/
theorem frame_lifecycle_exclusion (cfg : BuildConfig) (h d : Nat)
    (t s s' : TileUpdateManagerBase) (calls : List FrameCall)
    (hrun : runFrameCalls cfg calls s = .ok s') :
    (BeginFrame h d t = .error .assertion ↔ t.m_withinFrame = true) ∧
    (EndFrame cfg t = .error .assertion ↔ t.m_withinFrame = false) ∧
    alternates (!s.m_withinFrame) calls = true ∧
    (s.m_withinFrame = false → alternates true calls = true) := by
  refine ⟨BeginFrame_assertion_iff h d t, EndFrame_assertion_iff cfg t, ?_, ?_⟩
  · exact runFrameCalls_alternates cfg calls s s' hrun
  · intro hs
    have := runFrameCalls_alternates cfg calls s s' hrun
    simpa [hs] using this

theorem idleManager_one_frame :
    runFrameCalls plainBuild [.BeginFrame 0 0, .EndFrame] idleManager =
      .ok idleManagerAfterOneFrame := by
  rfl

/-- Witness for C3: one full frame on `idleManager`. -/
theorem frame_lifecycle_exclusion_witness :
    runFrameCalls plainBuild [.BeginFrame 0 0, .EndFrame] idleManager =
      .ok idleManagerAfterOneFrame ∧
    (BeginFrame 0 0 idleManager = .error .assertion ↔ idleManager.m_withinFrame = true) ∧
    (EndFrame plainBuild idleManager = .error .assertion ↔ idleManager.m_withinFrame = false) ∧
    alternates true [.BeginFrame 0 0, .EndFrame] = true :=
  have hmain := frame_lifecycle_exclusion plainBuild 0 0 idleManager idleManager
    idleManagerAfterOneFrame [.BeginFrame 0 0, .EndFrame] idleManager_one_frame
  ⟨idleManager_one_frame, hmain.1, hmain.2.1, hmain.2.2.2 rfl⟩

/-! ## Feedback queueing and the after-draw command list -/

theorem queueAll_eq (cfg : BuildConfig) (queued : List (StreamingResourceBase × Nat)) :
    ∀ s : TileUpdateManagerBase,
      queueAll cfg queued s =
        { s with
            m_feedbackReadbacks := s.m_feedbackReadbacks ++
              queued.map (fun q => { m_pStreamingResource := q.1.m_ptr, m_gpuDescriptor := q.2 })
            m_barrierUavToResolveSrc := s.m_barrierUavToResolveSrc ++
              (queued.map (fun q => barriersBeforeResolve cfg q.1)).flatten
            m_barrierResolveSrcToUav := s.m_barrierResolveSrcToUav ++
              (queued.map (fun q => barriersAfterResolve cfg q.1)).flatten
            m_commandLists :=
              { s.m_commandLists with Before :=
                  { s.m_commandLists.Before with
                      m_commands := s.m_commandLists.Before.m_commands ++
                        queued.map (fun q => .ClearFeedback q.1.m_ptr q.2) } } } := by
  induction queued with
  | nil => intro s; simp [queueAll]
  | cons q rest ih =>
    intro s
    have hstep : queueAll cfg (q :: rest) s = queueAll cfg rest (QueueFeedback cfg q.1 q.2 s) := rfl
    rw [hstep, ih]
    simp [QueueFeedback, record, List.append_assoc]

theorem resetForFrame_ok (i : Nat) (cl a : CommandList) (h : resetForFrame i cl = .ok a) :
    ∃ resets, cl.m_allocators.get? i = some resets ∧ cl.m_closed = true ∧
      a = { m_commands := [], m_closed := false,
            m_allocators := cl.m_allocators.set i (resets + 1), m_boundAllocator := some i } := by
  unfold resetForFrame at h
  split at h
  · simp at h
  · rename_i resets hget
    split at h
    · rename_i hc
      simp only [Except.ok.injEq] at h
      exact ⟨resets, hget, hc, h.symm⟩
    · simp at h

theorem finishAfterDraw_After_commands (cfg : BuildConfig) (s : TileUpdateManagerBase) :
    (finishAfterDraw cfg s).m_commandLists.After.m_commands =
      s.m_commandLists.After.m_commands ++
        (if s.m_feedbackReadbacks.length != 0 then
          [.BeginTimer s.m_renderFrameIndex,
            .ResourceBarrier (s.m_barrierUavToResolveSrc.length % UINT_RANGE)
              s.m_barrierUavToResolveSrc] ++
          s.m_feedbackReadbacks.map (fun t => .ResolveFeedback t.m_pStreamingResource) ++
          [.ResourceBarrier (s.m_barrierResolveSrcToUav.length % UINT_RANGE)
              s.m_barrierResolveSrcToUav,
            .EndTimer s.m_renderFrameIndex] ++
          (if cfg.RESOLVE_TO_TEXTURE then
            s.m_feedbackReadbacks.map (fun t => .ReadbackFeedback t.m_pStreamingResource)
          else []) ++
          [.ResolveTimer s.m_renderFrameIndex]
        else []) := by
  unfold finishAfterDraw
  split
  · rw [resolveQueuedFeedback_eq]
    simp [close]
  · simp [close]

theorem filter_barriersBeforeResolve (cfg : BuildConfig)
    (queued : List (StreamingResourceBase × Nat)) :
    ((queued.map (fun q => barriersBeforeResolve cfg q.1)).flatten).filter
        (D3D12_RESOURCE_BARRIER.isTransition .UNORDERED_ACCESS .RESOLVE_SOURCE) =
      queued.map (fun q => .Transition q.1.GetOpaqueFeedback .UNORDERED_ACCESS .RESOLVE_SOURCE) := by
  induction queued with
  | nil => rfl
  | cons q rest ih =>
    simp only [List.map_cons, List.flatten_cons, List.filter_append, ih]
    cases hr : cfg.RESOLVE_TO_TEXTURE <;>
      simp [barriersBeforeResolve, hr, D3D12_RESOURCE_BARRIER.isTransition]

theorem filter_barriersAfterResolve (cfg : BuildConfig)
    (queued : List (StreamingResourceBase × Nat)) :
    ((queued.map (fun q => barriersAfterResolve cfg q.1)).flatten).filter
        (D3D12_RESOURCE_BARRIER.isTransition .RESOLVE_SOURCE .UNORDERED_ACCESS) =
      queued.map (fun q => .Transition q.1.GetOpaqueFeedback .RESOLVE_SOURCE .UNORDERED_ACCESS) := by
  induction queued with
  | nil => rfl
  | cons q rest ih =>
    simp only [List.map_cons, List.flatten_cons, List.filter_append, ih]
    cases hr : cfg.RESOLVE_TO_TEXTURE <;>
      simp [barriersAfterResolve, hr, D3D12_RESOURCE_BARRIER.isTransition]

theorem countP_comp_eq_zero {α : Type} (p : Command → Bool) (f : α → Command) (l : List α)
    (hp : ∀ x, p (f x) = false) : l.countP (p ∘ f) = 0 := by
  induction l with
  | nil => rfl
  | cons x rest ih => simp [List.countP_cons, ih, hp]

theorem countP_comp_eq_length {α : Type} (p : Command → Bool) (f : α → Command) (l : List α)
    (hp : ∀ x, p (f x) = true) : l.countP (p ∘ f) = l.length := by
  induction l with
  | nil => rfl
  | cons x rest ih => simp [List.countP_cons, ih, hp]

/-- C4 (amended): barrier coalescing.  Start from a manager with nothing queued
(the feedback queue and the two feedback barrier batches are empty), run
`BeginFrame`, then `N` `QueueFeedback` calls, then `EndFrame`.  `EndFrame`
succeeds and the after-draw command list it leaves is empty when `N = 0`;
otherwise it is: the timer start, one `ResourceBarrier` call passed the whole
UAV to RESOLVE_SOURCE batch, the `N` `ResolveFeedback` commands in queueing
order, one `ResourceBarrier` call passed the whole RESOLVE_SOURCE to UAV batch,
the timer end, the readbacks of a `RESOLVE_TO_TEXTURE` build, the timer
resolve.  The UAV to RESOLVE_SOURCE transitions in the first batch and the
RESOLVE_SOURCE to UAV transitions in the second are those of the `N` queued
feedback resources, in queueing order, and for `N ≥ 1` the list holds exactly two
`ResourceBarrier` calls and exactly `N` `ResolveFeedback` commands. -/
theorem barrier_coalescing (cfg : BuildConfig) (h d : Nat) (s s1 : TileUpdateManagerBase)
    (queued : List (StreamingResourceBase × Nat))
    (hq : s.m_feedbackReadbacks = []) (hu : s.m_barrierUavToResolveSrc = [])
    (hr : s.m_barrierResolveSrcToUav = []) (hb : BeginFrame h d s = .ok s1) :
    Except.map (fun r => (r.2.GetCommandList .After).m_commands)
        (EndFrame cfg (queueAll cfg queued s1)) =
      .ok (if queued.length = 0 then []
        else
          [.BeginTimer s1.m_renderFrameIndex,
            .ResourceBarrier
              ((queued.map (fun q => barriersBeforeResolve cfg q.1)).flatten.length % UINT_RANGE)
              (queued.map (fun q => barriersBeforeResolve cfg q.1)).flatten] ++
          queued.map (fun q => .ResolveFeedback q.1.m_ptr) ++
          [.ResourceBarrier
              ((queued.map (fun q => barriersAfterResolve cfg q.1)).flatten.length % UINT_RANGE)
              (queued.map (fun q => barriersAfterResolve cfg q.1)).flatten,
            .EndTimer s1.m_renderFrameIndex] ++
          (if cfg.RESOLVE_TO_TEXTURE then queued.map (fun q => .ReadbackFeedback q.1.m_ptr)
            else []) ++
          [.ResolveTimer s1.m_renderFrameIndex]) ∧
    ((queued.map (fun q => barriersBeforeResolve cfg q.1)).flatten).filter
        (D3D12_RESOURCE_BARRIER.isTransition .UNORDERED_ACCESS .RESOLVE_SOURCE) =
      queued.map (fun q => .Transition q.1.GetOpaqueFeedback .UNORDERED_ACCESS .RESOLVE_SOURCE) ∧
    ((queued.map (fun q => barriersAfterResolve cfg q.1)).flatten).filter
        (D3D12_RESOURCE_BARRIER.isTransition .RESOLVE_SOURCE .UNORDERED_ACCESS) =
      queued.map (fun q => .Transition q.1.GetOpaqueFeedback .RESOLVE_SOURCE .UNORDERED_ACCESS) ∧
    (1 ≤ queued.length →
      Except.map (fun r => (r.2.GetCommandList .After).m_commands.countP Command.isResourceBarrier)
          (EndFrame cfg (queueAll cfg queued s1)) = .ok 2 ∧
      Except.map (fun r => (r.2.GetCommandList .After).m_commands.countP Command.isResolveFeedback)
          (EndFrame cfg (queueAll cfg queued s1)) = .ok queued.length) := by
  rw [BeginFrame_eq_ok_iff] at hb
  obtain ⟨_, _, b, a, _, ha, hs1⟩ := hb
  obtain ⟨resets, _, _, ha'⟩ := resetForFrame_ok _ _ _ ha
  have hw : (queueAll cfg queued s1).m_withinFrame = true := by
    rw [queueAll_eq, hs1]; simp [record, signalFrame_withinFrame]
  have hcmds : (EndFrame cfg (queueAll cfg queued s1)) =
      .ok ({ m_beforeDrawCommands := .Before, m_afterDrawCommands := .After },
          { finishAfterDraw cfg (finishBeforeDraw cfg
              (collectPackedMipTransitions (queueAll cfg queued s1))) with
              m_withinFrame := false }) := by
    rw [EndFrame_eq, hw]; rfl
  have hR : (finishBeforeDraw cfg (collectPackedMipTransitions
      (queueAll cfg queued s1))).m_feedbackReadbacks =
      queued.map (fun q => { m_pStreamingResource := q.1.m_ptr, m_gpuDescriptor := q.2 }) := by
    rw [finishBeforeDraw_feedbackReadbacks, collect_feedbackReadbacks, queueAll_eq, hs1]
    simp [record, signalFrame_feedbackReadbacks, hq]
  have hU : (finishBeforeDraw cfg (collectPackedMipTransitions
      (queueAll cfg queued s1))).m_barrierUavToResolveSrc =
      (queued.map (fun q => barriersBeforeResolve cfg q.1)).flatten := by
    rw [finishBeforeDraw_barrierUavToResolveSrc, collect_barrierUavToResolveSrc, queueAll_eq, hs1]
    simp [record, signalFrame_barrierUavToResolveSrc, hu]
  have hV : (finishBeforeDraw cfg (collectPackedMipTransitions
      (queueAll cfg queued s1))).m_barrierResolveSrcToUav =
      (queued.map (fun q => barriersAfterResolve cfg q.1)).flatten := by
    rw [finishBeforeDraw_barrierResolveSrcToUav, collect_barrierResolveSrcToUav, queueAll_eq, hs1]
    simp [record, signalFrame_barrierResolveSrcToUav, hr]
  have hI : (finishBeforeDraw cfg (collectPackedMipTransitions
      (queueAll cfg queued s1))).m_renderFrameIndex = s1.m_renderFrameIndex := by
    rw [finishBeforeDraw_renderFrameIndex, collect_renderFrameIndex, queueAll_eq]
  have hA : (finishBeforeDraw cfg (collectPackedMipTransitions
      (queueAll cfg queued s1))).m_commandLists.After.m_commands = [] := by
    rw [finishBeforeDraw_After, collect_commandLists, queueAll_eq, hs1, ha']
    simp [record]
  have hlist := finishAfterDraw_After_commands cfg
    (finishBeforeDraw cfg (collectPackedMipTransitions (queueAll cfg queued s1)))
  rw [hR, hU, hV, hI, hA] at hlist
  simp only [List.length_map, List.map_map, List.nil_append, bne_iff_ne, ne_eq, ite_not,
    Function.comp_def] at hlist
  refine ⟨?_, filter_barriersBeforeResolve cfg queued, filter_barriersAfterResolve cfg queued, ?_⟩
  · rw [hcmds]
    simp only [Except.map, GetCommandList, hlist]
  · intro hN
    have hne : ¬ queued.length = 0 := by omega
    rw [hcmds]
    simp only [Except.map, GetCommandList, hlist, hne, if_false, Except.ok.injEq]
    have b1 := countP_comp_eq_zero Command.isResourceBarrier
      (fun x : StreamingResourceBase × Nat => Command.ResolveFeedback x.1.m_ptr) queued
      (fun _ => rfl)
    have b2 := countP_comp_eq_zero Command.isResourceBarrier
      (fun x : StreamingResourceBase × Nat => Command.ReadbackFeedback x.1.m_ptr) queued
      (fun _ => rfl)
    have r1 := countP_comp_eq_length Command.isResolveFeedback
      (fun x : StreamingResourceBase × Nat => Command.ResolveFeedback x.1.m_ptr) queued
      (fun _ => rfl)
    have r2 := countP_comp_eq_zero Command.isResolveFeedback
      (fun x : StreamingResourceBase × Nat => Command.ReadbackFeedback x.1.m_ptr) queued
      (fun _ => rfl)
    constructor
    · cases hrt : cfg.RESOLVE_TO_TEXTURE <;>
        simp [List.countP_append, List.countP_cons, Command.isResourceBarrier, b1, b2]
    · cases hrt : cfg.RESOLVE_TO_TEXTURE <;>
        simp [List.countP_append, List.countP_cons, Command.isResolveFeedback, r1, r2]

theorem idleManager_BeginFrame : BeginFrame 0 0 idleManager = .ok idleManagerInFrame := by
  rfl

/-- Witness for C4: two resources queued in one frame on `idleManager`. -/
theorem barrier_coalescing_witness :
    BeginFrame 0 0 idleManager = .ok idleManagerInFrame ∧
    Except.map (fun r => (r.2.GetCommandList .After).m_commands)
        (EndFrame plainBuild
          (queueAll plainBuild [(sampleResourceA, 10), (sampleResourceB, 11)] idleManagerInFrame)) =
      .ok [.BeginTimer 1,
        .ResourceBarrier 2
          [.Transition (.feedbackResource 20) .UNORDERED_ACCESS .RESOLVE_SOURCE,
           .Transition (.feedbackResource 21) .UNORDERED_ACCESS .RESOLVE_SOURCE],
        .ResolveFeedback 20,
        .ResolveFeedback 21,
        .ResourceBarrier 2
          [.Transition (.feedbackResource 20) .RESOLVE_SOURCE .UNORDERED_ACCESS,
           .Transition (.feedbackResource 21) .RESOLVE_SOURCE .UNORDERED_ACCESS],
        .EndTimer 1,
        .ResolveTimer 1] :=
  ⟨idleManager_BeginFrame,
    (barrier_coalescing plainBuild 0 0 idleManager idleManagerInFrame
      [(sampleResourceA, 10), (sampleResourceB, 11)] rfl rfl rfl idleManager_BeginFrame).1⟩

/-- Counterexample to C4 as stated: `QueueFeedback` has no frame check and
`BeginFrame` clears no vector, so feedback queued for one resource before
`BeginFrame` is still queued in the frame.  With `N = 2` calls between
`BeginFrame` and `EndFrame` the after-draw list holds three `ResolveFeedback`
commands, and with `N = 0` it holds barriers, a resolve and timer commands. -/
theorem barrier_coalescing_queued_before_frame :
    isFreshlyConstructed idleManager = true ∧
    BeginFrame 0 0 (QueueFeedback plainBuild sampleResourceA 9 idleManager) =
      .ok idleManagerQueuedEarlyInFrame ∧
    Except.map (fun r => (r.2.GetCommandList .After).m_commands.countP Command.isResolveFeedback)
        (EndFrame plainBuild
          (queueAll plainBuild [(sampleResourceA, 10), (sampleResourceB, 11)]
            idleManagerQueuedEarlyInFrame)) = .ok 3 ∧
    Except.map (fun r => (r.2.GetCommandList .After).m_commands)
        (EndFrame plainBuild (queueAll plainBuild [] idleManagerQueuedEarlyInFrame)) =
      .ok [.BeginTimer 1,
        .ResourceBarrier 1 [.Transition (.feedbackResource 20) .UNORDERED_ACCESS .RESOLVE_SOURCE],
        .ResolveFeedback 20,
        .ResourceBarrier 1 [.Transition (.feedbackResource 20) .RESOLVE_SOURCE .UNORDERED_ACCESS],
        .EndTimer 1,
        .ResolveTimer 1] :=
  ⟨rfl, rfl, rfl, rfl⟩

/-! ## What `EndFrame` leaves behind -/

section afterDrawFields
variable (cfg : BuildConfig) (s : TileUpdateManagerBase)

theorem finishAfterDraw_feedbackReadbacks :
    (finishAfterDraw cfg s).m_feedbackReadbacks = [] := by
  unfold finishAfterDraw
  split
  · rw [resolveQueuedFeedback_eq]; rfl
  · rename_i hz
    simp only [bne_iff_ne, ne_eq, not_not, List.length_eq_zero] at hz
    simpa [close] using hz

theorem finishAfterDraw_barrierUavToResolveSrc :
    (finishAfterDraw cfg s).m_barrierUavToResolveSrc =
      if s.m_feedbackReadbacks.length != 0 then [] else s.m_barrierUavToResolveSrc := by
  unfold finishAfterDraw
  split
  · rw [resolveQueuedFeedback_eq]; rfl
  · rfl

theorem finishAfterDraw_barrierResolveSrcToUav :
    (finishAfterDraw cfg s).m_barrierResolveSrcToUav =
      if s.m_feedbackReadbacks.length != 0 then [] else s.m_barrierResolveSrcToUav := by
  unfold finishAfterDraw
  split
  · rw [resolveQueuedFeedback_eq]; rfl
  · rfl

theorem finishAfterDraw_packedMipTransitionBarriers :
    (finishAfterDraw cfg s).m_packedMipTransitionBarriers = s.m_packedMipTransitionBarriers := by
  unfold finishAfterDraw
  split
  · rw [resolveQueuedFeedback_eq]; rfl
  · rfl

theorem finishAfterDraw_Before :
    (finishAfterDraw cfg s).m_commandLists.Before = s.m_commandLists.Before := by
  unfold finishAfterDraw
  split
  · rw [resolveQueuedFeedback_eq]; rfl
  · rfl

theorem finishAfterDraw_After_closed :
    (finishAfterDraw cfg s).m_commandLists.After.m_closed = true := by
  simp only [finishAfterDraw, close]

end afterDrawFields

/-- The invariant behind `EndFrame`: a barrier batch of the feedback resolve is
non-empty only when feedback is queued. -/
theorem Reachable.batches_empty (cfg : BuildConfig) (s : TileUpdateManagerBase)
    (hreach : Reachable cfg s) :
    s.m_feedbackReadbacks = [] →
      s.m_barrierUavToResolveSrc = [] ∧ s.m_barrierResolveSrcToUav = [] := by
  induction hreach with
  | fresh s hf =>
    intro _
    simp only [isFreshlyConstructed, Bool.and_eq_true, List.isEmpty_iff] at hf
    exact ⟨hf.1.1.2, hf.1.2⟩
  | beginFrame h d s s' _ hb ih =>
    rw [BeginFrame_eq_ok_iff] at hb
    obtain ⟨_, _, b, a, _, _, rfl⟩ := hb
    simpa [record, signalFrame_feedbackReadbacks, signalFrame_barrierUavToResolveSrc,
      signalFrame_barrierResolveSrcToUav] using ih
  | queueFeedback r g s _ _ =>
    intro hq
    simp [QueueFeedback, record] at hq
  | endFrame s s' out _ he ih =>
    intro _
    rw [EndFrame_eq] at he
    cases hw : s.m_withinFrame
    · simp [hw] at he
    · simp only [hw, if_true, Except.ok.injEq, Prod.mk.injEq] at he
      obtain ⟨_, rfl⟩ := he
      simp only [finishAfterDraw_barrierUavToResolveSrc, finishAfterDraw_barrierResolveSrcToUav,
        finishBeforeDraw_feedbackReadbacks, finishBeforeDraw_barrierUavToResolveSrc,
        finishBeforeDraw_barrierResolveSrcToUav, collect_feedbackReadbacks,
        collect_barrierUavToResolveSrc, collect_barrierResolveSrcToUav]
      by_cases hq : s.m_feedbackReadbacks = []
      · simp [hq, ih hq]
      · have : s.m_feedbackReadbacks.length ≠ 0 := by
          simpa [List.length_eq_zero] using hq
        simp [this]

/-- C5: `EndFrame` clears the within-frame state.  In every state reachable
from a freshly constructed manager by `BeginFrame`, `QueueFeedback` and
`EndFrame` calls, the two feedback barrier batches are empty whenever the
queued-feedback list is, and a successful `EndFrame` leaves the within-frame
flag false and the queued-feedback list, the UAV to RESOLVE_SOURCE batch, the
RESOLVE_SOURCE to UAV batch and the packed-mip batch all empty; it returns the
Before command list as `m_beforeDrawCommands` and the After command list as
`m_afterDrawCommands`, both closed. -/
theorem EndFrame_clears_frame_state (cfg : BuildConfig) (s s' : TileUpdateManagerBase)
    (out : CommandLists) (hreach : Reachable cfg s) (hend : EndFrame cfg s = .ok (out, s')) :
    (s.m_feedbackReadbacks = [] →
      s.m_barrierUavToResolveSrc = [] ∧ s.m_barrierResolveSrcToUav = []) ∧
    s'.m_withinFrame = false ∧
    s'.m_feedbackReadbacks = [] ∧
    s'.m_barrierUavToResolveSrc = [] ∧
    s'.m_barrierResolveSrcToUav = [] ∧
    s'.m_packedMipTransitionBarriers = [] ∧
    out.m_beforeDrawCommands = .Before ∧
    out.m_afterDrawCommands = .After ∧
    (s'.GetCommandList out.m_beforeDrawCommands).m_closed = true ∧
    (s'.GetCommandList out.m_afterDrawCommands).m_closed = true := by
  have hinv := Reachable.batches_empty cfg s hreach
  have hnext := Reachable.batches_empty cfg s' (Reachable.endFrame s s' out hreach hend)
  rw [EndFrame_eq] at hend
  cases hw : s.m_withinFrame
  · simp [hw] at hend
  · simp only [hw, if_true, Except.ok.injEq, Prod.mk.injEq] at hend
    obtain ⟨rfl, rfl⟩ := hend
    have hq : (finishAfterDraw cfg (finishBeforeDraw cfg
        (collectPackedMipTransitions s))).m_feedbackReadbacks = [] :=
      finishAfterDraw_feedbackReadbacks _ _
    refine ⟨hinv, rfl, hq, (hnext hq).1, (hnext hq).2, ?_, rfl, rfl, ?_, ?_⟩
    · show (finishAfterDraw cfg _).m_packedMipTransitionBarriers = []
      rw [finishAfterDraw_packedMipTransitionBarriers,
        finishBeforeDraw_packedMipTransitionBarriers]
    · show (finishAfterDraw cfg _).m_commandLists.Before.m_closed = true
      rw [finishAfterDraw_Before, finishBeforeDraw_Before_closed]
    · show (finishAfterDraw cfg _).m_commandLists.After.m_closed = true
      exact finishAfterDraw_After_closed _ _

theorem idleManagerQueued_reachable : Reachable plainBuild idleManagerQueued :=
  Reachable.queueFeedback sampleResourceB 11 _
    (Reachable.queueFeedback sampleResourceA 10 _
      (Reachable.beginFrame 0 0 idleManager idleManagerInFrame
        (Reachable.fresh idleManager rfl) idleManager_BeginFrame))

theorem idleManagerQueued_EndFrame :
    EndFrame plainBuild idleManagerQueued =
      .ok ({ m_beforeDrawCommands := .Before, m_afterDrawCommands := .After },
        idleManagerResolved) := by
  rfl

/-- Witness for C5: the frame on `idleManager` with two resources queued. -/
theorem EndFrame_clears_frame_state_witness :
    Reachable plainBuild idleManagerQueued ∧
    EndFrame plainBuild idleManagerQueued =
      .ok ({ m_beforeDrawCommands := .Before, m_afterDrawCommands := .After },
        idleManagerResolved) ∧
    idleManagerQueued.m_feedbackReadbacks ≠ [] ∧
    idleManagerResolved.m_withinFrame = false ∧
    idleManagerResolved.m_feedbackReadbacks = [] ∧
    idleManagerResolved.m_barrierUavToResolveSrc = [] ∧
    idleManagerResolved.m_barrierResolveSrcToUav = [] :=
  have hmain := EndFrame_clears_frame_state plainBuild idleManagerQueued idleManagerResolved
    { m_beforeDrawCommands := .Before, m_afterDrawCommands := .After }
    idleManagerQueued_reachable idleManagerQueued_EndFrame
  ⟨idleManagerQueued_reachable, idleManagerQueued_EndFrame, by decide,
    hmain.2.1, hmain.2.2.1, hmain.2.2.2.1, hmain.2.2.2.2.1⟩

/-! ## `BeginFrame`: fence, ring slot and allocators -/

/-- C6: for every successful `BeginFrame` with swap-chain depth `D > 0`, the
frame fence value afterwards is the value before plus one and the call appends
to the call log, last, one `Signal` with the value before the increment; the
render frame index afterwards is `(index before + 1) mod D`, hence below `D`;
and in each of the two command lists exactly the allocator at the new index is
reset (its reset count goes up by one, every other allocator is as before) and
the list is reset onto it. -/
theorem BeginFrame_advances_frame (h d : Nat) (s s' : TileUpdateManagerBase)
    (hD : 0 < s.m_numSwapBuffers) (hb : BeginFrame h d s = .ok s') :
    s'.m_frameFenceValue = s.m_frameFenceValue + 1 ∧
    s'.m_events =
      s.m_events ++ (if s.m_threadsRunning then [] else [Event.StartThreads]) ++
        [Event.ProcessFeedbackFlagSet] ++
        (if s.m_numStreamingResourcesChanged then [Event.AllocateResidencyMap d] else []) ++
        [Event.Signal s.m_frameFenceValue] ∧
    s'.m_numSwapBuffers = s.m_numSwapBuffers ∧
    s'.m_renderFrameIndex = (s.m_renderFrameIndex + 1) % s.m_numSwapBuffers ∧
    s'.m_renderFrameIndex < s.m_numSwapBuffers ∧
    (∀ name : CommandListName, ∃ resets,
      (s.GetCommandList name).m_allocators.get? s'.m_renderFrameIndex = some resets ∧
      (s'.GetCommandList name).m_allocators =
        (s.GetCommandList name).m_allocators.set s'.m_renderFrameIndex (resets + 1) ∧
      (s'.GetCommandList name).m_boundAllocator = some s'.m_renderFrameIndex) := by
  rw [BeginFrame_eq_ok_iff] at hb
  obtain ⟨_, _, b, a, hbefore, hafter, rfl⟩ := hb
  obtain ⟨rb, hgb, _, rfl⟩ := resetForFrame_ok _ _ _ hbefore
  obtain ⟨ra, hga, _, rfl⟩ := resetForFrame_ok _ _ _ hafter
  refine ⟨?_, ?_, ?_, ?_, ?_, ?_⟩
  · simp [record, signalFrame_frameFenceValue]
  · simp [record, signalFrame_events]
  · simp [record, signalFrame_numSwapBuffers]
  · simp [record]
  · simpa [record] using Nat.mod_lt _ hD
  · intro name
    cases name
    · exact ⟨rb, by simpa [record, GetCommandList] using hgb, by simp [record, GetCommandList],
        by simp [record, GetCommandList]⟩
    · exact ⟨ra, by simpa [record, GetCommandList] using hga, by simp [record, GetCommandList],
        by simp [record, GetCommandList]⟩

/-- Witness for C6: the first `BeginFrame` on `idleManager` (depth 2). -/
theorem BeginFrame_advances_frame_witness :
    0 < idleManager.m_numSwapBuffers ∧
    BeginFrame 0 0 idleManager = .ok idleManagerInFrame ∧
    idleManagerInFrame.m_frameFenceValue = 1 ∧
    idleManagerInFrame.m_renderFrameIndex = 1 ∧
    idleManagerInFrame.m_events = [.StartThreads, .ProcessFeedbackFlagSet, .Signal 0] ∧
    idleManagerInFrame.m_commandLists.Before.m_allocators = [0, 1] ∧
    idleManagerInFrame.m_commandLists.After.m_allocators = [0, 1] :=
  have hmain := BeginFrame_advances_frame 0 0 idleManager idleManagerInFrame (by decide)
    idleManager_BeginFrame
  ⟨by decide, idleManager_BeginFrame, hmain.1, hmain.2.2.2.1, hmain.2.1, by decide, by decide⟩

/-! ## Mutating the resource set -/

theorem Finish_eq (s : TileUpdateManagerBase) :
    Finish s =
      if s.m_withinFrame then .error .assertion
      else .ok (log .StopThreads { s with m_threadsRunning := false }) := by
  unfold Finish
  cases hw : s.m_withinFrame <;>
    simp [ASSERT, GetWithinFrame, hw, bind, Except.bind, pure, Except.pure]

theorem forEachResource_SetFileHandle (up : DataUploader) (rs : List StreamingResourceBase) :
    ∀ events : List Event,
      forEachResource (SetFileHandle up) rs events =
        (rs.map (fun r => { r with m_pFileHandle :=
            { m_streamer := up.m_pFileStreamer.m_ptr, m_filename := r.m_filename } }),
          events ++ rs.map (fun r => .SetFileHandle r.m_ptr up.m_pFileStreamer.m_ptr)) := by
  induction rs with
  | nil => intro events; simp [forEachResource]
  | cons r rest ih =>
    intro events
    simp [forEachResource, ih, SetFileHandle, List.append_assoc]

theorem forEachResource_ClearAllocations (rs : List StreamingResourceBase) :
    ∀ events : List Event,
      forEachResource ClearAllocations rs events =
        (rs.map (fun r => { r with m_numClearAllocations := r.m_numClearAllocations + 1 }),
          events ++ rs.map (fun r => .ClearAllocations r.m_ptr)) := by
  induction rs with
  | nil => intro events; simp [forEachResource]
  | cons r rest ih =>
    intro events
    simp [forEachResource, ih, ClearAllocations, List.append_assoc]

theorem CreateStreamingResource_eq (name : String) (heap : Nat) (s : TileUpdateManagerBase) :
    CreateStreamingResource name heap s =
      if s.m_withinFrame then .error .assertion
      else if s.m_missingFiles.contains name then .error .fileNotFound
      else
        .ok ({ m_ptr := s.m_nextPtr, m_filename := name,
               m_pFileHandle :=
                 { m_streamer := s.m_dataUploader.m_pFileStreamer.m_ptr, m_filename := name },
               m_pHeap := heap },
          { s with
              m_threadsRunning := false
              m_streamingResources := s.m_streamingResources ++
                [{ m_ptr := s.m_nextPtr, m_filename := name,
                   m_pFileHandle :=
                     { m_streamer := s.m_dataUploader.m_pFileStreamer.m_ptr, m_filename := name },
                   m_pHeap := heap }]
              m_numStreamingResourcesChanged := true
              m_havePackedMipsToLoad := true
              m_nextPtr := s.m_nextPtr + 1
              m_events := s.m_events ++
                [.StopThreads, .OpenFile name s.m_dataUploader.m_pFileStreamer.m_ptr,
                  .NewStreamingResource s.m_nextPtr] }) := by
  unfold CreateStreamingResource
  rw [Finish_eq]
  cases hw : s.m_withinFrame
  · by_cases hm : name ∈ s.m_missingFiles
    · simp [bind, Except.bind, OpenFile, log, hm]
    · simp [bind, Except.bind, pure, Except.pure, OpenFile, newStreamingResource, log, hm]
  · simp [bind, Except.bind]

theorem UseDirectStorage_eq (b : Bool) (s : TileUpdateManagerBase) :
    UseDirectStorage b s =
      if s.m_withinFrame then .error .assertion
      else
        .ok { s with
              m_threadsRunning := false
              m_dataUploader :=
                { s.m_dataUploader with
                    m_pFileStreamer :=
                      { m_ptr := s.m_nextPtr,
                        m_type := if b then .DirectStorage else .Reference } }
              m_nextPtr := s.m_nextPtr + 1
              m_streamingResources := s.m_streamingResources.map
                (fun r => { r with m_pFileHandle :=
                    { m_streamer := s.m_nextPtr, m_filename := r.m_filename } })
              m_events := s.m_events ++
                [.StopThreads,
                  .SetStreamer (if b then .DirectStorage else .Reference) s.m_nextPtr] ++
                s.m_streamingResources.map (fun r => .SetFileHandle r.m_ptr s.m_nextPtr) ++
                [.DeleteStreamer s.m_dataUploader.m_pFileStreamer.m_ptr] } := by
  unfold UseDirectStorage
  rw [Finish_eq]
  cases hw : s.m_withinFrame
  · simp [bind, Except.bind, pure, Except.pure, SetStreamer, log,
      forEachResource_SetFileHandle, List.append_assoc]
  · simp [bind, Except.bind]

theorem SetVisualizationMode_eq (m : Nat) (s : TileUpdateManagerBase) :
    SetVisualizationMode m s =
      if s.m_withinFrame then .error .assertion
      else
        .ok { s with
              m_threadsRunning := false
              m_streamingResources := s.m_streamingResources.map
                (fun r => { r with m_numClearAllocations := r.m_numClearAllocations + 1 })
              m_dataUploader := { s.m_dataUploader with m_visualizationMode := m }
              m_events := s.m_events ++ [.StopThreads] ++
                s.m_streamingResources.map (fun r => .ClearAllocations r.m_ptr) ++
                [.SetVisualizationMode m] } := by
  unfold SetVisualizationMode
  rw [Finish_eq]
  cases hw : s.m_withinFrame
  · simp [ASSERT, GetWithinFrame, hw, bind, Except.bind, pure, Except.pure, log,
      forEachResource_ClearAllocations, List.append_assoc]
  · simp [ASSERT, GetWithinFrame, hw, bind, Except.bind]

/-- C7 (amended): for every manager state that is not within a frame, every
file name whose path resolves and every heap, `CreateStreamingResource`
succeeds; the threads are stopped first (the call log grows by `StopThreads`,
then the `OpenFile` for that name on the active streamer, then the construction
of the resource), exactly one new resource, bound to that file handle and to
the given heap, is appended at the end of the managed set, the earlier
resources and their order are as before, the resource set is marked changed,
packed mips are marked pending, and the appended resource is returned. -/
theorem CreateStreamingResource_appends (name : String) (heap : Nat)
    (s : TileUpdateManagerBase) (hw : s.m_withinFrame = false)
    (hf : name ∉ s.m_missingFiles) :
    CreateStreamingResource name heap s =
      .ok ({ m_ptr := s.m_nextPtr, m_filename := name,
             m_pFileHandle :=
               { m_streamer := s.m_dataUploader.m_pFileStreamer.m_ptr, m_filename := name },
             m_pHeap := heap },
        { s with
            m_threadsRunning := false
            m_streamingResources := s.m_streamingResources ++
              [{ m_ptr := s.m_nextPtr, m_filename := name,
                 m_pFileHandle :=
                   { m_streamer := s.m_dataUploader.m_pFileStreamer.m_ptr, m_filename := name },
                 m_pHeap := heap }]
            m_numStreamingResourcesChanged := true
            m_havePackedMipsToLoad := true
            m_nextPtr := s.m_nextPtr + 1
            m_events := s.m_events ++
              [.StopThreads, .OpenFile name s.m_dataUploader.m_pFileStreamer.m_ptr,
                .NewStreamingResource s.m_nextPtr] }) := by
  have hc : s.m_missingFiles.contains name = false := by simpa using hf
  rw [CreateStreamingResource_eq, hw, hc]
  rfl

/-- Witness for C7 (amended): a third resource created on `managerWithResources`. -/
theorem CreateStreamingResource_appends_witness :
    managerWithResources.m_withinFrame = false ∧
    "c.xet" ∉ managerWithResources.m_missingFiles ∧
    Except.map (fun r => (r.1.m_ptr, r.2.m_streamingResources.map (fun x => x.m_ptr),
        r.2.m_events))
      (CreateStreamingResource "c.xet" 7 managerWithResources) =
      .ok (22, [20, 21, 22], [.StopThreads, .OpenFile "c.xet" 0, .NewStreamingResource 22]) :=
  ⟨rfl, List.not_mem_nil _,
    congrArg (Except.map (fun r => (r.1.m_ptr, r.2.m_streamingResources.map (fun x => x.m_ptr),
        r.2.m_events)))
      (CreateStreamingResource_appends "c.xet" 7 managerWithResources rfl (List.not_mem_nil _))⟩

/-- Counterexample to C7 as stated: within a frame `CreateStreamingResource`
stops at the frame assertion of `Finish`, and outside a frame it stops at
`OpenFile` when the path does not resolve; in both states no resource is
appended and none is returned. -/
theorem CreateStreamingResource_fails :
    managerWithResourcesInFrame.m_withinFrame = true ∧
    CreateStreamingResource "c.xet" 7 managerWithResourcesInFrame = .error .assertion ∧
    (¬ ∃ r s', CreateStreamingResource "c.xet" 7 managerWithResourcesInFrame = .ok (r, s')) ∧
    managerWithMissingFile.m_withinFrame = false ∧
    "c.xet" ∈ managerWithMissingFile.m_missingFiles ∧
    CreateStreamingResource "c.xet" 7 managerWithMissingFile = .error .fileNotFound ∧
    ¬ ∃ r s', CreateStreamingResource "c.xet" 7 managerWithMissingFile = .ok (r, s') := by
  have hw : managerWithResourcesInFrame.m_withinFrame = true := by decide
  have he : CreateStreamingResource "c.xet" 7 managerWithResourcesInFrame = .error .assertion := by
    rw [CreateStreamingResource_eq, hw]; rfl
  have hm : CreateStreamingResource "c.xet" 7 managerWithMissingFile = .error .fileNotFound := by
    rw [CreateStreamingResource_eq]; rfl
  refine ⟨hw, he, ?_, rfl, List.mem_singleton.2 rfl, hm, ?_⟩
  · rintro ⟨r, s', hok⟩
    rw [he] at hok
    cases hok
  · rintro ⟨r, s', hok⟩
    rw [hm] at hok
    cases hok

theorem countP_isSetStreamer_map_SetFileHandle (p : Nat) (rs : List StreamingResourceBase) :
    (rs.map (fun r => Event.SetFileHandle r.m_ptr p)).countP Event.isSetStreamer = 0 := by
  induction rs with
  | nil => rfl
  | cons r rest ih => simp [List.countP_cons, Event.isSetStreamer]

theorem UseDirectStorage_ok (b : Bool) (s : TileUpdateManagerBase)
    (hw : s.m_withinFrame = false) :
    UseDirectStorage b s =
      .ok { s with
            m_threadsRunning := false
            m_dataUploader :=
              { s.m_dataUploader with
                  m_pFileStreamer :=
                    { m_ptr := s.m_nextPtr,
                      m_type := if b then .DirectStorage else .Reference } }
            m_nextPtr := s.m_nextPtr + 1
            m_streamingResources := s.m_streamingResources.map
              (fun r => { r with m_pFileHandle :=
                  { m_streamer := s.m_nextPtr, m_filename := r.m_filename } })
            m_events := s.m_events ++
              [.StopThreads,
                .SetStreamer (if b then .DirectStorage else .Reference) s.m_nextPtr] ++
              s.m_streamingResources.map (fun r => .SetFileHandle r.m_ptr s.m_nextPtr) ++
              [.DeleteStreamer s.m_dataUploader.m_pFileStreamer.m_ptr] } := by
  rw [UseDirectStorage_eq]
  simp only [hw, Bool.false_eq_true, if_false]

/-- C8 (amended): for every manager state that is not within a frame and every
boolean `b`, `UseDirectStorage(b)` succeeds.  After `StopThreads` the call log
grows by exactly one `SetStreamer`, for the DirectStorage streamer when `b` is
true and the Reference streamer otherwise, whatever the previous streamer was;
then by one `SetFileHandle` onto the new streamer for every managed resource,
in order; and only then by the `DeleteStreamer` of the old streamer.  The
managed set keeps the same resources in the same order, each now holding a file
handle of the new streamer.  Consequently `UseDirectStorage(true)` followed by
`UseDirectStorage(false)` succeeds, performs exactly two `SetStreamer` calls,
rebinds every resource after each of them, and ends on the Reference streamer
allocated second. -/
theorem UseDirectStorage_swaps_and_rebinds (b : Bool) (s : TileUpdateManagerBase)
    (hw : s.m_withinFrame = false) :
    UseDirectStorage b s =
      .ok { s with
            m_threadsRunning := false
            m_dataUploader :=
              { s.m_dataUploader with
                  m_pFileStreamer :=
                    { m_ptr := s.m_nextPtr,
                      m_type := if b then .DirectStorage else .Reference } }
            m_nextPtr := s.m_nextPtr + 1
            m_streamingResources := s.m_streamingResources.map
              (fun r => { r with m_pFileHandle :=
                  { m_streamer := s.m_nextPtr, m_filename := r.m_filename } })
            m_events := s.m_events ++
              [.StopThreads,
                .SetStreamer (if b then .DirectStorage else .Reference) s.m_nextPtr] ++
              s.m_streamingResources.map (fun r => .SetFileHandle r.m_ptr s.m_nextPtr) ++
              [.DeleteStreamer s.m_dataUploader.m_pFileStreamer.m_ptr] } ∧
    ∃ s1 s2,
      UseDirectStorage true s = .ok s1 ∧ UseDirectStorage false s1 = .ok s2 ∧
      s1.m_streamingResources = s.m_streamingResources.map
        (fun r => { r with m_pFileHandle :=
            { m_streamer := s.m_nextPtr, m_filename := r.m_filename } }) ∧
      s2.m_streamingResources = s.m_streamingResources.map
        (fun r => { r with m_pFileHandle :=
            { m_streamer := s.m_nextPtr + 1, m_filename := r.m_filename } }) ∧
      s2.m_dataUploader.m_pFileStreamer =
        { m_ptr := s.m_nextPtr + 1, m_type := .Reference } ∧
      s2.m_events = s.m_events ++
        ([.StopThreads, .SetStreamer .DirectStorage s.m_nextPtr] ++
          s.m_streamingResources.map (fun r => .SetFileHandle r.m_ptr s.m_nextPtr) ++
          [.DeleteStreamer s.m_dataUploader.m_pFileStreamer.m_ptr] ++
          [.StopThreads, .SetStreamer .Reference (s.m_nextPtr + 1)] ++
          s.m_streamingResources.map (fun r => .SetFileHandle r.m_ptr (s.m_nextPtr + 1)) ++
          [.DeleteStreamer s.m_nextPtr]) ∧
      (s2.m_events.drop s.m_events.length).countP Event.isSetStreamer = 2 := by
  refine ⟨UseDirectStorage_ok b s hw, _, _, UseDirectStorage_ok true s hw,
    UseDirectStorage_ok false _ hw, rfl, ?_, rfl, ?_, ?_⟩
  · simp [Function.comp_def]
  · simp [Function.comp_def, List.append_assoc]
  · simp [Function.comp_def, List.append_assoc, List.countP_append, List.countP_cons,
      Event.isSetStreamer, countP_isSetStreamer_map_SetFileHandle]

/-- Witness for C8 (amended): `UseDirectStorage(true)` on `managerWithResources`,
whose streamer is the Reference streamer at address 0. -/
theorem UseDirectStorage_swaps_and_rebinds_witness :
    managerWithResources.m_withinFrame = false ∧
    Except.map (fun s => (s.m_dataUploader.m_pFileStreamer, s.m_events,
        s.m_streamingResources.map (fun r => (r.m_ptr, r.m_pFileHandle.m_streamer))))
      (UseDirectStorage true managerWithResources) =
      .ok ({ m_ptr := 22, m_type := .DirectStorage },
        [.StopThreads, .SetStreamer .DirectStorage 22, .SetFileHandle 20 22,
          .SetFileHandle 21 22, .DeleteStreamer 0],
        [(20, 22), (21, 22)]) :=
  ⟨rfl, congrArg (Except.map (fun s => (s.m_dataUploader.m_pFileStreamer, s.m_events,
        s.m_streamingResources.map (fun r => (r.m_ptr, r.m_pFileHandle.m_streamer)))))
      (UseDirectStorage_swaps_and_rebinds true managerWithResources rfl).1⟩

/-- Counterexample to C8 as stated: within a frame `UseDirectStorage` stops at
the frame assertion of `Finish`; the streamer is not replaced. -/
theorem UseDirectStorage_within_frame_fails :
    managerWithResourcesInFrame.m_withinFrame = true ∧
    UseDirectStorage true managerWithResourcesInFrame = .error .assertion ∧
    ¬ ∃ s', UseDirectStorage true managerWithResourcesInFrame = .ok s' := by
  have hw : managerWithResourcesInFrame.m_withinFrame = true := by decide
  have he : UseDirectStorage true managerWithResourcesInFrame = .error .assertion := by
    rw [UseDirectStorage_eq, hw]; rfl
  refine ⟨hw, he, ?_⟩
  rintro ⟨s', hok⟩
  rw [he] at hok
  cases hok

/-- C9: mutating resources mid-frame is a fatal assertion.  In every manager
state that is within a frame, `CreateStreamingResource` and `UseDirectStorage`
end in a failed assertion; neither produces a successor state, so the managed
resource set and the active streamer stay those of the state before the call. -/
theorem mutation_within_frame_asserts (name : String) (heap : Nat) (b : Bool)
    (s : TileUpdateManagerBase) (hw : s.m_withinFrame = true) :
    CreateStreamingResource name heap s = .error .assertion ∧
    UseDirectStorage b s = .error .assertion ∧
    (∀ r s', CreateStreamingResource name heap s ≠ .ok (r, s')) ∧
    (∀ s', UseDirectStorage b s ≠ .ok s') := by
  have hc : CreateStreamingResource name heap s = .error .assertion := by
    rw [CreateStreamingResource_eq, hw]; rfl
  have hu : UseDirectStorage b s = .error .assertion := by
    rw [UseDirectStorage_eq, hw]; rfl
  refine ⟨hc, hu, ?_, ?_⟩
  · intro r s' hok
    rw [hc] at hok
    cases hok
  · intro s' hok
    rw [hu] at hok
    cases hok

/-- Witness for C9: `managerWithResources` after `BeginFrame`. -/
theorem mutation_within_frame_asserts_witness :
    BeginFrame 0 0 managerWithResources = .ok managerWithResourcesInFrame ∧
    managerWithResourcesInFrame.m_withinFrame = true ∧
    CreateStreamingResource "c.xet" 7 managerWithResourcesInFrame = .error .assertion ∧
    UseDirectStorage false managerWithResourcesInFrame = .error .assertion :=
  have hmain := mutation_within_frame_asserts "c.xet" 7 false managerWithResourcesInFrame
    (by decide)
  ⟨rfl, by decide, hmain.1, hmain.2.1⟩

/-- C10: for every manager state and every mode `m`, `SetVisualizationMode(m)`
ends in a failed assertion when the manager is within a frame, producing no
state, so no resource is touched; otherwise it succeeds, the call log grows by
`StopThreads`, then one `ClearAllocations` for every managed resource in order,
and last the uploader's `SetVisualizationMode(m)`; every resource has received
exactly one more `ClearAllocations`, the uploader's mode is `m`, and the state
is still outside any frame. -/
theorem SetVisualizationMode_contract (m : Nat) (s : TileUpdateManagerBase) :
    SetVisualizationMode m s =
      if s.m_withinFrame then .error .assertion
      else
        .ok { s with
              m_withinFrame := false
              m_threadsRunning := false
              m_streamingResources := s.m_streamingResources.map
                (fun r => { r with m_numClearAllocations := r.m_numClearAllocations + 1 })
              m_dataUploader := { s.m_dataUploader with m_visualizationMode := m }
              m_events := s.m_events ++ [.StopThreads] ++
                s.m_streamingResources.map (fun r => .ClearAllocations r.m_ptr) ++
                [.SetVisualizationMode m] } := by
  rw [SetVisualizationMode_eq]
  cases hw : s.m_withinFrame
  · rfl
  · rfl

/-- Witness for C10: mode 3 set on `managerWithResources`, outside and within a
frame. -/
theorem SetVisualizationMode_contract_witness :
    Except.map (fun s => (s.m_dataUploader.m_visualizationMode, s.m_events,
        s.m_streamingResources.map (fun r => (r.m_ptr, r.m_numClearAllocations))))
      (SetVisualizationMode 3 managerWithResources) =
      .ok (3, [.StopThreads, .ClearAllocations 20, .ClearAllocations 21, .SetVisualizationMode 3],
        [(20, 1), (21, 1)]) ∧
    SetVisualizationMode 3 managerWithResourcesInFrame = .error .assertion :=
  ⟨congrArg (Except.map (fun s => (s.m_dataUploader.m_visualizationMode, s.m_events,
        s.m_streamingResources.map (fun r => (r.m_ptr, r.m_numClearAllocations)))))
      (SetVisualizationMode_contract 3 managerWithResources),
    SetVisualizationMode_contract 3 managerWithResourcesInFrame⟩

/-! ## Mutation of the managed set and the background threads -/

theorem chain_of_threads_stopped (l : List TileUpdateManagerBase)
    (hl : ∀ t ∈ l, t.m_threadsRunning = false) :
    List.Chain' (fun a b => mutationExcludesThreads a b = true) l := by
  induction l with
  | nil => exact List.chain'_nil
  | cons a rest ih =>
    cases rest with
    | nil => exact List.chain'_singleton a
    | cons b rest' =>
      refine List.chain'_cons.2 ⟨?_, ih (fun t ht => hl t (List.mem_cons_of_mem _ ht))⟩
      simp [mutationExcludesThreads, hl a (List.mem_cons_self _ _),
        hl b (List.mem_cons_of_mem _ (List.mem_cons_self _ _))]

theorem chain_of_entry_then_stopped (a : TileUpdateManagerBase) (l : List TileUpdateManagerBase)
    (hhead : ∀ b ∈ l.head?, b.m_streamingResources = a.m_streamingResources)
    (hl : ∀ t ∈ l, t.m_threadsRunning = false) :
    List.Chain' (fun a b => mutationExcludesThreads a b = true) (a :: l) := by
  cases l with
  | nil => exact List.chain'_singleton a
  | cons b rest =>
    refine List.chain'_cons.2 ⟨?_, chain_of_threads_stopped _ hl⟩
    have := hhead b (by simp)
    simp [mutationExcludesThreads, this]

theorem forEachResourceStates_getLast
    (body : StreamingResourceBase → List Event → StreamingResourceBase × List Event)
    (rs : List StreamingResourceBase) :
    ∀ (done : List StreamingResourceBase) (events : List Event),
      (forEachResourceStates body done rs events).getLast? =
        if rs = [] then none
        else some (done ++ (forEachResource body rs events).1,
          (forEachResource body rs events).2) := by
  induction rs with
  | nil => intro done events; simp [forEachResourceStates]
  | cons r rest ih =>
    intro done events
    simp only [forEachResourceStates, forEachResource, List.getLast?_cons, ih]
    cases rest with
    | nil => simp [forEachResource]
    | cons r2 rest2 => simp [List.append_assoc]

theorem statesOfCreateStreamingResource_spec (name : String) (heap : Nat)
    (s : TileUpdateManagerBase) :
    ∃ tail, statesOfCreateStreamingResource name heap s = s :: tail ∧
      (∀ b ∈ tail.head?, b.m_streamingResources = s.m_streamingResources) ∧
      (∀ t ∈ tail, t.m_threadsRunning = false) ∧
      (∀ r s', CreateStreamingResource name heap s = .ok (r, s') →
        (s :: tail).getLast? = some s') := by
  unfold statesOfCreateStreamingResource
  rw [CreateStreamingResource_eq, Finish_eq]
  by_cases hw : s.m_withinFrame = true
  · simp only [if_pos hw]
    exact ⟨[], rfl, by simp, by simp, by simp⟩
  · simp only [if_neg hw]
    by_cases hm : name ∈ s.m_missingFiles
    · have hopen : OpenFile name (log .StopThreads { s with m_threadsRunning := false }) =
          .error .fileNotFound := by
        simp [OpenFile, log, hm]
      have hc : s.m_missingFiles.contains name = true := by simpa using hm
      simp only [hopen, hc, if_true]
      refine ⟨_, rfl, ?_, ?_, ?_⟩
      · simp [log]
      · simp [log]
      · intro r s' h
        exact Except.noConfusion h
    · have hopen : OpenFile name (log .StopThreads { s with m_threadsRunning := false }) =
          .ok ({ m_streamer := s.m_dataUploader.m_pFileStreamer.m_ptr, m_filename := name },
            log (.OpenFile name s.m_dataUploader.m_pFileStreamer.m_ptr)
              (log .StopThreads { s with m_threadsRunning := false })) := by
        simp [OpenFile, log, hm]
      have hc : s.m_missingFiles.contains name = false := by simpa using hm
      simp only [hopen, hc, Bool.false_eq_true, if_false]
      refine ⟨_, rfl, ?_, ?_, ?_⟩
      · simp [log]
      · simp [log, newStreamingResource]
      · intro r s' h
        simp only [Except.ok.injEq, Prod.mk.injEq] at h
        obtain ⟨_, rfl⟩ := h
        simp [log, newStreamingResource]

theorem forEachResourceStates_threads
    (body : StreamingResourceBase → List Event → StreamingResourceBase × List Event)
    (base : TileUpdateManagerBase) (hb : base.m_threadsRunning = false)
    (done rs : List StreamingResourceBase) (events : List Event) :
    ∀ t ∈ (forEachResourceStates body done rs events).map
        (fun p => { base with m_streamingResources := p.1, m_events := p.2 }),
      t.m_threadsRunning = false := by
  intro t ht
  simp only [List.mem_map] at ht
  obtain ⟨p, _, rfl⟩ := ht
  exact hb

theorem getLast?_cons_loop_exit {α : Type} (a : α) (pre loop : List α) (x : α) :
    (a :: (pre ++ (loop ++ [x]))).getLast? = some x := by
  rw [← List.cons_append, ← List.append_assoc, List.getLast?_append]
  simp

theorem statesOfUseDirectStorage_spec (b : Bool) (s : TileUpdateManagerBase) :
    ∃ tail, statesOfUseDirectStorage b s = s :: tail ∧
      (∀ x ∈ tail.head?, x.m_streamingResources = s.m_streamingResources) ∧
      (∀ t ∈ tail, t.m_threadsRunning = false) ∧
      (∀ s', UseDirectStorage b s = .ok s' → (s :: tail).getLast? = some s') := by
  unfold statesOfUseDirectStorage UseDirectStorage
  rw [Finish_eq]
  cases hw : s.m_withinFrame
  · refine ⟨_, rfl, ?_, ?_, ?_⟩
    · intro x hx
      simp only [List.head?_cons, Option.mem_def, Option.some.injEq] at hx
      subst hx
      rfl
    · intro t ht
      simp only [List.mem_cons, List.mem_append, List.mem_singleton, List.not_mem_nil,
        or_false] at ht
      rcases ht with rfl | rfl | ht | ht
      · rfl
      · rfl
      · exact forEachResourceStates_threads _ _ rfl _ _ _ t ht
      · rw [ht]; rfl
    · intro s' h
      simp only [Bool.false_eq_true, if_false, bind, Except.bind, pure, Except.pure,
        Except.ok.injEq] at h
      subst h
      exact getLast?_cons_loop_exit _ [_, _] _ _
  · exact ⟨[], rfl, by simp, by simp, by simp [bind, Except.bind]⟩

theorem statesOfSetVisualizationMode_spec (m : Nat) (s : TileUpdateManagerBase) :
    ∃ tail, statesOfSetVisualizationMode m s = s :: tail ∧
      (∀ x ∈ tail.head?, x.m_streamingResources = s.m_streamingResources) ∧
      (∀ t ∈ tail, t.m_threadsRunning = false) ∧
      (∀ s', SetVisualizationMode m s = .ok s' → (s :: tail).getLast? = some s') := by
  unfold statesOfSetVisualizationMode SetVisualizationMode
  rw [Finish_eq]
  cases hw : s.m_withinFrame
  · simp only [ASSERT, GetWithinFrame, hw, Bool.not_false, if_true, Bool.false_eq_true, if_false]
    refine ⟨_, rfl, ?_, ?_, ?_⟩
    · intro x hx
      simp only [List.head?_cons, Option.mem_def, Option.some.injEq] at hx
      subst hx
      rfl
    · intro t ht
      simp only [List.mem_cons, List.mem_append, List.mem_singleton, List.not_mem_nil,
        or_false] at ht
      rcases ht with rfl | ht | ht
      · rfl
      · exact forEachResourceStates_threads _ _ rfl _ _ _ t ht
      · rw [ht]; rfl
    · intro s' h
      simp only [bind, Except.bind, pure, Except.pure, Except.ok.injEq] at h
      subst h
      exact getLast?_cons_loop_exit _ [_] _ _
  · exact ⟨[], by simp [ASSERT, GetWithinFrame, hw], by simp, by simp,
      by simp [ASSERT, GetWithinFrame, hw, bind, Except.bind]⟩

theorem BeginFrame_streamingResources (h d : Nat) (s s' : TileUpdateManagerBase)
    (hb : BeginFrame h d s = .ok s') : s'.m_streamingResources = s.m_streamingResources := by
  rw [BeginFrame_eq_ok_iff] at hb
  obtain ⟨_, _, b, a, _, _, rfl⟩ := hb
  simp [record, signalFrame_streamingResources]

theorem QueueFeedback_streamingResources (cfg : BuildConfig) (r : StreamingResourceBase)
    (g : Nat) (s : TileUpdateManagerBase) :
    (QueueFeedback cfg r g s).m_streamingResources = s.m_streamingResources := by
  simp [QueueFeedback, record]

theorem collect_streamingResources (s : TileUpdateManagerBase) :
    (collectPackedMipTransitions s).m_streamingResources = s.m_streamingResources := by
  unfold collectPackedMipTransitions; split <;> rfl

theorem finishBeforeDraw_streamingResources (cfg : BuildConfig) (s : TileUpdateManagerBase) :
    (finishBeforeDraw cfg s).m_streamingResources = s.m_streamingResources := by
  simp only [finishBeforeDraw, copyResidencyMaps, recordPackedMipTransitions,
    recordAliasingBarriers, record, close]
  split_ifs <;> rfl

theorem finishAfterDraw_streamingResources (cfg : BuildConfig) (s : TileUpdateManagerBase) :
    (finishAfterDraw cfg s).m_streamingResources = s.m_streamingResources := by
  unfold finishAfterDraw
  split
  · rw [resolveQueuedFeedback_eq]; rfl
  · rfl

theorem EndFrame_streamingResources (cfg : BuildConfig) (s s' : TileUpdateManagerBase)
    (out : CommandLists) (he : EndFrame cfg s = .ok (out, s')) :
    s'.m_streamingResources = s.m_streamingResources := by
  rw [EndFrame_eq] at he
  cases hw : s.m_withinFrame
  · simp [hw] at he
  · simp only [hw, if_true, Except.ok.injEq, Prod.mk.injEq] at he
    obtain ⟨_, rfl⟩ := he
    show (finishAfterDraw cfg _).m_streamingResources = _
    rw [finishAfterDraw_streamingResources, finishBeforeDraw_streamingResources,
      collect_streamingResources]

theorem statesOfCall_spec (cfg : BuildConfig) (c : PublicCall) (s : TileUpdateManagerBase) :
    List.Chain' (fun a b => mutationExcludesThreads a b = true) (statesOfCall cfg c s) ∧
    (statesOfCall cfg c s).head? = some s ∧
    (∀ s', resultOfCall cfg c s = .ok s' → (statesOfCall cfg c s).getLast? = some s') := by
  cases c with
  | CreateStreamingResource name heap =>
    obtain ⟨tail, heq, hhead, hstop, hlast⟩ := statesOfCreateStreamingResource_spec name heap s
    simp only [statesOfCall, heq, resultOfCall]
    refine ⟨chain_of_entry_then_stopped s tail hhead hstop, rfl, ?_⟩
    intro s' hr
    cases hc : CreateStreamingResource name heap s with
    | error e => simp [hc, Except.map] at hr
    | ok r =>
      simp only [hc, Except.map, Except.ok.injEq] at hr
      subst hr
      exact hlast r.1 r.2 hc
  | UseDirectStorage b =>
    obtain ⟨tail, heq, hhead, hstop, hlast⟩ := statesOfUseDirectStorage_spec b s
    simp only [statesOfCall, heq, resultOfCall]
    exact ⟨chain_of_entry_then_stopped s tail hhead hstop, rfl, hlast⟩
  | SetVisualizationMode m =>
    obtain ⟨tail, heq, hhead, hstop, hlast⟩ := statesOfSetVisualizationMode_spec m s
    simp only [statesOfCall, heq, resultOfCall]
    exact ⟨chain_of_entry_then_stopped s tail hhead hstop, rfl, hlast⟩
  | BeginFrame h d =>
    simp only [statesOfCall, resultOfCall]
    cases hb : BeginFrame h d s with
    | error e => simp
    | ok s1 =>
      have := BeginFrame_streamingResources h d s s1 hb
      simp [mutationExcludesThreads, this]
  | QueueFeedback r g =>
    simp [statesOfCall, resultOfCall, mutationExcludesThreads, QueueFeedback_streamingResources]
  | EndFrame =>
    simp only [statesOfCall, resultOfCall]
    cases he : EndFrame cfg s with
    | error e => simp [Except.map]
    | ok r =>
      have := EndFrame_streamingResources cfg s r.2 r.1 he
      simp [Except.map, mutationExcludesThreads, this]

theorem trajectory_spec (cfg : BuildConfig) (calls : List PublicCall) :
    ∀ s : TileUpdateManagerBase,
      List.Chain' (fun a b => mutationExcludesThreads a b = true) (trajectory cfg calls s) ∧
      (trajectory cfg calls s).head? = some s ∧
      (∀ s', runCalls cfg calls s = .ok s' → (trajectory cfg calls s).getLast? = some s') := by
  induction calls with
  | nil =>
    intro s
    simp [trajectory, runCalls]
  | cons c rest ih =>
    intro s
    obtain ⟨hchain, hhead, hlast⟩ := statesOfCall_spec cfg c s
    have hne : statesOfCall cfg c s ≠ [] := by
      intro h; rw [h] at hhead; simp at hhead
    simp only [trajectory, runCalls]
    cases hr : resultOfCall cfg c s with
    | error e => exact ⟨hchain, hhead, by simp⟩
    | ok s1 =>
      obtain ⟨ihchain, ihhead, ihlast⟩ := ih s1
      have htne : trajectory cfg rest s1 ≠ [] := by
        intro h; rw [h] at ihhead; simp at ihhead
      refine ⟨?_, ?_, ?_⟩
      · refine List.Chain'.append hchain ihchain ?_
        intro x hx y hy
        rw [hlast s1 hr] at hx
        rw [ihhead] at hy
        simp only [Option.mem_def, Option.some.injEq] at hx hy
        subst hx; subst hy
        simp [mutationExcludesThreads]
      · simp only
        rw [List.head?_append_of_ne_nil _ hne]
        exact hhead
      · intro s' hs'
        simp only
        rw [List.getLast?_append_of_ne_nil _ htne]
        exact ihlast s' hs'

/-- C11: resource-set mutation excludes background processing.  With the
background threads as the flag `m_threadsRunning` that `StartThreads` sets and
`Finish` clears, follow any sequence of public calls from any state through the
states it passes (statement by statement inside `CreateStreamingResource`,
`UseDirectStorage` and `SetVisualizationMode`): between two consecutive states
the managed set, with the file handles and allocation counts of its resources,
changes only when the flag is cleared in both.  The sequence of states starts at
the initial state and ends at the state the calls return.  In each of the three
mutating calls every state after entry has the flag cleared, so `Finish` comes
before the first mutation and nothing restarts the threads before the call
returns. -/
theorem resource_mutation_excludes_threads (cfg : BuildConfig) (calls : List PublicCall)
    (s : TileUpdateManagerBase) :
    List.Chain' (fun a b => mutationExcludesThreads a b = true) (trajectory cfg calls s) ∧
    (trajectory cfg calls s).head? = some s ∧
    (∀ s', runCalls cfg calls s = .ok s' → (trajectory cfg calls s).getLast? = some s') ∧
    (∀ name heap,
      (∀ t ∈ (statesOfCreateStreamingResource name heap s).tail, t.m_threadsRunning = false) ∧
      (∀ r s', CreateStreamingResource name heap s = .ok (r, s') →
        (statesOfCreateStreamingResource name heap s).getLast? = some s')) ∧
    (∀ b,
      (∀ t ∈ (statesOfUseDirectStorage b s).tail, t.m_threadsRunning = false) ∧
      (∀ s', UseDirectStorage b s = .ok s' →
        (statesOfUseDirectStorage b s).getLast? = some s')) ∧
    (∀ m,
      (∀ t ∈ (statesOfSetVisualizationMode m s).tail, t.m_threadsRunning = false) ∧
      (∀ s', SetVisualizationMode m s = .ok s' →
        (statesOfSetVisualizationMode m s).getLast? = some s')) := by
  obtain ⟨hchain, hhead, hlast⟩ := trajectory_spec cfg calls s
  refine ⟨hchain, hhead, hlast, ?_, ?_, ?_⟩
  · intro name heap
    obtain ⟨tail, heq, _, hstop, hl⟩ := statesOfCreateStreamingResource_spec name heap s
    rw [heq]
    exact ⟨hstop, hl⟩
  · intro b
    obtain ⟨tail, heq, _, hstop, hl⟩ := statesOfUseDirectStorage_spec b s
    rw [heq]
    exact ⟨hstop, hl⟩
  · intro m
    obtain ⟨tail, heq, _, hstop, hl⟩ := statesOfSetVisualizationMode_spec m s
    rw [heq]
    exact ⟨hstop, hl⟩

/-- Witness for C11: on `managerWithResources` a frame, then
`UseDirectStorage(true)`, then another `BeginFrame`; the states passed, as the
thread flag and the streamers of the two file handles. -/
theorem resource_mutation_excludes_threads_witness :
    List.Chain' (fun a b => mutationExcludesThreads a b = true)
      (trajectory plainBuild
        [.BeginFrame 0 0, .EndFrame, .UseDirectStorage true, .BeginFrame 0 0]
        managerWithResources) ∧
    (trajectory plainBuild
        [.BeginFrame 0 0, .EndFrame, .UseDirectStorage true, .BeginFrame 0 0]
        managerWithResources).map
      (fun t => (t.m_threadsRunning,
        t.m_streamingResources.map (fun r => r.m_pFileHandle.m_streamer))) =
      [(false, [0, 0]), (true, [0, 0]), (true, [0, 0]), (true, [0, 0]),
        (true, [0, 0]), (false, [0, 0]), (false, [0, 0]), (false, [22, 0]), (false, [22, 22]),
        (false, [22, 22]), (false, [22, 22]), (true, [22, 22]), (true, [22, 22])] :=
  ⟨(resource_mutation_excludes_threads plainBuild
      [.BeginFrame 0 0, .EndFrame, .UseDirectStorage true, .BeginFrame 0 0]
      managerWithResources).1, by decide⟩

/-! ## Packed-mip transitions in `EndFrame` -/

theorem collect_Before (s : TileUpdateManagerBase) :
    (collectPackedMipTransitions s).m_commandLists.Before = s.m_commandLists.Before := by
  rw [collect_commandLists]

theorem collect_packedMipTransitionBarriers (s : TileUpdateManagerBase) :
    (collectPackedMipTransitions s).m_packedMipTransitionBarriers =
      s.m_packedMipTransitionBarriers ++
        (if s.m_packedMipTransition then packedMipTransitionsNeeded s else []) := by
  unfold collectPackedMipTransitions packedMipTransitionsNeeded
  split <;> simp_all

theorem collect_packedMipTransition (s : TileUpdateManagerBase) :
    (collectPackedMipTransitions s).m_packedMipTransition = false := by
  unfold collectPackedMipTransitions
  split
  · rfl
  · simp_all

theorem collect_addAliasingBarriers (s : TileUpdateManagerBase) :
    (collectPackedMipTransitions s).m_addAliasingBarriers = s.m_addAliasingBarriers := by
  unfold collectPackedMipTransitions; split <;> rfl

theorem finishBeforeDraw_Before_commands (cfg : BuildConfig) (s : TileUpdateManagerBase) :
    (finishBeforeDraw cfg s).m_commandLists.Before.m_commands =
      s.m_commandLists.Before.m_commands ++ aliasingCommands s ++
        (if s.m_packedMipTransitionBarriers.length != 0 then
          [.ResourceBarrier (s.m_packedMipTransitionBarriers.length % UINT_RANGE)
            s.m_packedMipTransitionBarriers]
        else []) ++
        residencyCommands cfg := by
  simp only [finishBeforeDraw, copyResidencyMaps, recordPackedMipTransitions,
    recordAliasingBarriers, record, close, aliasingCommands, residencyCommands]
  split_ifs <;> simp_all

theorem finishBeforeDraw_packedMipTransition (cfg : BuildConfig) (s : TileUpdateManagerBase) :
    (finishBeforeDraw cfg s).m_packedMipTransition = s.m_packedMipTransition := by
  simp only [finishBeforeDraw, copyResidencyMaps, recordPackedMipTransitions,
    recordAliasingBarriers, record, close]
  split_ifs <;> rfl

theorem finishAfterDraw_packedMipTransition (cfg : BuildConfig) (s : TileUpdateManagerBase) :
    (finishAfterDraw cfg s).m_packedMipTransition = s.m_packedMipTransition := by
  unfold finishAfterDraw
  split
  · rw [resolveQueuedFeedback_eq]; rfl
  · rfl

/-- The before-draw command list, the packed-mip flag and the packed-mip batch
that a successful `EndFrame` leaves. -/
theorem EndFrame_before_draw (cfg : BuildConfig) (s s' : TileUpdateManagerBase)
    (out : CommandLists) (he : EndFrame cfg s = .ok (out, s')) :
    s'.m_commandLists.Before.m_commands =
      s.m_commandLists.Before.m_commands ++ aliasingCommands s ++
        (if (s.m_packedMipTransitionBarriers ++
              (if s.m_packedMipTransition then packedMipTransitionsNeeded s else [])).length != 0
          then
          [.ResourceBarrier
            ((s.m_packedMipTransitionBarriers ++
              (if s.m_packedMipTransition then packedMipTransitionsNeeded s else [])).length
              % UINT_RANGE)
            (s.m_packedMipTransitionBarriers ++
              (if s.m_packedMipTransition then packedMipTransitionsNeeded s else []))]
        else []) ++
        residencyCommands cfg ∧
    s'.m_packedMipTransition = false ∧
    s'.m_packedMipTransitionBarriers = [] := by
  rw [EndFrame_eq] at he
  cases hw : s.m_withinFrame
  · simp [hw] at he
  · simp only [hw, if_true, Except.ok.injEq, Prod.mk.injEq] at he
    obtain ⟨_, rfl⟩ := he
    refine ⟨?_, ?_, ?_⟩
    · show (finishAfterDraw cfg _).m_commandLists.Before.m_commands = _
      rw [finishAfterDraw_Before, finishBeforeDraw_Before_commands, collect_Before,
        collect_packedMipTransitionBarriers]
      simp only [aliasingCommands, collect_addAliasingBarriers, collect_streamingResources]
    · show (finishAfterDraw cfg _).m_packedMipTransition = false
      rw [finishAfterDraw_packedMipTransition, finishBeforeDraw_packedMipTransition,
        collect_packedMipTransition]
    · show (finishAfterDraw cfg _).m_packedMipTransitionBarriers = []
      rw [finishAfterDraw_packedMipTransitionBarriers,
        finishBeforeDraw_packedMipTransitionBarriers]

theorem countP_isPackedMipBarrier_aliasingCommands (s : TileUpdateManagerBase) :
    (aliasingCommands s).countP Command.isPackedMipBarrier = 0 := by
  unfold aliasingCommands
  split
  · simp [List.countP_cons, Command.isPackedMipBarrier, D3D12_RESOURCE_BARRIER.isTransition]
  · rfl

theorem countP_isPackedMipBarrier_residencyCommands (cfg : BuildConfig) :
    (residencyCommands cfg).countP Command.isPackedMipBarrier = 0 := by
  unfold residencyCommands
  split
  · simp [List.countP_cons, Command.isPackedMipBarrier, D3D12_RESOURCE_BARRIER.isTransition]
  · rfl

theorem countP_isPackedMipBarrier_ClearFeedback (queued : List (StreamingResourceBase × Nat)) :
    (queued.map (fun q => Command.ClearFeedback q.1.m_ptr q.2)).countP
      Command.isPackedMipBarrier = 0 := by
  induction queued with
  | nil => rfl
  | cons q rest ih => simp [List.countP_cons, Command.isPackedMipBarrier]

theorem signalFrame_packedMipTransition (d : Nat) (s : TileUpdateManagerBase) :
    (signalFrame d s).m_packedMipTransition = s.m_packedMipTransition := by
  unfold signalFrame StartThreads AllocateResidencyMap log
  dsimp only
  split <;> split <;> rfl

theorem resultOfCall_packedMipTransitionBarriers (cfg : BuildConfig) (c : PublicCall)
    (t t' : TileUpdateManagerBase) (hr : resultOfCall cfg c t = .ok t')
    (hb : t.m_packedMipTransitionBarriers = []) : t'.m_packedMipTransitionBarriers = [] := by
  cases c with
  | CreateStreamingResource name heap =>
    simp only [resultOfCall, CreateStreamingResource_eq] at hr
    cases hw : t.m_withinFrame
    · cases hm : t.m_missingFiles.contains name
      · simp only [hw, hm, Bool.false_eq_true, if_false, Except.map, Except.ok.injEq] at hr
        subst hr
        exact hb
      · simp only [hw, hm, Bool.false_eq_true, if_false, if_true, Except.map] at hr
        exact Except.noConfusion hr
    · simp [hw, Except.map] at hr
  | UseDirectStorage b =>
    simp only [resultOfCall, UseDirectStorage_eq] at hr
    cases hw : t.m_withinFrame
    · simp only [hw, Bool.false_eq_true, if_false, Except.ok.injEq] at hr
      subst hr
      exact hb
    · simp [hw] at hr
  | SetVisualizationMode m =>
    simp only [resultOfCall, SetVisualizationMode_eq] at hr
    cases hw : t.m_withinFrame
    · simp only [hw, Bool.false_eq_true, if_false, Except.ok.injEq] at hr
      subst hr
      exact hb
    · simp [hw] at hr
  | BeginFrame h d =>
    simp only [resultOfCall] at hr
    rw [BeginFrame_eq_ok_iff] at hr
    obtain ⟨_, _, b, a, _, _, rfl⟩ := hr
    simpa [record, signalFrame_packedMipTransitionBarriers] using hb
  | QueueFeedback r g =>
    simp only [resultOfCall, Except.ok.injEq] at hr
    subst hr
    simpa [QueueFeedback, record] using hb
  | EndFrame =>
    simp only [resultOfCall] at hr
    cases he : EndFrame cfg t with
    | error e => simp [he, Except.map] at hr
    | ok r =>
      simp only [he, Except.map, Except.ok.injEq] at hr
      subst hr
      exact (EndFrame_before_draw cfg t r.2 r.1 he).2.2

/-- C15: packed-mip transition batching.  Let `EndFrame` succeed from a manager
state, with any number of resources, whose packed-mip batch is empty at entry
(it is empty after every `EndFrame` and every public call keeps it empty).  The
calls `EndFrame` appends to the before-draw command list are the aliasing call,
then at most one `ResourceBarrier` carrying packed-mip transitions, then the
residency-map calls.  That call is made exactly when the packed-mip-transition
flag is set and some managed resource has `GetPackedMipsNeedTransition` true, and
it is passed one COMMON to PIXEL_SHADER_RESOURCE transition for each such
resource, in managed-set order, and nothing else.  Afterwards the flag is cleared
and the batch is empty, and the `EndFrame` of the next frame records no
packed-mip barrier. -/
theorem packed_mip_transition_batching (cfg : BuildConfig) (s s' : TileUpdateManagerBase)
    (out : CommandLists) (hb : s.m_packedMipTransitionBarriers = [])
    (he : EndFrame cfg s = .ok (out, s')) :
    s'.m_commandLists.Before.m_commands =
      s.m_commandLists.Before.m_commands ++ aliasingCommands s ++
        (if s.m_packedMipTransition && (packedMipTransitionsNeeded s).length != 0 then
          [.ResourceBarrier ((packedMipTransitionsNeeded s).length % UINT_RANGE)
            (packedMipTransitionsNeeded s)]
        else []) ++
        residencyCommands cfg ∧
    packedMipTransitionsNeeded s =
      (s.m_streamingResources.filter (fun o => o.GetPackedMipsNeedTransition)).map
        (fun o => .Transition o.GetTiledResource .COMMON .PIXEL_SHADER_RESOURCE) ∧
    (s'.m_commandLists.Before.m_commands.drop
      s.m_commandLists.Before.m_commands.length).countP Command.isPackedMipBarrier ≤ 1 ∧
    s'.m_packedMipTransition = false ∧
    s'.m_packedMipTransitionBarriers = [] ∧
    (∀ (h d : Nat) (queued : List (StreamingResourceBase × Nat)) (s2 s3 : TileUpdateManagerBase)
        (out2 : CommandLists),
      BeginFrame h d s' = .ok s2 → EndFrame cfg (queueAll cfg queued s2) = .ok (out2, s3) →
      s3.m_commandLists.Before.m_commands.countP Command.isPackedMipBarrier = 0) ∧
    (∀ (c : PublicCall) (t t' : TileUpdateManagerBase),
      resultOfCall cfg c t = .ok t' → t.m_packedMipTransitionBarriers = [] →
      t'.m_packedMipTransitionBarriers = []) := by
  obtain ⟨hcmds, hflag, hbatch⟩ := EndFrame_before_draw cfg s s' out he
  rw [hb] at hcmds
  have hcmds' : s'.m_commandLists.Before.m_commands =
      s.m_commandLists.Before.m_commands ++ (aliasingCommands s ++
        ((if s.m_packedMipTransition && (packedMipTransitionsNeeded s).length != 0 then
          [Command.ResourceBarrier ((packedMipTransitionsNeeded s).length % UINT_RANGE)
            (packedMipTransitionsNeeded s)]
        else []) ++
        residencyCommands cfg)) := by
    rw [hcmds]
    cases hf : s.m_packedMipTransition <;> simp [List.append_assoc]
  refine ⟨by rw [hcmds']; simp only [List.append_assoc], rfl, ?_, hflag, hbatch, ?_,
    resultOfCall_packedMipTransitionBarriers cfg⟩
  · rw [hcmds', List.drop_left]
    rw [List.countP_append, List.countP_append, countP_isPackedMipBarrier_aliasingCommands,
      countP_isPackedMipBarrier_residencyCommands]
    split
    · simp only [List.countP_cons, List.countP_nil]
      split <;> omega
    · simp
  · intro h d queued s2 s3 out2 hbegin hend
    obtain ⟨hcmds3, _, _⟩ := EndFrame_before_draw cfg _ s3 out2 hend
    rw [BeginFrame_eq_ok_iff] at hbegin
    obtain ⟨_, _, b, a, hreset, _, rfl⟩ := hbegin
    obtain ⟨resets, _, _, rfl⟩ := resetForFrame_ok _ _ _ hreset
    rw [hcmds3, queueAll_eq]
    simp only [record, signalFrame_packedMipTransitionBarriers, signalFrame_packedMipTransition,
      hflag, hbatch, List.nil_append, List.append_nil, Bool.false_eq_true, if_false,
      List.length_nil, bne_self_eq_false, List.countP_append, List.countP_cons, List.countP_nil,
      Command.isPackedMipBarrier, countP_isPackedMipBarrier_aliasingCommands,
      countP_isPackedMipBarrier_residencyCommands, countP_isPackedMipBarrier_ClearFeedback]

theorem managerWithPackedMips_EndFrame :
    EndFrame plainBuild managerWithPackedMips =
      .ok ({ m_beforeDrawCommands := .Before, m_afterDrawCommands := .After },
        managerWithPackedMipsAfterFrame) := by
  rfl

/-- Witness for C15: `EndFrame` on `managerWithPackedMips`, where one of three
resources needs the transition. -/
theorem packed_mip_transition_batching_witness :
    managerWithPackedMips.m_packedMipTransitionBarriers = [] ∧
    EndFrame plainBuild managerWithPackedMips =
      .ok ({ m_beforeDrawCommands := .Before, m_afterDrawCommands := .After },
        managerWithPackedMipsAfterFrame) ∧
    managerWithPackedMipsAfterFrame.m_commandLists.Before.m_commands =
      [.SetDescriptorHeaps 0,
        .ResourceBarrier 1 [.Transition (.tiledResource 30) .COMMON .PIXEL_SHADER_RESOURCE]] ∧
    managerWithPackedMipsAfterFrame.m_packedMipTransition = false :=
  have hmain := packed_mip_transition_batching plainBuild managerWithPackedMips
    managerWithPackedMipsAfterFrame
    { m_beforeDrawCommands := .Before, m_afterDrawCommands := .After } rfl
    managerWithPackedMips_EndFrame
  ⟨rfl, managerWithPackedMips_EndFrame, hmain.1, hmain.2.2.2.1⟩

/-! ## Residency-map allocation in `BeginFrame` -/

theorem signalFrame_numStreamingResourcesChanged (d : Nat) (s : TileUpdateManagerBase) :
    (signalFrame d s).m_numStreamingResourcesChanged = false := by
  unfold signalFrame StartThreads AllocateResidencyMap log
  cases h1 : s.m_threadsRunning <;> cases h2 : s.m_numStreamingResourcesChanged <;>
    simp [h1, h2]

theorem EndFrame_numStreamingResourcesChanged (cfg : BuildConfig)
    (s s' : TileUpdateManagerBase) (out : CommandLists) (he : EndFrame cfg s = .ok (out, s')) :
    s'.m_numStreamingResourcesChanged = s.m_numStreamingResourcesChanged := by
  rw [EndFrame_eq] at he
  cases hw : s.m_withinFrame
  · simp [hw] at he
  · simp only [hw, if_true, Except.ok.injEq, Prod.mk.injEq] at he
    obtain ⟨_, rfl⟩ := he
    show (finishAfterDraw cfg _).m_numStreamingResourcesChanged = _
    have h1 : ∀ t, (finishAfterDraw cfg t).m_numStreamingResourcesChanged =
        t.m_numStreamingResourcesChanged := by
      intro t
      unfold finishAfterDraw
      split
      · rw [resolveQueuedFeedback_eq]; rfl
      · rfl
    have h2 : ∀ t, (finishBeforeDraw cfg t).m_numStreamingResourcesChanged =
        t.m_numStreamingResourcesChanged := by
      intro t
      simp only [finishBeforeDraw, copyResidencyMaps, recordPackedMipTransitions,
        recordAliasingBarriers, record, close]
      split_ifs <;> rfl
    have h3 : ∀ t, (collectPackedMipTransitions t).m_numStreamingResourcesChanged =
        t.m_numStreamingResourcesChanged := by
      intro t
      unfold collectPackedMipTransitions; split <;> rfl
    rw [h1, h2, h3]

theorem resultOfCall_numStreamingResourcesChanged (cfg : BuildConfig) (c : PublicCall)
    (t t' : TileUpdateManagerBase) (hr : resultOfCall cfg c t = .ok t')
    (rest : List PublicCall) :
    createdSinceLastBeginFrame t.m_numStreamingResourcesChanged (c :: rest) =
      createdSinceLastBeginFrame t'.m_numStreamingResourcesChanged rest := by
  cases c with
  | CreateStreamingResource name heap =>
    simp only [resultOfCall, CreateStreamingResource_eq] at hr
    cases hw : t.m_withinFrame
    · cases hm : t.m_missingFiles.contains name
      · simp only [hw, hm, Bool.false_eq_true, if_false, Except.map, Except.ok.injEq] at hr
        subst hr
        rfl
      · simp only [hw, hm, Bool.false_eq_true, if_false, if_true, Except.map] at hr
        exact Except.noConfusion hr
    · simp [hw, Except.map] at hr
  | UseDirectStorage b =>
    simp only [resultOfCall, UseDirectStorage_eq] at hr
    cases hw : t.m_withinFrame
    · simp only [hw, Bool.false_eq_true, if_false, Except.ok.injEq] at hr
      subst hr
      rfl
    · simp [hw] at hr
  | SetVisualizationMode m =>
    simp only [resultOfCall, SetVisualizationMode_eq] at hr
    cases hw : t.m_withinFrame
    · simp only [hw, Bool.false_eq_true, if_false, Except.ok.injEq] at hr
      subst hr
      rfl
    · simp [hw] at hr
  | BeginFrame h d =>
    simp only [resultOfCall] at hr
    rw [BeginFrame_eq_ok_iff] at hr
    obtain ⟨_, _, b, a, _, _, rfl⟩ := hr
    simp [createdSinceLastBeginFrame, record, signalFrame_numStreamingResourcesChanged]
  | QueueFeedback r g =>
    simp only [resultOfCall, Except.ok.injEq] at hr
    subst hr
    simp [createdSinceLastBeginFrame, QueueFeedback, record]
  | EndFrame =>
    simp only [resultOfCall] at hr
    cases he : EndFrame cfg t with
    | error e => simp [he, Except.map] at hr
    | ok r =>
      simp only [he, Except.map, Except.ok.injEq] at hr
      subst hr
      simp [createdSinceLastBeginFrame, EndFrame_numStreamingResourcesChanged cfg t r.2 r.1 he]

theorem runCalls_numStreamingResourcesChanged (cfg : BuildConfig) (calls : List PublicCall) :
    ∀ s0 s1 : TileUpdateManagerBase, runCalls cfg calls s0 = .ok s1 →
      s1.m_numStreamingResourcesChanged =
        createdSinceLastBeginFrame s0.m_numStreamingResourcesChanged calls := by
  induction calls with
  | nil =>
    intro s0 s1 h
    simp only [runCalls, Except.ok.injEq] at h
    subst h
    rfl
  | cons c rest ih =>
    intro s0 s1 h
    simp only [runCalls] at h
    cases hr : resultOfCall cfg c s0 with
    | error e => simp [hr] at h
    | ok t =>
      simp only [hr] at h
      rw [resultOfCall_numStreamingResourcesChanged cfg c s0 t hr rest]
      exact ih t s1 h

theorem BeginFrame_events (h d : Nat) (s s' : TileUpdateManagerBase)
    (hb : BeginFrame h d s = .ok s') :
    s'.m_events.drop s.m_events.length =
      (if s.m_threadsRunning then [] else [Event.StartThreads]) ++
        [Event.ProcessFeedbackFlagSet] ++
        (if s.m_numStreamingResourcesChanged then [Event.AllocateResidencyMap d] else []) ++
        [Event.Signal s.m_frameFenceValue] ∧
    s'.m_numStreamingResourcesChanged = false := by
  rw [BeginFrame_eq_ok_iff] at hb
  obtain ⟨_, _, b, a, _, _, rfl⟩ := hb
  refine ⟨?_, by simp [record, signalFrame_numStreamingResourcesChanged]⟩
  have : (record CommandListName.Before (Command.SetDescriptorHeaps h)
      { signalFrame d s with
          m_renderFrameIndex := (s.m_renderFrameIndex + 1) % s.m_numSwapBuffers
          m_commandLists := { Before := b, After := a } }).m_events = (signalFrame d s).m_events := by
    simp [record]
  rw [this, signalFrame_events]
  simp only [List.append_assoc]
  exact List.drop_left _ _

/-- C16: residency-map allocation.  Run any sequence of public calls (in
particular of `CreateStreamingResource`, `BeginFrame` and `EndFrame` calls)
without failure from a manager whose changed flag is clear, as at construction,
and then call `BeginFrame` successfully.  That `BeginFrame` calls
`AllocateResidencyMap`, with its descriptor handle and exactly once, if and only
if a `CreateStreamingResource` call was made since the previous `BeginFrame` (since
the start, when there is none); it leaves the changed flag clear, so the
`BeginFrame` of the frame that follows directly does not allocate. -/
theorem residency_map_allocation (cfg : BuildConfig) (calls : List PublicCall)
    (s0 s1 s2 : TileUpdateManagerBase) (h d : Nat)
    (h0 : s0.m_numStreamingResourcesChanged = false)
    (hrun : runCalls cfg calls s0 = .ok s1) (hb : BeginFrame h d s1 = .ok s2) :
    (Event.AllocateResidencyMap d ∈ s2.m_events.drop s1.m_events.length ↔
      createdSinceLastBeginFrame false calls = true) ∧
    (s2.m_events.drop s1.m_events.length).countP Event.isAllocateResidencyMap =
      (if createdSinceLastBeginFrame false calls then 1 else 0) ∧
    s2.m_numStreamingResourcesChanged = false ∧
    (∀ (out : CommandLists) (s3 s4 : TileUpdateManagerBase) (h' d' : Nat),
      EndFrame cfg s2 = .ok (out, s3) → BeginFrame h' d' s3 = .ok s4 →
      (s4.m_events.drop s3.m_events.length).countP Event.isAllocateResidencyMap = 0) := by
  have hflag := runCalls_numStreamingResourcesChanged cfg calls s0 s1 hrun
  rw [h0] at hflag
  obtain ⟨hev, hclear⟩ := BeginFrame_events h d s1 s2 hb
  refine ⟨?_, ?_, hclear, ?_⟩
  · rw [hev, hflag]
    cases createdSinceLastBeginFrame false calls <;> cases s1.m_threadsRunning <;> simp
  · rw [hev, hflag]
    cases createdSinceLastBeginFrame false calls <;> cases s1.m_threadsRunning <;>
      simp [List.countP_cons, Event.isAllocateResidencyMap]
  · intro out s3 s4 h' d' he hb'
    obtain ⟨hev', _⟩ := BeginFrame_events h' d' s3 s4 hb'
    rw [hev', EndFrame_numStreamingResourcesChanged cfg s2 s3 out he, hclear]
    cases s3.m_threadsRunning <;> simp [List.countP_cons, Event.isAllocateResidencyMap]

theorem idleManager_create : runCalls plainBuild [.CreateStreamingResource "c.xet" 7]
    idleManager = .ok managerAfterCreate := by
  rfl

theorem managerAfterCreate_BeginFrame :
    BeginFrame 0 5 managerAfterCreate = .ok managerAfterCreateInFrame := by
  rfl

/-- Witness for C16: one resource created on `idleManager`, then `BeginFrame`. -/
theorem residency_map_allocation_witness :
    idleManager.m_numStreamingResourcesChanged = false ∧
    runCalls plainBuild [.CreateStreamingResource "c.xet" 7] idleManager =
      .ok managerAfterCreate ∧
    BeginFrame 0 5 managerAfterCreate = .ok managerAfterCreateInFrame ∧
    createdSinceLastBeginFrame false [.CreateStreamingResource "c.xet" 7] = true ∧
    Event.AllocateResidencyMap 5 ∈
      managerAfterCreateInFrame.m_events.drop managerAfterCreate.m_events.length ∧
    managerAfterCreateInFrame.m_numStreamingResourcesChanged = false :=
  have hmain := residency_map_allocation plainBuild [.CreateStreamingResource "c.xet" 7]
    idleManager managerAfterCreate managerAfterCreateInFrame 0 5 rfl idleManager_create
    managerAfterCreate_BeginFrame
  ⟨rfl, idleManager_create, managerAfterCreate_BeginFrame, rfl, hmain.1.2 rfl, hmain.2.2.1⟩

/-! ## Trace capture: grouping by submission -/

theorem jsonAt_length {α : Type} (l : List (Option α)) : jsonAt l l.length = none := by
  simp [jsonAt]

theorem jsonAt_append_singleton {α : Type} (l : List (Option α)) (x : Option α) :
    jsonAt (l ++ [x]) l.length = x := by
  simp [jsonAt]

theorem jsonAssign_length {α : Type} (l : List (Option α)) (v : α) :
    jsonAssign l l.length v = l ++ [some v] := by
  simp [jsonAssign]

theorem jsonAssign_append_singleton {α : Type} (l : List (Option α)) (x : Option α) (v : α) :
    jsonAssign (l ++ [x]) l.length v = l ++ [some v] := by
  simp [jsonAssign]

/-- One `TraceRequest` on a streamer whose current array is still absent. -/
theorem TraceRequest_opens (self : FileStreamer) (q : UploadRequest)
    (hs : self.m_traceSubmitIndex = self.m_trace.submits.length)
    (hr : self.m_traceRequestIndex = 0) :
    (self.TraceRequest q).m_trace.submits = self.m_trace.submits ++ [requestObjects [q]] ∧
    (self.TraceRequest q).m_traceSubmitIndex = self.m_traceSubmitIndex ∧
    (self.TraceRequest q).m_traceRequestIndex = 1 ∧
    (self.TraceRequest q).m_firstSubmit = self.m_firstSubmit := by
  unfold FileStreamer.TraceRequest
  simp only [hs, hr, jsonAt_length, Option.getD_none]
  split <;> simp [jsonAssign, jsonAt, requestObjects]

/-- One `TraceRequest` on a streamer whose current array holds `cur`. -/
theorem TraceRequest_extends (self : FileStreamer) (q : UploadRequest)
    (done : List (Option (List (Option TraceRequestObject)))) (cur : List UploadRequest)
    (hd : self.m_trace.submits = done ++ [requestObjects cur])
    (hs : self.m_traceSubmitIndex = done.length)
    (hr : self.m_traceRequestIndex = cur.length) :
    (self.TraceRequest q).m_trace.submits = done ++ [requestObjects (cur ++ [q])] ∧
    (self.TraceRequest q).m_traceSubmitIndex = self.m_traceSubmitIndex ∧
    (self.TraceRequest q).m_traceRequestIndex = cur.length + 1 ∧
    (self.TraceRequest q).m_firstSubmit = self.m_firstSubmit := by
  unfold FileStreamer.TraceRequest
  have h1 : jsonAt (done ++ [requestObjects cur]) done.length = requestObjects cur :=
    jsonAt_append_singleton _ _
  have h2 : jsonAt (cur.map (fun q => some (traceRequestObject q none))) cur.length = none := by
    simpa using jsonAt_length (cur.map (fun q => some (traceRequestObject q none)))
  have h3 : jsonAssign (cur.map (fun q => some (traceRequestObject q none))) cur.length
      (traceRequestObject q none) =
      cur.map (fun q => some (traceRequestObject q none)) ++ [some (traceRequestObject q none)] := by
    simpa using jsonAssign_length (cur.map (fun q => some (traceRequestObject q none)))
      (traceRequestObject q none)
  simp only [hd, hs, hr, h1]
  simp only [requestObjects, Option.getD_some, h2, h3, jsonAssign_append_singleton]
  split <;> simp

theorem foldl_TraceRequest_extends (qs : List UploadRequest) :
    ∀ (self : FileStreamer) (done : List (Option (List (Option TraceRequestObject))))
      (cur : List UploadRequest),
      self.m_trace.submits = done ++ [requestObjects cur] →
      self.m_traceSubmitIndex = done.length →
      self.m_traceRequestIndex = cur.length →
      (qs.foldl FileStreamer.TraceRequest self).m_trace.submits =
          done ++ [requestObjects (cur ++ qs)] ∧
        (qs.foldl FileStreamer.TraceRequest self).m_traceSubmitIndex = done.length ∧
        (qs.foldl FileStreamer.TraceRequest self).m_traceRequestIndex = (cur ++ qs).length ∧
        (qs.foldl FileStreamer.TraceRequest self).m_firstSubmit = self.m_firstSubmit := by
  induction qs with
  | nil =>
    intro self done cur hd hs hr
    simp [hd, hs, hr]
  | cons q rest ih =>
    intro self done cur hd hs hr
    obtain ⟨h1, h2, h3, h4⟩ := TraceRequest_extends self q done cur hd hs hr
    have := ih (self.TraceRequest q) done (cur ++ [q]) h1 (h2.trans hs) (by simp [h3])
    simpa [List.append_assoc, h4] using this

theorem foldl_TraceRequest_opens (q : UploadRequest) (rest : List UploadRequest)
    (self : FileStreamer)
    (hs : self.m_traceSubmitIndex = self.m_trace.submits.length)
    (hr : self.m_traceRequestIndex = 0) :
    ((q :: rest).foldl FileStreamer.TraceRequest self).m_trace.submits =
        self.m_trace.submits ++ [requestObjects (q :: rest)] ∧
      ((q :: rest).foldl FileStreamer.TraceRequest self).m_traceSubmitIndex =
        self.m_trace.submits.length ∧
      ((q :: rest).foldl FileStreamer.TraceRequest self).m_traceRequestIndex =
        (q :: rest).length ∧
      ((q :: rest).foldl FileStreamer.TraceRequest self).m_firstSubmit = self.m_firstSubmit := by
  obtain ⟨h1, h2, h3, h4⟩ := TraceRequest_opens self q hs hr
  have := foldl_TraceRequest_extends rest (self.TraceRequest q) self.m_trace.submits [q] h1
    (h2.trans hs) (by simp [h3])
  simpa [h4] using this

/-- A session on a streamer that has consumed its first submit and has no open
array: every submission gets an array of its own. -/
theorem traceSession_closed (subs : List (List UploadRequest)) :
    ∀ (self : FileStreamer),
      self.m_firstSubmit = false →
      self.m_traceSubmitIndex = self.m_trace.submits.length →
      self.m_traceRequestIndex = 0 →
      (∀ x ∈ subs, x ≠ []) →
      Except.map (fun f => f.m_trace.submits) (self.traceSession subs) =
        .ok (self.m_trace.submits ++ subs.map requestObjects) := by
  induction subs with
  | nil =>
    intro self _ _ _ _
    simp [FileStreamer.traceSession, Except.map]
  | cons g rest ih =>
    intro self hf hs hr hne
    obtain ⟨q, qs, rfl⟩ := List.exists_cons_of_ne_nil (hne g (List.mem_cons_self _ _))
    obtain ⟨h1, h2, h3, h4⟩ := foldl_TraceRequest_opens q qs self hs hr
    have hsub : self.traceSubmission (q :: qs) =
        .ok { (q :: qs).foldl FileStreamer.TraceRequest self with
              m_traceRequestIndex := 0
              m_traceSubmitIndex :=
                ((q :: qs).foldl FileStreamer.TraceRequest self).m_traceSubmitIndex + 1 } := by
      simp only [FileStreamer.traceSubmission, FileStreamer.TraceSubmit, h4, hf, h3]
      simp [ASSERT, bind, Except.bind, pure, Except.pure]
    have := ih { (q :: qs).foldl FileStreamer.TraceRequest self with
              m_traceRequestIndex := 0
              m_traceSubmitIndex :=
                ((q :: qs).foldl FileStreamer.TraceRequest self).m_traceSubmitIndex + 1 }
      (h4.trans hf)
      (show ((q :: qs).foldl FileStreamer.TraceRequest self).m_traceSubmitIndex + 1 =
          ((q :: qs).foldl FileStreamer.TraceRequest self).m_trace.submits.length by
        rw [h1, h2]; simp)
      rfl (fun x hx => hne x (List.mem_cons_of_mem _ hx))
    simp only [FileStreamer.traceSession, hsub]
    rw [this]
    show Except.ok (((q :: qs).foldl FileStreamer.TraceRequest self).m_trace.submits ++ _) = _
    rw [h1]
    simp [List.append_assoc]

/-- A session on a streamer that has consumed its first submit and holds the open
array `cur`: the first submission continues `cur`, every later one gets an array
of its own. -/
theorem traceSession_open (subs : List (List UploadRequest)) (self : FileStreamer)
    (done : List (Option (List (Option TraceRequestObject)))) (cur g : List UploadRequest)
    (hf : self.m_firstSubmit = false)
    (hd : self.m_trace.submits = done ++ [requestObjects cur])
    (hs : self.m_traceSubmitIndex = done.length)
    (hr : self.m_traceRequestIndex = cur.length)
    (hcur : cur ≠ [])
    (hne : ∀ x ∈ subs, x ≠ []) :
    Except.map (fun f => f.m_trace.submits) (self.traceSession (g :: subs)) =
      .ok (done ++ [requestObjects (cur ++ g)] ++ subs.map requestObjects) := by
  obtain ⟨h1, h2, h3, h4⟩ := foldl_TraceRequest_extends g self done cur hd hs hr
  have hidx : ¬ (0 = cur.length + g.length) := by
    cases cur with
    | nil => exact absurd rfl hcur
    | cons c cs => simp only [List.length_cons]; omega
  have hsub : self.traceSubmission g =
      .ok { g.foldl FileStreamer.TraceRequest self with
            m_traceRequestIndex := 0
            m_traceSubmitIndex := (g.foldl FileStreamer.TraceRequest self).m_traceSubmitIndex + 1 } := by
    simp only [FileStreamer.traceSubmission, FileStreamer.TraceSubmit, h4, hf, h3]
    simp [ASSERT, hidx, bind, Except.bind, pure, Except.pure]
  have := traceSession_closed subs
    { g.foldl FileStreamer.TraceRequest self with
        m_traceRequestIndex := 0
        m_traceSubmitIndex := (g.foldl FileStreamer.TraceRequest self).m_traceSubmitIndex + 1 }
    (h4.trans hf)
    (show (g.foldl FileStreamer.TraceRequest self).m_traceSubmitIndex + 1 =
        (g.foldl FileStreamer.TraceRequest self).m_trace.submits.length by
      rw [h1, h2]; simp)
    rfl hne
  simp only [FileStreamer.traceSession, hsub]
  rw [this]
  show Except.ok ((g.foldl FileStreamer.TraceRequest self).m_trace.submits ++ _) = _
  rw [h1]

/-- A session on a streamer with no open array, whatever its first-submit flag. -/
theorem traceSession_submits (subs : List (List UploadRequest)) (self : FileStreamer)
    (hs : self.m_traceSubmitIndex = self.m_trace.submits.length)
    (hr : self.m_traceRequestIndex = 0)
    (hne : ∀ x ∈ subs, x ≠ []) :
    Except.map (fun f => f.m_trace.submits) (self.traceSession subs) =
      .ok (self.m_trace.submits ++
        (if self.m_firstSubmit then groupedWithFirstSubmitIgnored subs else subs).map
          requestObjects) := by
  cases hf : self.m_firstSubmit
  · simpa using traceSession_closed subs self hf hs hr hne
  · simp only [if_true]
    cases subs with
    | nil => simp [FileStreamer.traceSession, Except.map, groupedWithFirstSubmitIgnored]
    | cons a rest =>
      obtain ⟨q, qs, rfl⟩ := List.exists_cons_of_ne_nil (hne a (List.mem_cons_self _ _))
      obtain ⟨h1, h2, h3, h4⟩ := foldl_TraceRequest_opens q qs self hs hr
      have hsub : self.traceSubmission (q :: qs) =
          .ok { (q :: qs).foldl FileStreamer.TraceRequest self with m_firstSubmit := false } := by
        simp only [FileStreamer.traceSubmission, FileStreamer.TraceSubmit, h4, hf, if_true]
      cases rest with
      | nil =>
        simp only [FileStreamer.traceSession, hsub, Except.map, groupedWithFirstSubmitIgnored,
          List.map_cons, List.map_nil]
        exact congrArg Except.ok h1
      | cons b rest2 =>
        have := traceSession_open rest2
          { (q :: qs).foldl FileStreamer.TraceRequest self with m_firstSubmit := false }
          self.m_trace.submits (q :: qs) b rfl h1 h2 h3 (by simp)
          (fun x hx => hne x (List.mem_cons_of_mem _ (List.mem_cons_of_mem _ hx)))
        have hstep : self.traceSession ((q :: qs) :: b :: rest2) =
            FileStreamer.traceSession (b :: rest2)
              { (q :: qs).foldl FileStreamer.TraceRequest self with m_firstSubmit := false } := by
          rw [FileStreamer.traceSession, hsub]
        rw [hstep, this]
        simp [groupedWithFirstSubmitIgnored, List.append_assoc]

/-- C12 (amended): on a streamer that has traced nothing yet, a session of `k ≥ 1`
submissions of `n_i ≥ 1` requests each runs without failure.  Where the first
submit has been consumed already, `submits` has exactly `k` entries and entry `i`
is the array of the requests of submission `i` in call order.  Where
`m_firstSubmit` is still set, the first `TraceSubmit` is ignored: the first two
submissions share entry 0 and `submits` has `max 1 (k - 1)` entries. -/
theorem trace_grouping_by_submission (subs : List (List UploadRequest)) (self : FileStreamer)
    (hd : self.m_trace.submits = [])
    (hs : self.m_traceSubmitIndex = 0)
    (hr : self.m_traceRequestIndex = 0)
    (hk : subs ≠ [])
    (hne : ∀ x ∈ subs, x ≠ []) :
    ∃ s', self.traceSession subs = .ok s' ∧
      s'.m_trace.submits =
        (if self.m_firstSubmit then groupedWithFirstSubmitIgnored subs else subs).map
          requestObjects ∧
      s'.m_trace.submits.length =
        (if self.m_firstSubmit then max 1 (subs.length - 1) else subs.length) ∧
      (self.m_firstSubmit = false →
        ∀ i (hi : i < subs.length), jsonAt s'.m_trace.submits i =
          some ((subs.get ⟨i, hi⟩).map (fun q => some (traceRequestObject q none)))) := by
  have h := traceSession_submits subs self (by rw [hs, hd]; rfl) hr hne
  rw [hd, List.nil_append] at h
  cases hrun : self.traceSession subs with
  | error e => rw [hrun] at h; simp [Except.map] at h
  | ok s' =>
    rw [hrun] at h
    have hsub : s'.m_trace.submits =
        (if self.m_firstSubmit then groupedWithFirstSubmitIgnored subs else subs).map
          requestObjects := by
      simpa [Except.map] using h
    refine ⟨s', rfl, hsub, ?_, ?_⟩
    · rw [hsub, List.length_map]
      cases self.m_firstSubmit
      · simp
      · simp only [if_true]
        match subs, hk with
        | [a], _ => simp [groupedWithFirstSubmitIgnored]
        | a :: b :: rest, _ =>
          simp only [groupedWithFirstSubmitIgnored, List.length_cons]
          omega
    · intro hf i hi
      rw [hsub, hf]
      simp [jsonAt, List.getElem?_eq_getElem hi, requestObjects]

/-- Witness for C12 (amended): two submissions of three requests on a streamer
whose first submit has been consumed give two entries of three requests. -/
theorem trace_grouping_by_submission_witness :
    startedCaptureStreamer.m_trace.submits = [] ∧
    sampleTraceSession ≠ [] ∧
    (∀ x ∈ sampleTraceSession, x ≠ []) ∧
    ∃ s', startedCaptureStreamer.traceSession sampleTraceSession = .ok s' ∧
      s'.m_trace.submits = sampleTraceSession.map requestObjects ∧
      s'.m_trace.submits.length = 2 :=
  have hne : ∀ x ∈ sampleTraceSession, x ≠ [] := by
    intro x hx
    simp only [sampleTraceSession, List.mem_cons, List.mem_singleton, List.not_mem_nil,
      or_false] at hx
    rcases hx with rfl | rfl <;> exact List.cons_ne_nil _ _
  have hk : sampleTraceSession ≠ [] := List.cons_ne_nil _ _
  have ⟨s', h1, h2, h3, _⟩ :=
    trace_grouping_by_submission sampleTraceSession startedCaptureStreamer rfl rfl rfl hk hne
  ⟨rfl, hk, hne, s', h1, h2, h3⟩

/-- Counterexample for C12: on a streamer that has traced nothing and whose
`m_firstSubmit` is still set, two submissions of three requests each leave one
entry under `submits`, an array of all six requests. -/
theorem trace_grouping_first_submit_ignored :
    freshCaptureStreamer.m_firstSubmit = true ∧
    freshCaptureStreamer.m_trace.submits = [] ∧
    sampleTraceSession.map List.length = [3, 3] ∧
    Except.map (fun f => f.m_trace.submits.map (Option.map List.length))
      (freshCaptureStreamer.traceSession sampleTraceSession) = .ok [some 6] ∧
    Except.map (fun f => (f.m_traceSubmitIndex, f.m_traceRequestIndex))
      (freshCaptureStreamer.traceSession sampleTraceSession) = .ok (1, 0) :=
  ⟨rfl, rfl, rfl, rfl, rfl⟩

/-! ## Trace capture: the file written at destruction -/

theorem decimalDigit_toNat (d : Nat) (h : d < 10) : (decimalDigit d).toNat - 48 = d := by
  interval_cases d <;> rfl

theorem decimalValue_append (l : List Char) (c : Char) :
    decimalValue (l ++ [c]) = decimalValue l * 10 + (c.toNat - 48) := by
  simp [decimalValue, List.foldl_append]

/-- Reading the digits back gives the number, with fuel above it. -/
theorem decimalValue_decimalDigits (fuel : Nat) :
    ∀ n, n < fuel → decimalValue (decimalDigits fuel n) = n := by
  induction fuel with
  | zero => intro n h; omega
  | succ fuel ih =>
    intro n h
    unfold decimalDigits
    split_ifs with h10
    · simpa [decimalValue] using decimalDigit_toNat n h10
    · rw [decimalValue_append, ih (n / 10) (by omega),
        decimalDigit_toNat (n % 10) (Nat.mod_lt _ (by decide))]
      omega

theorem to_wstring_injective : Function.Injective to_wstring := by
  intro a b h
  have hd : decimalDigits (a + 1) a = decimalDigits (b + 1) b :=
    congrArg String.data h
  have := congrArg decimalValue hd
  rwa [decimalValue_decimalDigits _ _ (Nat.lt_succ_self a),
    decimalValue_decimalDigits _ _ (Nat.lt_succ_self b)] at this

theorem traceFileName_injective : Function.Injective traceFileName := by
  intro a b h
  have hd := congrArg String.data h
  simp only [traceFileName, String.data_append] at hd
  exact to_wstring_injective (String.ext (List.append_cancel_left (List.append_cancel_right hd)))

/-- What the name loop returns when it returns: an index above the counter it was
entered with whose name is free, all names in between being taken. -/
theorem findUniqueTraceFile_some (fileExists : String → Bool) (fuel : Nat) :
    ∀ index n, findUniqueTraceFile fileExists fuel index = some n →
      index < n ∧ n ≤ index + fuel ∧ fileExists (traceFileName n) = false ∧
      ∀ m, index < m → m < n → fileExists (traceFileName m) = true := by
  induction fuel with
  | zero => intro index n h; simp [findUniqueTraceFile] at h
  | succ fuel ih =>
    intro index n h
    unfold findUniqueTraceFile at h
    cases hex : fileExists (traceFileName (index + 1))
    · simp only [hex, Bool.not_false, if_true, Option.some.injEq] at h
      subst h
      exact ⟨Nat.lt_succ_self _, by omega, hex, fun m h1 h2 => by omega⟩
    · simp only [hex, Bool.not_true, Bool.false_eq_true, if_false] at h
      obtain ⟨h1, h2, h3, h4⟩ := ih (index + 1) n h
      refine ⟨by omega, by omega, h3, fun m hm1 hm2 => ?_⟩
      by_cases hm : m = index + 1
      · rw [hm]; exact hex
      · exact h4 m (by omega) hm2

/-- The name loop returns as soon as a free name is within its fuel. -/
theorem findUniqueTraceFile_isSome (fileExists : String → Bool) (fuel : Nat) :
    ∀ index n, index < n → n ≤ index + fuel → fileExists (traceFileName n) = false →
      (findUniqueTraceFile fileExists fuel index).isSome = true := by
  induction fuel with
  | zero => intro index n h1 h2; omega
  | succ fuel ih =>
    intro index n h1 h2 hfree
    unfold findUniqueTraceFile
    cases hex : fileExists (traceFileName (index + 1))
    · simp
    · simp only [Bool.not_true, Bool.false_eq_true, if_false]
      have hn : n ≠ index + 1 := by
        intro hn; rw [hn, hex] at hfree; exact Bool.noConfusion hfree
      exact ih (index + 1) n (by omega) (by omega) hfree

/-- Among the first `existing.length + 1` names one is free. -/
theorem exists_free_traceFileName (existing : List String) :
    ∃ n, 0 < n ∧ n ≤ existing.length + 1 ∧ existing.contains (traceFileName n) = false := by
  by_contra hall
  have hsub : (List.range (existing.length + 1)).map (fun i => traceFileName (i + 1)) ⊆
      existing := by
    intro x hx
    obtain ⟨i, hi, rfl⟩ := List.mem_map.1 hx
    have hi' := List.mem_range.1 hi
    by_contra hmem
    apply hall
    refine ⟨i + 1, Nat.succ_pos _, by omega, ?_⟩
    cases hc : existing.contains (traceFileName (i + 1))
    · rfl
    · exact absurd (List.elem_iff.1 hc) hmem
  have hnodup : ((List.range (existing.length + 1)).map
      (fun i => traceFileName (i + 1))).Nodup :=
    List.Nodup.map (fun a b h => Nat.succ_injective (traceFileName_injective h))
      (List.nodup_range _)
  have := (hnodup.subperm hsub).length_le
  simp at this

/-- The name loop with any fuel above the number of existing files: it returns the
least index from 1 whose name is free. -/
theorem findUniqueTraceFile_spec (existing : List String) (fuel : Nat)
    (hfuel : existing.length + 1 ≤ fuel) :
    ∃ n, findUniqueTraceFile (fun f => existing.contains f) fuel 0 = some n ∧
      1 ≤ n ∧ n ≤ existing.length + 1 ∧ traceFileName n ∉ existing ∧
      ∀ m, 1 ≤ m → m < n → traceFileName m ∈ existing := by
  obtain ⟨k, hk0, hk1, hkfree⟩ := exists_free_traceFileName existing
  have hsome := findUniqueTraceFile_isSome (fun f => existing.contains f) fuel 0 k hk0
    (by omega) hkfree
  obtain ⟨n, hn⟩ := Option.isSome_iff_exists.1 hsome
  obtain ⟨h1, _, h3, h4⟩ := findUniqueTraceFile_some _ fuel 0 n hn
  refine ⟨n, hn, h1, ?_, ?_, ?_⟩
  · by_contra hlt
    have := h4 k hk0 (by omega)
    rw [show existing.contains (traceFileName k) = true from this] at hkfree
    exact Bool.noConfusion hkfree
  · intro hmem
    have : existing.contains (traceFileName n) = true := List.elem_iff.2 hmem
    rw [show existing.contains (traceFileName n) = false from h3] at this
    exact Bool.noConfusion this
  · intro m hm1 hm2
    exact List.elem_iff.1 (h4 m hm1 hm2)

/-! ## Trace capture: the resources touched -/

theorem lookup_isNone_iff {β : Type} (T : List (Nat × β)) (p : Nat) :
    (T.lookup p).isNone = true ↔ p ∉ T.map Prod.fst := by
  rw [Option.isNone_iff_eq_none, List.lookup_eq_none_iff]
  constructor
  · intro h hmem
    obtain ⟨e, he, rfl⟩ := List.mem_map.1 hmem
    simpa using h e he
  · intro h e he
    have : p ≠ e.1 := fun hp => h (List.mem_map.2 ⟨e, he, hp.symm⟩)
    simpa using this

theorem TraceRequest_tracingResources (self : FileStreamer) (q : UploadRequest) :
    (self.TraceRequest q).m_tracingResources =
      if (self.m_tracingResources.lookup q.in_pDstResource.m_ptr).isNone then
        self.m_tracingResources ++ [(q.in_pDstResource.m_ptr, q.in_pDstResource.m_desc)]
      else self.m_tracingResources := by
  simp only [FileStreamer.TraceRequest]
  split_ifs <;> rfl

theorem TraceRequest_captureTrace (self : FileStreamer) (q : UploadRequest) :
    (self.TraceRequest q).m_captureTrace = self.m_captureTrace := by
  simp only [FileStreamer.TraceRequest]
  split_ifs <;> rfl

theorem TraceRequest_resources (self : FileStreamer) (q : UploadRequest) :
    (self.TraceRequest q).m_trace.resources = self.m_trace.resources := by
  simp only [FileStreamer.TraceRequest]
  split_ifs <;> rfl

theorem foldl_TraceRequest_captureTrace (qs : List UploadRequest) :
    ∀ self : FileStreamer,
      (qs.foldl FileStreamer.TraceRequest self).m_captureTrace = self.m_captureTrace := by
  induction qs with
  | nil => intro self; rfl
  | cons q rest ih =>
    intro self
    rw [List.foldl_cons, ih, TraceRequest_captureTrace]

theorem foldl_TraceRequest_resources (qs : List UploadRequest) :
    ∀ self : FileStreamer,
      (qs.foldl FileStreamer.TraceRequest self).m_trace.resources = self.m_trace.resources := by
  induction qs with
  | nil => intro self; rfl
  | cons q rest ih =>
    intro self
    rw [List.foldl_cons, ih, TraceRequest_resources]

/-- The map `m_tracingResources` after a run of `TraceRequest` calls: its keys stay
distinct, they are the old keys and the destinations of the calls, and a new
entry holds the description of the first call with its destination. -/
theorem foldl_TraceRequest_tracingResources (qs : List UploadRequest) :
    ∀ self : FileStreamer, (self.m_tracingResources.map Prod.fst).Nodup →
      ((qs.foldl FileStreamer.TraceRequest self).m_tracingResources.map Prod.fst).Nodup ∧
      (∀ p, p ∈ (qs.foldl FileStreamer.TraceRequest self).m_tracingResources.map Prod.fst ↔
        p ∈ self.m_tracingResources.map Prod.fst ∨
        p ∈ qs.map (fun q => q.in_pDstResource.m_ptr)) ∧
      (∀ e ∈ (qs.foldl FileStreamer.TraceRequest self).m_tracingResources,
        e ∈ self.m_tracingResources ∨
        (e.1 ∉ self.m_tracingResources.map Prod.fst ∧
          (qs.find? (fun q => q.in_pDstResource.m_ptr == e.1)).map
            (fun q => q.in_pDstResource.m_desc) = some e.2)) := by
  induction qs with
  | nil =>
    intro self hn
    exact ⟨hn, fun p => by simp, fun e he => Or.inl he⟩
  | cons q rest ih =>
    intro self hn
    rw [List.foldl_cons]
    by_cases hnew : (self.m_tracingResources.lookup q.in_pDstResource.m_ptr).isNone = true
    · have hT : (self.TraceRequest q).m_tracingResources =
          self.m_tracingResources ++ [(q.in_pDstResource.m_ptr, q.in_pDstResource.m_desc)] := by
        rw [TraceRequest_tracingResources, if_pos hnew]
      have hfresh := (lookup_isNone_iff _ _).1 hnew
      have hn1 : ((self.TraceRequest q).m_tracingResources.map Prod.fst).Nodup := by
        rw [hT, List.map_append, List.nodup_append]
        refine ⟨hn, List.nodup_singleton _, ?_⟩
        intro x hx hx'
        simp only [List.map_cons, List.map_nil, List.mem_singleton] at hx'
        exact hfresh (hx' ▸ hx)
      obtain ⟨h1, h2, h3⟩ := ih (self.TraceRequest q) hn1
      refine ⟨h1, ?_, ?_⟩
      · intro p
        rw [h2 p, hT]
        simp only [List.map_append, List.map_cons, List.map_nil, List.mem_append,
          List.mem_singleton, List.mem_cons]
        tauto
      · intro e he
        rcases h3 e he with hmem | ⟨hk, hfind⟩
        · rw [hT, List.mem_append, List.mem_singleton] at hmem
          rcases hmem with hmem | rfl
          · exact Or.inl hmem
          · exact Or.inr ⟨hfresh, by simp [List.find?_cons]⟩
        · rw [hT] at hk
          simp only [List.map_append, List.map_cons, List.map_nil, List.mem_append,
            List.mem_singleton, not_or] at hk
          refine Or.inr ⟨hk.1, ?_⟩
          have hne : (q.in_pDstResource.m_ptr == e.1) = false := by
            rw [beq_eq_false_iff_ne]
            intro h
            exact hk.2 h.symm
          rw [List.find?_cons, hne]
          exact hfind
    · have hT : (self.TraceRequest q).m_tracingResources = self.m_tracingResources := by
        rw [TraceRequest_tracingResources, if_neg hnew]
      have hold : q.in_pDstResource.m_ptr ∈ self.m_tracingResources.map Prod.fst := by
        by_contra hc
        exact hnew ((lookup_isNone_iff _ _).2 hc)
      obtain ⟨h1, h2, h3⟩ := ih (self.TraceRequest q) (by rw [hT]; exact hn)
      refine ⟨h1, ?_, ?_⟩
      · intro p
        rw [h2 p, hT]
        simp only [List.map_cons, List.mem_cons]
        constructor
        · rintro (h | h)
          · exact Or.inl h
          · exact Or.inr (Or.inr h)
        · rintro (h | h | h)
          · exact Or.inl h
          · exact Or.inl (h ▸ hold)
          · exact Or.inr h
      · intro e he
        rcases h3 e he with hmem | ⟨hk, hfind⟩
        · exact Or.inl (hT ▸ hmem)
        · rw [hT] at hk
          refine Or.inr ⟨hk, ?_⟩
          have hne : (q.in_pDstResource.m_ptr == e.1) = false := by
            rw [beq_eq_false_iff_ne]
            intro h
            exact hk (h ▸ hold)
          rw [List.find?_cons, hne]
          exact hfind

/-- The first loop of the destructor appends one object per entry when it starts
at the end of the array. -/
theorem writeTraceResources_foldl (entries : List (Nat × D3D12_RESOURCE_DESC)) :
    ∀ root : TraceFile,
      entries.foldl
        (fun (acc : TraceFile × Nat) d =>
          ({ acc.1 with
              resources := jsonAssign acc.1.resources acc.2 (traceResourceObject d) },
            acc.2 + 1))
        (root, root.resources.length) =
      ({ root with
          resources := root.resources ++ entries.map (fun d => some (traceResourceObject d)) },
        root.resources.length + entries.length) := by
  induction entries with
  | nil => intro root; simp
  | cons d rest ih =>
    intro root
    rw [List.foldl_cons]
    have := ih { root with resources := root.resources ++ [some (traceResourceObject d)] }
    simp only [List.length_append, List.length_singleton] at this
    simp only [jsonAssign_length]
    rw [this]
    simp [List.append_assoc, Nat.add_assoc, Nat.add_comm 1]

theorem writeTraceResources_eq (entries : List (Nat × D3D12_RESOURCE_DESC)) (root : TraceFile)
    (hr : root.resources = []) :
    writeTraceResources entries root =
      { root with resources := entries.map (fun d => some (traceResourceObject d)) } := by
  have := writeTraceResources_foldl entries root
  rw [hr] at this
  simp only [List.length_nil, List.nil_append, Nat.zero_add] at this
  unfold writeTraceResources
  rw [this]

/-- The destructor of a capturing streamer writes one file, under the least free
name. -/
theorem destructor_capturing
    (iterate : List (Nat × D3D12_RESOURCE_DESC) → List (Nat × D3D12_RESOURCE_DESC))
    (existing : List String) (self : FileStreamer) (hc : self.m_captureTrace = true) :
    ∃ n, self.destructor iterate existing =
        [(traceFileName n, writeTraceResources (iterate self.m_tracingResources) self.m_trace)] ∧
      findUniqueTraceFile (fun f => existing.contains f) (existing.length + 1) 0 = some n ∧
      1 ≤ n ∧ n ≤ existing.length + 1 ∧ traceFileName n ∉ existing ∧
      ∀ m, 1 ≤ m → m < n → traceFileName m ∈ existing := by
  obtain ⟨n, hn, h1, h2, h3, h4⟩ := findUniqueTraceFile_spec existing _ (Nat.le_refl _)
  refine ⟨n, ?_, hn, h1, h2, h3, h4⟩
  simp only [FileStreamer.destructor, hc, if_true, hn]

/-- C13: for every sequence of `TraceRequest` calls on a capturing streamer that
has traced nothing yet, the destructor writes one document whose `resources`
array has no null, holds every destination handle of the calls exactly once (as
many entries as there are distinct destinations), and each entry carries the
handle and the format, width, height and mip count (as 32-bit values) that the
first call for that destination captured.  The traversal order of the map is
any rearrangement `iterate`. -/
theorem trace_resources_one_per_destination
    (iterate : List (Nat × D3D12_RESOURCE_DESC) → List (Nat × D3D12_RESOURCE_DESC))
    (hperm : ∀ l, (iterate l).Perm l)
    (existing : List String) (self : FileStreamer) (qs : List UploadRequest)
    (hc : self.m_captureTrace = true)
    (ht : self.m_tracingResources = [])
    (hr : self.m_trace.resources = []) :
    ∃ name root,
      (qs.foldl FileStreamer.TraceRequest self).destructor iterate existing = [(name, root)] ∧
      (∀ x ∈ root.resources, x ≠ none) ∧
      ((root.resources.filterMap id).map (fun o => o.rsrc)).Nodup ∧
      (∀ p, p ∈ (root.resources.filterMap id).map (fun o => o.rsrc) ↔
        p ∈ qs.map (fun q => q.in_pDstResource.m_ptr)) ∧
      root.resources.length = (qs.map (fun q => q.in_pDstResource.m_ptr)).dedup.length ∧
      (∀ o, some o ∈ root.resources →
        ∃ q, qs.find? (fun q => q.in_pDstResource.m_ptr == o.rsrc) = some q ∧
          o.rsrc = q.in_pDstResource.m_ptr ∧
          o.fmt = q.in_pDstResource.m_desc.Format % UINT_RANGE ∧
          o.dim = (q.in_pDstResource.m_desc.Width % UINT_RANGE,
            q.in_pDstResource.m_desc.Height % UINT_RANGE,
            q.in_pDstResource.m_desc.MipLevels % UINT_RANGE)) := by
  obtain ⟨h1, h2, h3⟩ := foldl_TraceRequest_tracingResources qs self (by rw [ht]; exact List.nodup_nil)
  obtain ⟨n, hn, _⟩ := destructor_capturing iterate existing
    (qs.foldl FileStreamer.TraceRequest self)
    ((foldl_TraceRequest_captureTrace qs self).trans hc)
  rw [writeTraceResources_eq _ _ ((foldl_TraceRequest_resources qs self).trans hr)] at hn
  have hp := hperm (qs.foldl FileStreamer.TraceRequest self).m_tracingResources
  have hkeys : ∀ l : List (Nat × D3D12_RESOURCE_DESC),
      ((l.map (fun d => some (traceResourceObject d))).filterMap id).map (fun o => o.rsrc) =
        l.map Prod.fst := by
    intro l
    induction l with
    | nil => rfl
    | cons a l ih => simpa [traceResourceObject] using ih
  have hnodup : ((iterate (qs.foldl FileStreamer.TraceRequest self).m_tracingResources).map
      Prod.fst).Nodup := ((hp.map Prod.fst).nodup_iff).2 h1
  have hmem : ∀ p,
      p ∈ (iterate (qs.foldl FileStreamer.TraceRequest self).m_tracingResources).map Prod.fst ↔
        p ∈ qs.map (fun q => q.in_pDstResource.m_ptr) := by
    intro p
    rw [(hp.map Prod.fst).mem_iff, h2 p, ht]
    simp
  refine ⟨_, _, hn, ?_, ?_, ?_, ?_, ?_⟩
  · intro x hx
    obtain ⟨d, _, rfl⟩ := List.mem_map.1 hx
    exact Option.some_ne_none _
  · show (((iterate _).map _).filterMap id |>.map _).Nodup
    rw [hkeys]
    exact hnodup
  · intro p
    show p ∈ (((iterate _).map _).filterMap id |>.map _) ↔ _
    rw [hkeys]
    exact hmem p
  · show ((iterate _).map _).length = _
    rw [List.length_map, ← List.length_map _ Prod.fst]
    apply List.Perm.length_eq
    rw [List.perm_ext_iff_of_nodup hnodup (List.nodup_dedup _)]
    intro p
    rw [hmem p, List.mem_dedup]
  · intro o ho
    obtain ⟨d, hd, hdo⟩ := List.mem_map.1 ho
    have hd' := (hp.mem_iff).1 hd
    rcases h3 d hd' with hold | ⟨_, hfind⟩
    · rw [ht] at hold
      exact absurd hold (List.not_mem_nil _)
    · have ho' : o = traceResourceObject d := (Option.some.inj hdo).symm
      cases hq : qs.find? (fun q => q.in_pDstResource.m_ptr == d.1) with
      | none => rw [hq] at hfind; simp at hfind
      | some q =>
        rw [hq] at hfind
        have hdesc : q.in_pDstResource.m_desc = d.2 := by simpa using hfind
        have hptr : q.in_pDstResource.m_ptr = d.1 := by
          simpa using List.find?_some hq
        refine ⟨q, ?_, ?_, ?_, ?_⟩
        · rw [ho']; exact hq
        · rw [ho', hptr]; rfl
        · rw [ho', hdesc]; rfl
        · rw [ho', hdesc]; rfl

/-- Witness for C13: the six requests of `sampleTraceSession`, which touch two
resources, traced in one run. -/
theorem trace_resources_one_per_destination_witness :
    freshCaptureStreamer.m_captureTrace = true ∧
    freshCaptureStreamer.m_tracingResources = [] ∧
    freshCaptureStreamer.m_trace.resources = [] ∧
    ∃ name root,
      (sampleTraceSession.flatten.foldl FileStreamer.TraceRequest
        freshCaptureStreamer).destructor id [] = [(name, root)] ∧
      ((root.resources.filterMap id).map (fun o => o.rsrc)).Nodup ∧
      root.resources.length =
        (sampleTraceSession.flatten.map (fun q => q.in_pDstResource.m_ptr)).dedup.length ∧
      root.resources =
        [some { rsrc := 4096, fmt := 98, dim := (16384, 16384, 15) },
         some { rsrc := 8192, fmt := 71, dim := (4096, 2048, 13) }] :=
  have ⟨name, root, h1, _, h3, _, h5, _⟩ :=
    trace_resources_one_per_destination id (fun l => List.Perm.refl l) []
      freshCaptureStreamer sampleTraceSession.flatten rfl rfl rfl
  have hroot : [(name, root)].map (fun f => f.2.resources) =
      [[some { rsrc := 4096, fmt := 98, dim := (16384, 16384, 15) },
        some { rsrc := 8192, fmt := 71, dim := (4096, 2048, 13) }]] :=
    h1 ▸ (by decide)
  ⟨rfl, rfl, rfl, name, root, h1, h3, h5, List.head_eq_of_cons_eq hroot⟩

/-- C14: a capturing streamer destroyed where the files `existing` exist writes its
trace exactly once, to the name with the least index from 1 that is not among
`existing`; the name loop returns that same index with any bound on its
iterations above the number of existing files, and the index is at most that
number plus one.  A streamer that does not capture writes no file. -/
theorem trace_file_naming
    (iterate : List (Nat × D3D12_RESOURCE_DESC) → List (Nat × D3D12_RESOURCE_DESC))
    (existing : List String) (self : FileStreamer) :
    (self.m_captureTrace = true →
      ∃ n root, self.destructor iterate existing = [(traceFileName n, root)] ∧
        1 ≤ n ∧ n ≤ existing.length + 1 ∧
        traceFileName n ∉ existing ∧
        (∀ m, 1 ≤ m → m < n → traceFileName m ∈ existing) ∧
        (∀ fuel, existing.length + 1 ≤ fuel →
          findUniqueTraceFile (fun f => existing.contains f) fuel 0 = some n)) ∧
    (self.m_captureTrace = false → self.destructor iterate existing = []) := by
  constructor
  · intro hc
    obtain ⟨n, hn, _, h1, h2, h3, h4⟩ := destructor_capturing iterate existing self hc
    refine ⟨n, _, hn, h1, h2, h3, h4, ?_⟩
    intro fuel hfuel
    obtain ⟨k, hk, k1, _, k3, k4⟩ := findUniqueTraceFile_spec existing fuel hfuel
    rw [hk]
    congr 1
    rcases Nat.lt_trichotomy k n with hlt | heq | hgt
    · exact absurd (h4 k k1 hlt) k3
    · exact heq
    · exact absurd (k4 n h1 hgt) h3
  · intro hc
    simp [FileStreamer.destructor, hc]

/-- Witness for C14: with the names 1 and 2 taken the trace goes to name 3. -/
theorem trace_file_naming_witness :
    freshCaptureStreamer.m_captureTrace = true ∧
    traceFileName 3 = "uploadTraceFile_3.json" ∧
    ∃ n root, freshCaptureStreamer.destructor id
        ["uploadTraceFile_2.json", "notes.txt", "uploadTraceFile_1.json"] =
          [(traceFileName n, root)] ∧
      1 ≤ n ∧ n ≤ 4 ∧ traceFileName n = "uploadTraceFile_3.json" :=
  have ⟨n, root, h1, h2, h3, _⟩ :=
    (trace_file_naming id ["uploadTraceFile_2.json", "notes.txt", "uploadTraceFile_1.json"]
      freshCaptureStreamer).1 rfl
  have hname : [(traceFileName n, root)].map (fun f => f.1) = ["uploadTraceFile_3.json"] :=
    h1 ▸ (by decide)
  ⟨rfl, by decide, n, root, h1, h2, h3, List.head_eq_of_cons_eq hname⟩

/-! ## The BC7 palette -/

theorem fourEndpoints_eq (x : Nat) (hx : x ≤ 0x7f) :
    fourEndpoints x = x + x * 2 ^ 7 + x * 2 ^ 14 + x * 2 ^ 21 := by
  have h : ∀ y < 128, fourEndpoints y = y + y * 2 ^ 7 + y * 2 ^ 14 + y * 2 ^ 21 := by
    decide
  exact h x (by omega)

theorem lor_eq_add_of_lt (i a b : Nat) (hb : b < 2 ^ i) : b ||| a * 2 ^ i = b + a * 2 ^ i := by
  rw [Nat.lor_comm, Nat.mul_comm a, ← Nat.mul_add_lt_is_or hb, Nat.add_comm]

/-- The two words of a block in terms of the four-endpoint values. -/
theorem bc7Block_eq (r g b : Nat) (hr : r ≤ 0x7f) (hg : g ≤ 0x7f) (hb : b ≤ 0x7f) :
    (bc7Block r g b).1 =
        8 + fourEndpoints r * 2 ^ 10 + fourEndpoints g % 2 ^ 26 * 2 ^ 38 ∧
      (bc7Block r g b).2 = fourEndpoints g / 2 ^ 26 + fourEndpoints b * 2 ^ 2 ∧
      fourEndpoints r < 2 ^ 28 ∧ fourEndpoints g < 2 ^ 28 ∧ fourEndpoints b < 2 ^ 28 := by
  have hr4 : fourEndpoints r < 2 ^ 28 := by rw [fourEndpoints_eq r hr]; omega
  have hg4 : fourEndpoints g < 2 ^ 28 := by rw [fourEndpoints_eq g hg]; omega
  have hb4 : fourEndpoints b < 2 ^ 28 := by rw [fourEndpoints_eq b hb]; omega
  have s1 : shl64 (fourEndpoints r) 10 = fourEndpoints r * 2 ^ 10 := by
    rw [shl64, Nat.shiftLeft_eq, UINT64_RANGE]; omega
  have s2 : shl64 (fourEndpoints g) 38 = fourEndpoints g % 2 ^ 26 * 2 ^ 38 := by
    rw [shl64, Nat.shiftLeft_eq, UINT64_RANGE]; omega
  have s3 : shl64 (fourEndpoints b) 2 = fourEndpoints b * 2 ^ 2 := by
    rw [shl64, Nat.shiftLeft_eq, UINT64_RANGE]; omega
  refine ⟨?_, ?_, hr4, hg4, hb4⟩
  · show (0x08 ||| shl64 (fourEndpoints r) 10) ||| shl64 (fourEndpoints g) 38 = _
    rw [s1, s2, lor_eq_add_of_lt 10 _ 8 (by decide), lor_eq_add_of_lt 38 _ _ (by omega)]
  · show fourEndpoints g >>> 26 ||| shl64 (fourEndpoints b) 2 = _
    rw [s3, Nat.shiftRight_eq_div_pow, lor_eq_add_of_lt 2 _ _ (by omega)]

theorem flatten_replicate_pair_get (n x y : Nat) :
    ∀ j, j < n →
      ((List.replicate n [x, y]).flatten).get? (2 * j) = some x ∧
      ((List.replicate n [x, y]).flatten).get? (2 * j + 1) = some y := by
  induction n with
  | zero => intro j hj; omega
  | succ n ih =>
    intro j hj
    cases j with
    | zero => simp [List.replicate_succ]
    | succ j =>
      have := ih j (by omega)
      simpa [List.replicate_succ, Nat.mul_succ] using this

/-- The fields of a 128-bit number laid out as mode, red, green and blue. -/
theorem bc7_layout_fields (R G B : Nat) (hR : R < 2 ^ 28) (hG : G < 2 ^ 28) (hB : B < 2 ^ 28) :
    (8 + R * 2 ^ 10 + G * 2 ^ 38 + B * 2 ^ 66) % 2 ^ 10 = 8 ∧
    (8 + R * 2 ^ 10 + G * 2 ^ 38 + B * 2 ^ 66) / 2 ^ 10 % 2 ^ 28 = R ∧
    (8 + R * 2 ^ 10 + G * 2 ^ 38 + B * 2 ^ 66) / 2 ^ 38 % 2 ^ 28 = G ∧
    (8 + R * 2 ^ 10 + G * 2 ^ 38 + B * 2 ^ 66) / 2 ^ 66 = B ∧
    8 + R * 2 ^ 10 + G * 2 ^ 38 + B * 2 ^ 66 < 2 ^ 94 := by
  have q1 : (8 + R * 2 ^ 10 + G * 2 ^ 38 + B * 2 ^ 66) / 2 ^ 10 =
      R + G * 2 ^ 28 + B * 2 ^ 56 := by omega
  have q2 : (8 + R * 2 ^ 10 + G * 2 ^ 38 + B * 2 ^ 66) / 2 ^ 38 = G + B * 2 ^ 28 := by omega
  have q3 : (8 + R * 2 ^ 10 + G * 2 ^ 38 + B * 2 ^ 66) / 2 ^ 66 = B := by omega
  rw [q1, q2, q3]
  refine ⟨by omega, by omega, by omega, rfl, by omega⟩

/-- The block and the tile computed from quantised channels of at most `0x7f`. -/
theorem bc7Block_layout (r g b : Nat) (hr : r ≤ 0x7f) (hg : g ≤ 0x7f) (hb : b ≤ 0x7f) :
    (bc7Block r g b).1 < UINT64_RANGE ∧ (bc7Block r g b).2 < UINT64_RANGE ∧
    (bc7Block r g b).1 + (bc7Block r g b).2 * 2 ^ 64 =
      0x08 + (r + r * 2 ^ 7 + r * 2 ^ 14 + r * 2 ^ 21) * 2 ^ 10 +
        (g + g * 2 ^ 7 + g * 2 ^ 14 + g * 2 ^ 21) * 2 ^ 38 +
        (b + b * 2 ^ 7 + b * 2 ^ 14 + b * 2 ^ 21) * 2 ^ 66 ∧
    ((bc7Block r g b).1 + (bc7Block r g b).2 * 2 ^ 64) % 2 ^ 10 = 0x08 ∧
    ((bc7Block r g b).1 + (bc7Block r g b).2 * 2 ^ 64) / 2 ^ 10 % 2 ^ 28 =
      r + r * 2 ^ 7 + r * 2 ^ 14 + r * 2 ^ 21 ∧
    ((bc7Block r g b).1 + (bc7Block r g b).2 * 2 ^ 64) / 2 ^ 38 % 2 ^ 28 =
      g + g * 2 ^ 7 + g * 2 ^ 14 + g * 2 ^ 21 ∧
    ((bc7Block r g b).1 + (bc7Block r g b).2 * 2 ^ 64) / 2 ^ 66 =
      b + b * 2 ^ 7 + b * 2 ^ 14 + b * 2 ^ 21 ∧
    (bc7Block r g b).1 + (bc7Block r g b).2 * 2 ^ 64 < 2 ^ 94 ∧
    65536 / 16 = 4096 ∧
    (bc7Tile r g b).length = 2 * 4096 ∧
    (∀ j, j < 4096 →
      (bc7Tile r g b).get? (2 * j) = some (bc7Block r g b).1 ∧
      (bc7Tile r g b).get? (2 * j + 1) = some (bc7Block r g b).2) := by
  obtain ⟨h0, h1, hr4, hg4, hb4⟩ := bc7Block_eq r g b hr hg hb
  have htile := flatten_replicate_pair_get 4096 (bc7Block r g b).1 (bc7Block r g b).2
  have hlen : (bc7Tile r g b).length = 2 * 4096 := by
    simp only [bc7Tile, D3D12_TILED_RESOURCE_TILE_SIZE_IN_BYTES, List.length_flatten,
      List.map_replicate, List.sum_replicate, List.length_cons, List.length_nil]
    rfl
  have hsum : (bc7Block r g b).1 + (bc7Block r g b).2 * 2 ^ 64 =
      8 + fourEndpoints r * 2 ^ 10 + fourEndpoints g * 2 ^ 38 + fourEndpoints b * 2 ^ 66 := by
    rw [h0, h1]; omega
  obtain ⟨f1, f2, f3, f4, f5⟩ :=
    bc7_layout_fields (fourEndpoints r) (fourEndpoints g) (fourEndpoints b) hr4 hg4 hb4
  have hw0 : (bc7Block r g b).1 < UINT64_RANGE := by
    rw [h0, UINT64_RANGE]; omega
  have hw1 : (bc7Block r g b).2 < UINT64_RANGE := by
    rw [h1, UINT64_RANGE]; omega
  rw [hsum]
  rw [fourEndpoints_eq r hr, fourEndpoints_eq g hg, fourEndpoints_eq b hb] at f1 f2 f3 f4 f5 ⊢
  exact ⟨hw0, hw1, rfl, f1, f2, f3, f4, f5, by decide, hlen, htile⟩

/-- C19: `InitializeBC7` returns one tile per entry of the colour table.  With the
quantised channels `r`, `g`, `b` of the entry, each at most `0x7f`, every one of
the `65536 / 16 = 4096` blocks of the tile consists of two 64-bit words which,
read as one 128-bit little-endian number, are `0x08 + R4 * 2^10 + G4 * 2^38 +
B4 * 2^66` with `X4 = x + x * 2^7 + x * 2^14 + x * 2^21`: the low ten bits hold
the mode `0x08`, the groups of 28 bits from bits 10, 38 and 66 hold `R4`, `G4`
and `B4`, and nothing is set from bit 94. -/
theorem bc7_block_layout {α : Type} (ops : FloatOps α) (m_lutSize : Nat)
    (m_lut : List (α × α × α)) (hsize : m_lutSize ≤ m_lut.length) :
    ∃ tiles, InitializeBC7 ops m_lutSize m_lut = .ok tiles ∧ tiles.length = m_lutSize ∧
      ∀ i, i < m_lutSize →
        ∃ color tile r g b, m_lut.get? i = some color ∧ tiles.get? i = some tile ∧
          r = quantise7 ops color.1 ∧ g = quantise7 ops color.2.1 ∧
          b = quantise7 ops color.2.2 ∧
          r ≤ 0x7f ∧ g ≤ 0x7f ∧ b ≤ 0x7f ∧
          65536 / 16 = 4096 ∧ tile.length = 2 * 4096 ∧
          ∀ j, j < 4096 →
            ∃ w0 w1, tile.get? (2 * j) = some w0 ∧ tile.get? (2 * j + 1) = some w1 ∧
              w0 < 2 ^ 64 ∧ w1 < 2 ^ 64 ∧
              w0 + w1 * 2 ^ 64 =
                0x08 + (r + r * 2 ^ 7 + r * 2 ^ 14 + r * 2 ^ 21) * 2 ^ 10 +
                  (g + g * 2 ^ 7 + g * 2 ^ 14 + g * 2 ^ 21) * 2 ^ 38 +
                  (b + b * 2 ^ 7 + b * 2 ^ 14 + b * 2 ^ 21) * 2 ^ 66 ∧
              (w0 + w1 * 2 ^ 64) % 2 ^ 10 = 0x08 ∧
              (w0 + w1 * 2 ^ 64) / 2 ^ 10 % 2 ^ 28 = r + r * 2 ^ 7 + r * 2 ^ 14 + r * 2 ^ 21 ∧
              (w0 + w1 * 2 ^ 64) / 2 ^ 38 % 2 ^ 28 = g + g * 2 ^ 7 + g * 2 ^ 14 + g * 2 ^ 21 ∧
              (w0 + w1 * 2 ^ 64) / 2 ^ 66 = b + b * 2 ^ 7 + b * 2 ^ 14 + b * 2 ^ 21 ∧
              w0 + w1 * 2 ^ 64 < 2 ^ 94 := by
  refine ⟨_, by rw [InitializeBC7, if_pos hsize], ?_, ?_⟩
  · simp [Nat.min_eq_left hsize]
  · intro i hi
    have hlt : i < m_lut.length := Nat.lt_of_lt_of_le hi hsize
    have hq : ∀ c : α, quantise7 ops c ≤ 0x7f := fun c => Nat.min_le_right _ _
    obtain ⟨k0, k1, k2, k3, k4, k5, k6, k7, k8, k9, k10⟩ :=
      bc7Block_layout (quantise7 ops (m_lut.get ⟨i, hlt⟩).1)
        (quantise7 ops (m_lut.get ⟨i, hlt⟩).2.1) (quantise7 ops (m_lut.get ⟨i, hlt⟩).2.2)
        (hq _) (hq _) (hq _)
    refine ⟨m_lut.get ⟨i, hlt⟩, _, _, _, _, List.get?_eq_get hlt, ?_, rfl, rfl, rfl,
      hq _, hq _, hq _, k8, k9, ?_⟩
    · simp [List.getElem?_take, hi, List.getElem?_eq_getElem hlt]
    · intro j hj
      exact ⟨_, _, (k10 j hj).1, (k10 j hj).2, k0, k1, k2, k3, k4, k5, k6, k7⟩

/-- Witness for C19: the sixteen entries of the sample table. -/
theorem bc7_block_layout_witness :
    16 ≤ sampleStatics.m_lut.length ∧
    ∃ tiles, InitializeBC7 sampleFloatOps 16 sampleStatics.m_lut = .ok tiles ∧
      tiles.length = 16 ∧
      (bc7Block 127 31 7).1 + (bc7Block 127 31 7).2 * 2 ^ 64 =
        0x08 + (127 + 127 * 2 ^ 7 + 127 * 2 ^ 14 + 127 * 2 ^ 21) * 2 ^ 10 +
          (31 + 31 * 2 ^ 7 + 31 * 2 ^ 14 + 31 * 2 ^ 21) * 2 ^ 38 +
          (7 + 7 * 2 ^ 7 + 7 * 2 ^ 14 + 7 * 2 ^ 21) * 2 ^ 66 :=
  have ⟨tiles, h1, h2, _⟩ :=
    bc7_block_layout sampleFloatOps 16 sampleStatics.m_lut (by decide)
  ⟨by decide, tiles, h1, h2, by decide⟩

/-! ## Visualization data -/

theorem and_0x0f (c : Nat) : c &&& 0x0f = c % 16 :=
  Nat.and_pow_two_sub_one_eq_mod c 4

theorem GetVisualizationData_streamer (DATA_VIZ_TILE : Nat) (self : FileStreamer)
    (c : Nat) (in_coord : D3D12_TILED_RESOURCE_COORDINATE) (in_format : Nat) :
    (self.GetVisualizationData DATA_VIZ_TILE c in_coord in_format).2.1 = self := rfl

theorem GetVisualizationData_random (DATA_VIZ_TILE : Nat) (self : FileStreamer)
    (c : Nat) (in_coord : D3D12_TILED_RESOURCE_COORDINATE) (in_format : Nat)
    (hmode : self.m_visualizationMode = DATA_VIZ_TILE) :
    (self.GetVisualizationData DATA_VIZ_TILE c in_coord in_format).1.2 = c % 16 ∧
    (self.GetVisualizationData DATA_VIZ_TILE c in_coord in_format).2.2 =
      (c + 1) % UINT_RANGE := by
  have h15 : c % 16 ≤ 15 := Nat.le_of_lt_succ (Nat.mod_lt _ (by decide))
  simp only [FileStreamer.GetVisualizationData, hmode, beq_self_eq_true, if_true, and_0x0f,
    Nat.min_eq_left h15]
  constructor <;> first | trivial | (split_ifs <;> rfl)

theorem GetVisualizationData_fixed (DATA_VIZ_TILE : Nat) (self : FileStreamer)
    (c : Nat) (in_coord : D3D12_TILED_RESOURCE_COORDINATE) (in_format : Nat)
    (hmode : self.m_visualizationMode ≠ DATA_VIZ_TILE) :
    (self.GetVisualizationData DATA_VIZ_TILE c in_coord in_format).1.2 =
      min in_coord.Subresource 15 ∧
    (self.GetVisualizationData DATA_VIZ_TILE c in_coord in_format).2.2 = c := by
  have hne : (DATA_VIZ_TILE == self.m_visualizationMode) = false := by
    rw [beq_eq_false_iff_ne]; exact fun h => hmode h.symm
  simp only [FileStreamer.GetVisualizationData, hne, Bool.false_eq_true, if_false]
  constructor <;> first | trivial | (split_ifs <;> rfl)

theorem GetVisualizationData_table (DATA_VIZ_TILE : Nat) (self : FileStreamer)
    (c : Nat) (in_coord : D3D12_TILED_RESOURCE_COORDINATE) (in_format : Nat) :
    (self.GetVisualizationData DATA_VIZ_TILE c in_coord in_format).1.1 =
      if in_format = DXGI_FORMAT_BC1_TYPELESS ∨ in_format = DXGI_FORMAT_BC1_UNORM ∨
          in_format = DXGI_FORMAT_BC1_UNORM_SRGB then PaletteTable.m_BC1
      else PaletteTable.m_BC7 := by
  simp only [FileStreamer.GetVisualizationData]
  by_cases h1 : in_format = DXGI_FORMAT_BC1_TYPELESS
  · simp [h1]
  · by_cases h2 : in_format = DXGI_FORMAT_BC1_UNORM
    · simp [h2]
    · by_cases h3 : in_format = DXGI_FORMAT_BC1_UNORM_SRGB
      · simp [h3]
      · simp [h1, h2, h3]

/-- The rows of consecutive calls in random-tile mode, from any counter. -/
theorem visualizationRows_random (DATA_VIZ_TILE : Nat) (self : FileStreamer)
    (hmode : self.m_visualizationMode = DATA_VIZ_TILE)
    (calls : List (D3D12_TILED_RESOURCE_COORDINATE × Nat)) :
    ∀ c, self.visualizationRows DATA_VIZ_TILE c calls =
      (List.range calls.length).map (fun k => (c + k) % 16) := by
  induction calls with
  | nil => intro c; rfl
  | cons call rest ih =>
    intro c
    obtain ⟨in_coord, in_format⟩ := call
    obtain ⟨h1, h2⟩ := GetVisualizationData_random DATA_VIZ_TILE self c in_coord in_format hmode
    rw [FileStreamer.visualizationRows]
    simp only [GetVisualizationData_streamer, h1, h2, ih]
    rw [List.length_cons, List.range_succ_eq_map, List.map_cons, List.map_map]
    congr 1
    apply List.map_congr_left
    intro k _
    have h16 : (16 : Nat) ∣ UINT_RANGE := ⟨2 ^ 28, by decide⟩
    show ((c + 1) % UINT_RANGE + k) % 16 = (c + (k + 1)) % 16
    rw [Nat.add_mod, Nat.mod_mod_of_dvd _ h16, ← Nat.add_mod]
    congr 1
    omega

theorem sixteen_rows_count (c : Nat) :
    ∀ j, j < 16 → ((List.range 16).map (fun k => (c + k) % 16)).count j = 1 := by
  have h : ∀ r < 16, ∀ j < 16, ((List.range 16).map (fun k => (r + k) % 16)).count j = 1 := by
    decide
  intro j hj
  have := h (c % 16) (Nat.mod_lt _ (by decide)) j hj
  have hmap : (List.range 16).map (fun k => (c + k) % 16) =
      (List.range 16).map (fun k => (c % 16 + k) % 16) := by
    apply List.map_congr_left
    intro k _
    show (c + k) % 16 = (c % 16 + k) % 16
    omega
  rw [hmap]
  exact this

/-- C17: the row `GetVisualizationData` returns is below 16; outside random-tile
mode it is `min Subresource 15` and the static counter is left alone; in
random-tile mode it is the low four bits of the counter, which then advances by
one, so from the counter 7 call number `k` returns row `(7 + k) % 16` and any 16
consecutive calls return each of the 16 rows exactly once; the table is `m_BC1`
exactly for the three BC1 formats and `m_BC7` otherwise; and the streamer, with
it the copy fence value and every answer of `GetCompleted`, is unchanged. -/
theorem GetVisualizationData_palette_entry (DATA_VIZ_TILE : Nat) (self : FileStreamer)
    (c : Nat) (in_coord : D3D12_TILED_RESOURCE_COORDINATE) (in_format : Nat) :
    (self.GetVisualizationData DATA_VIZ_TILE c in_coord in_format).1.2 < 16 ∧
    (self.m_visualizationMode ≠ DATA_VIZ_TILE →
      (self.GetVisualizationData DATA_VIZ_TILE c in_coord in_format).1.2 =
        min in_coord.Subresource 15 ∧
      (self.GetVisualizationData DATA_VIZ_TILE c in_coord in_format).2.2 = c) ∧
    (self.m_visualizationMode = DATA_VIZ_TILE →
      (self.GetVisualizationData DATA_VIZ_TILE c in_coord in_format).1.2 = c % 16 ∧
      (self.GetVisualizationData DATA_VIZ_TILE c in_coord in_format).2.2 =
        (c + 1) % UINT_RANGE ∧
      (∀ calls, self.visualizationRows DATA_VIZ_TILE 7 calls =
        (List.range calls.length).map (fun k => (7 + k) % 16)) ∧
      (∀ calls, calls.length = 16 → ∀ j, j < 16 →
        (self.visualizationRows DATA_VIZ_TILE c calls).count j = 1)) ∧
    ((self.GetVisualizationData DATA_VIZ_TILE c in_coord in_format).1.1 = PaletteTable.m_BC1 ↔
      in_format = DXGI_FORMAT_BC1_TYPELESS ∨ in_format = DXGI_FORMAT_BC1_UNORM ∨
        in_format = DXGI_FORMAT_BC1_UNORM_SRGB) ∧
    ((self.GetVisualizationData DATA_VIZ_TILE c in_coord in_format).1.1 = PaletteTable.m_BC7 ↔
      ¬ (in_format = DXGI_FORMAT_BC1_TYPELESS ∨ in_format = DXGI_FORMAT_BC1_UNORM ∨
        in_format = DXGI_FORMAT_BC1_UNORM_SRGB)) ∧
    (self.GetVisualizationData DATA_VIZ_TILE c in_coord in_format).2.1 = self ∧
    (self.GetVisualizationData DATA_VIZ_TILE c in_coord in_format).2.1.m_copyFenceValue =
      self.m_copyFenceValue ∧
    (∀ in_updateList,
      (self.GetVisualizationData DATA_VIZ_TILE c in_coord in_format).2.1.GetCompleted
        in_updateList = self.GetCompleted in_updateList) := by
  have htable := GetVisualizationData_table DATA_VIZ_TILE self c in_coord in_format
  refine ⟨?_, GetVisualizationData_fixed DATA_VIZ_TILE self c in_coord in_format, ?_, ?_, ?_,
    rfl, rfl, fun _ => rfl⟩
  · by_cases hmode : self.m_visualizationMode = DATA_VIZ_TILE
    · rw [(GetVisualizationData_random DATA_VIZ_TILE self c in_coord in_format hmode).1]
      exact Nat.mod_lt _ (by decide)
    · rw [(GetVisualizationData_fixed DATA_VIZ_TILE self c in_coord in_format hmode).1]
      exact Nat.lt_succ_of_le (Nat.min_le_right _ _)
  · intro hmode
    obtain ⟨h1, h2⟩ := GetVisualizationData_random DATA_VIZ_TILE self c in_coord in_format hmode
    refine ⟨h1, h2, fun calls => visualizationRows_random DATA_VIZ_TILE self hmode calls 7, ?_⟩
    intro calls hlen j hj
    rw [visualizationRows_random DATA_VIZ_TILE self hmode calls c, hlen]
    exact sixteen_rows_count c j hj
  · rw [htable]
    by_cases h : in_format = DXGI_FORMAT_BC1_TYPELESS ∨ in_format = DXGI_FORMAT_BC1_UNORM ∨
        in_format = DXGI_FORMAT_BC1_UNORM_SRGB
    · rw [if_pos h]; exact iff_of_true rfl h
    · rw [if_neg h]; exact iff_of_false (fun hc => PaletteTable.noConfusion hc) h
  · rw [htable]
    by_cases h : in_format = DXGI_FORMAT_BC1_TYPELESS ∨ in_format = DXGI_FORMAT_BC1_UNORM ∨
        in_format = DXGI_FORMAT_BC1_UNORM_SRGB
    · rw [if_pos h]
      exact iff_of_false (fun hc => PaletteTable.noConfusion hc) (not_not_intro h)
    · rw [if_neg h]; exact iff_of_true rfl h

/-- Witness for C17: a streamer in random-tile mode (taken as mode 2), the counter
at 7, a tile of subresource 40 in a BC1 format. -/
theorem GetVisualizationData_palette_entry_witness :
    ({ freshCaptureStreamer with m_visualizationMode := 2 } : FileStreamer).m_visualizationMode
      = 2 ∧
    (({ freshCaptureStreamer with m_visualizationMode := 2 } : FileStreamer).GetVisualizationData
      2 7 { X := 1, Y := 2, Z := 0, Subresource := 40 } DXGI_FORMAT_BC1_UNORM).1 =
        (PaletteTable.m_BC1, 7) ∧
    (({ freshCaptureStreamer with m_visualizationMode := 2 } : FileStreamer).GetVisualizationData
      2 7 { X := 1, Y := 2, Z := 0, Subresource := 40 } DXGI_FORMAT_BC1_UNORM).2.2 = 8 ∧
    (freshCaptureStreamer.GetVisualizationData 2 7
      { X := 1, Y := 2, Z := 0, Subresource := 40 } 98).1 = (PaletteTable.m_BC7, 15) :=
  have h := GetVisualizationData_palette_entry 2
    { freshCaptureStreamer with m_visualizationMode := 2 } 7
    { X := 1, Y := 2, Z := 0, Subresource := 40 } DXGI_FORMAT_BC1_UNORM
  have hr := h.2.2.1 rfl
  ⟨rfl, Prod.ext ((h.2.2.2.1).2 (Or.inr (Or.inl rfl))) hr.1, hr.2.1, by decide⟩

/-! ## Construction -/

/-- The streamer every construction returns. -/
theorem construct_initialised {α : Type} (ops : FloatOps α) (m_lutSize v0 : Nat)
    (statics : FileStreamerStatics α) (h : statics.firstTimeInit = false) :
    FileStreamer.construct ops m_lutSize v0 statics =
      .ok ({ m_copyFence := { m_completedValue := v0 }, m_copyFenceValue := v0 + 1 }, statics) := by
  simp [FileStreamer.construct, h, pure, Except.pure]

theorem construct_first {α : Type} (ops : FloatOps α) (m_lutSize v0 : Nat)
    (statics : FileStreamerStatics α) (h : statics.firstTimeInit = true)
    (hsize : m_lutSize ≤ statics.m_lut.length) :
    ∃ bc7 bc1,
      InitializeBC7 ops m_lutSize (statics.m_lut.map (addContrast ops)) = .ok bc7 ∧
      InitializeBC1 ops m_lutSize (statics.m_lut.map (addContrast ops)) = .ok bc1 ∧
      FileStreamer.construct ops m_lutSize v0 statics =
        .ok ({ m_copyFence := { m_completedValue := v0 }, m_copyFenceValue := v0 + 1 },
          { firstTimeInit := false, m_lut := statics.m_lut.map (addContrast ops),
            m_BC7 := bc7, m_BC1 := bc1 }) := by
  have hlen : m_lutSize ≤ (statics.m_lut.map (addContrast ops)).length := by
    rw [List.length_map]; exact hsize
  refine ⟨_, _, by rw [InitializeBC7, if_pos hlen], by rw [InitializeBC1, if_pos hlen], ?_⟩
  simp only [FileStreamer.construct, h, if_true, InitializeBC7, InitializeBC1, if_pos hlen]
  rfl

theorem construct_out_of_bounds {α : Type} (ops : FloatOps α) (m_lutSize v0 : Nat)
    (statics : FileStreamerStatics α) (h : statics.firstTimeInit = true)
    (hsize : ¬ m_lutSize ≤ statics.m_lut.length) :
    FileStreamer.construct ops m_lutSize v0 statics = .error .undefinedBehavior := by
  have hlen : ¬ m_lutSize ≤ (statics.m_lut.map (addContrast ops)).length := by
    rw [List.length_map]; exact hsize
  simp only [FileStreamer.construct, h, if_true, InitializeBC7, if_neg hlen]
  rfl

/-- What a construction that returns leaves in the static data. -/
theorem construct_statics {α : Type} (ops : FloatOps α) (m_lutSize v0 : Nat)
    (statics statics1 : FileStreamerStatics α) (s : FileStreamer)
    (h : FileStreamer.construct ops m_lutSize v0 statics = .ok (s, statics1)) :
    s = { m_copyFence := { m_completedValue := v0 }, m_copyFenceValue := v0 + 1 } ∧
    statics1.firstTimeInit = false ∧
    (statics.firstTimeInit = true → statics1.m_lut = statics.m_lut.map (addContrast ops)) ∧
    (statics.firstTimeInit = false → statics1 = statics) := by
  cases hf : statics.firstTimeInit
  · rw [construct_initialised ops m_lutSize v0 statics hf] at h
    have h' := Except.ok.inj h
    have h1 := (Prod.mk.inj h').1
    have h2 := (Prod.mk.inj h').2
    subst h1 h2
    exact ⟨rfl, hf, fun hc => Bool.noConfusion hc, fun _ => rfl⟩
  · by_cases hsize : m_lutSize ≤ statics.m_lut.length
    · obtain ⟨bc7, bc1, _, _, hc⟩ := construct_first ops m_lutSize v0 statics hf hsize
      rw [hc] at h
      have h' := Except.ok.inj h
      have h1 := (Prod.mk.inj h').1
      have h2 := (Prod.mk.inj h').2
      subst h1 h2
      exact ⟨rfl, rfl, fun _ => rfl, fun hc => Bool.noConfusion hc⟩
    · rw [construct_out_of_bounds ops m_lutSize v0 statics hf hsize] at h
      exact Except.noConfusion h

theorem constructMany_initialised {α : Type} (ops : FloatOps α) (m_lutSize v0 : Nat)
    (statics : FileStreamerStatics α) (h : statics.firstTimeInit = false) :
    ∀ n, constructMany ops m_lutSize v0 n statics = .ok statics := by
  intro n
  induction n with
  | zero => rfl
  | succ n ih =>
    rw [constructMany, construct_initialised ops m_lutSize v0 statics h]
    exact ih

/-- C18: for every `n ≥ 1`, constructing `n` streamers one after the other leaves
the static data (colour table, BC7 and BC1 palettes, first-time flag) that
constructing exactly one leaves.  A construction that returns leaves the flag
clear; entered with the flag set it applies the contrast step to each entry of
the colour table exactly once, entered with the flag clear it changes nothing,
and no number of further constructions changes the static data again.  With the
flag set and `m_lutSize` within the colour table the construction returns. -/
theorem visualization_tables_initialised_once {α : Type} (ops : FloatOps α)
    (m_lutSize v0 : Nat) (statics : FileStreamerStatics α) (n : Nat) (hn : 1 ≤ n) :
    constructMany ops m_lutSize v0 n statics =
      Except.map Prod.snd (FileStreamer.construct ops m_lutSize v0 statics) ∧
    (∀ s statics1, FileStreamer.construct ops m_lutSize v0 statics = .ok (s, statics1) →
      statics1.firstTimeInit = false ∧
      (statics.firstTimeInit = true →
        statics1.m_lut = statics.m_lut.map (addContrast ops) ∧
        InitializeBC7 ops m_lutSize statics1.m_lut = .ok statics1.m_BC7 ∧
        InitializeBC1 ops m_lutSize statics1.m_lut = .ok statics1.m_BC1) ∧
      (statics.firstTimeInit = false → statics1 = statics) ∧
      ∀ k, constructMany ops m_lutSize v0 k statics1 = .ok statics1) ∧
    (statics.firstTimeInit = true → m_lutSize ≤ statics.m_lut.length →
      ∃ s statics1, FileStreamer.construct ops m_lutSize v0 statics = .ok (s, statics1)) := by
  refine ⟨?_, ?_, ?_⟩
  · obtain ⟨m, rfl⟩ : ∃ m, n = m + 1 := ⟨n - 1, by omega⟩
    rw [constructMany]
    cases hc : FileStreamer.construct ops m_lutSize v0 statics with
    | error e => rfl
    | ok r =>
      obtain ⟨s, statics1⟩ := r
      obtain ⟨_, hflag, _, _⟩ := construct_statics ops m_lutSize v0 statics statics1 s hc
      exact constructMany_initialised ops m_lutSize v0 statics1 hflag m
  · intro s statics1 hc
    obtain ⟨_, hflag, hlut, hsame⟩ := construct_statics ops m_lutSize v0 statics statics1 s hc
    refine ⟨hflag, ?_, hsame, constructMany_initialised ops m_lutSize v0 statics1 hflag⟩
    intro hf
    refine ⟨hlut hf, ?_⟩
    by_cases hsize : m_lutSize ≤ statics.m_lut.length
    · obtain ⟨bc7, bc1, h7, h1, hc'⟩ := construct_first ops m_lutSize v0 statics hf hsize
      rw [hc'] at hc
      have h2 := (Prod.mk.inj (Except.ok.inj hc)).2
      subst h2
      exact ⟨h7, h1⟩
    · rw [construct_out_of_bounds ops m_lutSize v0 statics hf hsize] at hc
      exact Except.noConfusion hc
  · intro hf hsize
    obtain ⟨bc7, bc1, _, _, hc⟩ := construct_first ops m_lutSize v0 statics hf hsize
    exact ⟨_, _, hc⟩

/-- Witness for C18: three constructions from the sample static data. -/
theorem visualization_tables_initialised_once_witness :
    1 ≤ 3 ∧
    constructMany sampleFloatOps 16 0 3 sampleStatics =
      Except.map Prod.snd (FileStreamer.construct sampleFloatOps 16 0 sampleStatics) ∧
    Except.map (fun st => (st.firstTimeInit, st.m_lut.take 2))
      (constructMany sampleFloatOps 16 0 3 sampleStatics) =
        .ok (false, [(1000, 1000, 1000), (1000, 62, 62)]) ∧
    addContrast sampleFloatOps (addContrast sampleFloatOps (1000, 250, 250)) = (1000, 3, 3) :=
  ⟨by decide,
    (visualization_tables_initialised_once sampleFloatOps 16 0 sampleStatics 3 (by decide)).1,
    rfl, by decide⟩

/-- C20: the constructor, entered with the copy fence value `v0`, creates the fence
with completed value `v0` and leaves `v0 + 1` as the streamer's next copy fence
value: an update list stamped with it is not complete while the fence is at
`v0`, and is complete exactly when the fence has reached `v0 + 1`. -/
theorem fresh_copy_not_complete {α : Type} (ops : FloatOps α) (m_lutSize v0 : Nat)
    (statics : FileStreamerStatics α)
    (hsize : statics.firstTimeInit = true → m_lutSize ≤ statics.m_lut.length) :
    ∃ s statics1, FileStreamer.construct ops m_lutSize v0 statics = .ok (s, statics1) ∧
      s.m_copyFence.GetCompletedValue = v0 ∧
      s.m_copyFenceValue = v0 + 1 ∧
      s.GetCompleted { m_copyFenceValue := s.m_copyFenceValue } = false ∧
      ∀ completed,
        ({ s with m_copyFence := { m_completedValue := completed } } : FileStreamer).GetCompleted
          { m_copyFenceValue := s.m_copyFenceValue } = true ↔ v0 + 1 ≤ completed := by
  have hex : ∃ s statics1, FileStreamer.construct ops m_lutSize v0 statics = .ok (s, statics1) := by
    cases hf : statics.firstTimeInit
    · exact ⟨_, _, construct_initialised ops m_lutSize v0 statics hf⟩
    · obtain ⟨_, _, _, _, hc⟩ := construct_first ops m_lutSize v0 statics hf (hsize hf)
      exact ⟨_, _, hc⟩
  obtain ⟨s, statics1, hc⟩ := hex
  obtain ⟨hs, _⟩ := construct_statics ops m_lutSize v0 statics statics1 s hc
  subst hs
  refine ⟨_, _, hc, rfl, rfl, ?_, ?_⟩
  · simp [FileStreamer.GetCompleted, ID3D12Fence.GetCompletedValue]
  · intro completed
    simp [FileStreamer.GetCompleted, ID3D12Fence.GetCompletedValue]

/-- Witness for C20: a first construction with the fence created at 5. -/
theorem fresh_copy_not_complete_witness :
    (sampleStatics.firstTimeInit = true → 16 ≤ sampleStatics.m_lut.length) ∧
    ∃ s statics1, FileStreamer.construct sampleFloatOps 16 5 sampleStatics = .ok (s, statics1) ∧
      s.m_copyFence.GetCompletedValue = 5 ∧
      s.m_copyFenceValue = 6 ∧
      s.GetCompleted { m_copyFenceValue := s.m_copyFenceValue } = false :=
  have ⟨s, statics1, h1, h2, h3, h4, _⟩ :=
    fresh_copy_not_complete sampleFloatOps 16 5 sampleStatics (fun _ => by decide)
  ⟨fun _ => by decide, s, statics1, h1, h2, h3, h4⟩

end Streaming
